import Mathlib

/-!
# DTResidualHistory: residual histograms per drift-tube superlayer

A shallow embedding of `CalibMuon/DTCalibration/plugins/DTResidualHistory.cc`.

* Floating-point scalars are modelled by an arbitrary linearly ordered field `K`
  (exact arithmetic); the concrete evaluations use `ℚ`.
* Framework types whose headers are outside the translated file (detector
  identifiers, geometry, segments, hits, ROOT histograms and files) are modelled
  by plain structures carrying exactly the members the translated code reads.
* Heap objects created with `new` live in an object store indexed by natural
  numbers; the class members that are pointers hold indices into that store.
* An access with undefined behaviour (element 0 of an empty vector, a null or
  dangling pointer) ends the computation with `Except.error`, carrying the state
  reached when the access happens.
-/

set_option linter.unusedSectionVars false

namespace DTResidualHistory

/-! ## Detector identifiers -/

/-- Chamber identifier: wheel, station, sector. -/
structure DTChamberId where
  wheel : Int
  station : Int
  sector : Int
deriving DecidableEq, Repr

/-- Superlayer identifier: a chamber identifier plus the superlayer index. -/
structure DTSuperLayerId where
  wheel : Int
  station : Int
  sector : Int
  superlayer : Int
deriving DecidableEq, Repr

/-- Layer identifier: a superlayer identifier plus the layer index. -/
structure DTLayerId where
  wheel : Int
  station : Int
  sector : Int
  superlayer : Int
  layer : Int
deriving DecidableEq, Repr

/-- Wire identifier: a layer identifier plus the wire index. -/
structure DTWireId where
  wheel : Int
  station : Int
  sector : Int
  superlayer : Int
  layer : Int
  wire : Int
deriving DecidableEq, Repr

/-- The chamber a layer belongs to (`DTLayerId::chamberId()`). -/
def DTLayerId.chamberId (l : DTLayerId) : DTChamberId :=
  ⟨l.wheel, l.station, l.sector⟩

/-- The superlayer a wire belongs to (`DTWireId::superlayerId()`). -/
def DTWireId.superlayerId (w : DTWireId) : DTSuperLayerId :=
  ⟨w.wheel, w.station, w.sector, w.superlayer⟩

/-- The layer a wire belongs to (`DTWireId::layerId()`). -/
def DTWireId.layerId (w : DTWireId) : DTLayerId :=
  ⟨w.wheel, w.station, w.sector, w.superlayer, w.layer⟩

/-! ## Points, vectors, geometry, reconstructed objects -/

/-- A point in some local frame. -/
structure LocalPoint (K : Type) where
  x : K
  y : K
  z : K

/-- A direction in some local frame. -/
structure LocalVector (K : Type) where
  x : K
  y : K
  z : K

/-- A point in the global frame. -/
structure GlobalPoint (K : Type) where
  x : K
  y : K
  z : K

/-- A layer of the geometry: its identifier, the wire positions of its topology and
its local-to-global transform. -/
structure DTLayer (K : Type) where
  id : DTLayerId
  wirePosition : Int → K
  toGlobal : LocalPoint K → GlobalPoint K

/-- A superlayer of the geometry. -/
structure DTSuperLayer (K : Type) where
  id : DTSuperLayerId
  layers : List (DTLayer K)

/-- A chamber of the geometry, with its global-to-local transform. -/
structure DTChamber (K : Type) where
  id : DTChamberId
  superLayers : List (DTSuperLayer K)
  toLocal : GlobalPoint K → LocalPoint K

/-- The geometry snapshot: the chambers it enumerates and its lookups by identifier,
which yield nothing for an identifier outside the snapshot. -/
structure DTGeometry (K : Type) where
  chambers : List (DTChamber K)
  layer : DTLayerId → Option (DTLayer K)
  chamber : DTChamberId → Option (DTChamber K)

/-- A one-dimensional hit: its wire and its position in the layer frame. -/
structure DTRecHit1D (K : Type) where
  wireId : DTWireId
  localPosition : LocalPoint K

/-- A four-dimensional segment: position and direction in the chamber frame and the
hits of its phi and z projections, when it has them. -/
structure DTRecSegment4D (K : Type) where
  localPosition : LocalPoint K
  localDirection : LocalVector K
  phiSegment : Option (List (DTRecHit1D K))
  zSegment : Option (List (DTRecHit1D K))

section Residual

variable {K : Type} [LinearOrderedField K]

/-- The wire point in the chamber frame, lines 161-169: the wire abscissa with the
hit's own y and z, sent layer → global → chamber. -/
def wirePosInChamber (layer : DTLayer K) (chamber : DTChamber K)
    (recHit1D : DTRecHit1D K) : LocalPoint K :=
  let wireX := layer.wirePosition recHit1D.wireId.wire
  let wirePosInLay : LocalPoint K :=
    ⟨wireX, recHit1D.localPosition.y, recHit1D.localPosition.z⟩
  let wirePosGlob := layer.toGlobal wirePosInLay
  chamber.toLocal wirePosGlob

/-- The segment point of line 172:
`localPosition + localDirection * wirePosInChamber.z / cos(theta)`;
`cosTheta` is the composition of `cos` with the direction's polar angle. -/
def segPosAtZWire (cosTheta : LocalVector K → K) (segment : DTRecSegment4D K)
    (wire : LocalPoint K) : LocalPoint K :=
  let p := segment.localPosition
  let d := segment.localDirection
  let c := cosTheta d
  ⟨p.x + d.x * wire.z / c, p.y + d.y * wire.z / c, p.z + d.z * wire.z / c⟩

/-- The function `DTResidualHistory::segmentToWireDistance`, lines 156-181. The
geometry lookups of lines 160 and 168 yield nothing outside the snapshot, and then
so does the function. -/
def segmentToWireDistance (dtGeom_ : DTGeometry K) (cosTheta : LocalVector K → K)
    (recHit1D : DTRecHit1D K) (segment : DTRecSegment4D K) : Option K := do
  let wireId := recHit1D.wireId
  let layer ← dtGeom_.layer wireId.layerId
  let wireX := layer.wirePosition wireId.wire
  let wirePosInLay : LocalPoint K :=
    ⟨wireX, recHit1D.localPosition.y, recHit1D.localPosition.z⟩
  let wirePosGlob := layer.toGlobal wirePosInLay
  let chamber ← dtGeom_.chamber wireId.layerId.chamberId
  let wirePosInChamber := chamber.toLocal wirePosGlob
  let p := segment.localPosition
  let d := segment.localDirection
  let c := cosTheta d
  let segPosAtZWire : LocalPoint K :=
    ⟨p.x + d.x * wirePosInChamber.z / c, p.y + d.y * wirePosInChamber.z / c,
     p.z + d.z * wirePosInChamber.z / c⟩
  let sl := wireId.superlayer
  let segmDistance : K :=
    if sl = 1 ∨ sl = 3 then |wirePosInChamber.x - segPosAtZWire.x|
    else if sl = 2 then |segPosAtZWire.y - wirePosInChamber.y|
    else -1
  pure segmDistance

end Residual

/-! ## A synthetic geometry over `ℚ` -/

/-- A layer whose wires all sit at abscissa 0 and whose frame is the global one. -/
def flatLayer (id : DTLayerId) : DTLayer ℚ :=
  ⟨id, fun _ => 0, fun p => ⟨p.x, p.y, p.z⟩⟩

/-- A chamber whose frame is the global one. -/
def flatChamber (id : DTChamberId) (sls : List (DTSuperLayer ℚ)) : DTChamber ℚ :=
  ⟨id, sls, fun p => ⟨p.x, p.y, p.z⟩⟩

/-- A geometry that resolves every identifier to a flat layer and a flat chamber. -/
def flatGeometry : DTGeometry ℚ :=
  ⟨[], fun l => some (flatLayer l), fun c => some (flatChamber c [])⟩

/-- The cosine of the polar angle of a unit direction is its z component. -/
def cosThetaUnit (d : LocalVector ℚ) : ℚ := d.z

/-- A hit on wire 1 of layer 1 of the given superlayer of chamber (0,1,1). -/
def hitAt (sl : Int) (y z : ℚ) : DTRecHit1D ℚ :=
  ⟨⟨0, 1, 1, sl, 1, 1⟩, ⟨0, y, z⟩⟩

/-- A segment through `(x, y, z)` pointing along the chamber's z axis. -/
def segmentThrough (x y z : ℚ) : DTRecSegment4D ℚ :=
  ⟨⟨x, y, z⟩, ⟨0, 0, 1⟩, none, none⟩

/-! ## Decimal strings and histogram names -/

/-- The character of a decimal digit. -/
def digitChar (d : Nat) : Char := Char.ofNat (48 + d)

/-- The decimal digits of a natural number, most significant first. -/
def natChars (n : Nat) : List Char :=
  if n = 0 then ['0'] else (Nat.digits 10 n).reverse.map digitChar

/-- The characters of `std::to_string` on an integer: decimal digits, with a leading
minus sign for a negative value. -/
def intChars (i : Int) : List Char :=
  if i < 0 then '-' :: natChars i.natAbs else natChars i.natAbs

/-- The function `std::to_string` on an integer. -/
def to_string (i : Int) : String := ⟨intChars i⟩

/-- The string `slHistoName` of lines 204-209. -/
def slHistoName (slId : DTSuperLayerId) : String :=
  let wheelStr := to_string slId.wheel
  let step : Int := 3
  "_STEP" ++ to_string step ++
    "_W" ++ wheelStr ++
    "_St" ++ to_string slId.station ++
    "_Sec" ++ to_string slId.sector ++
    "_SL" ++ to_string slId.superlayer

/-- The string `layerHistoName` of lines 239-245. -/
def layerHistoName (layerId : DTLayerId) : String :=
  let wheelStr := to_string layerId.wheel
  let step : Int := 3
  "_STEP" ++ to_string step ++
    "_W" ++ wheelStr ++
    "_St" ++ to_string layerId.station ++
    "_Sec" ++ to_string layerId.sector ++
    "_SL" ++ to_string layerId.superlayer ++
    "_Layer" ++ to_string layerId.layer

/-! ## Histograms, the output file, the object store -/

/-- A one-dimensional histogram: its booking parameters, the directory that owns it
and the values it was filled with, oldest first. -/
structure TH1F (K : Type) where
  name : String
  title : String
  nbinsx : Nat
  xlow : Int
  xup : Int
  directory : List String
  entries : List K

/-- A two-dimensional histogram. -/
structure TH2F (K : Type) where
  name : String
  title : String
  nbinsx : Nat
  xlow : Int
  xup : Int
  nbinsy : Nat
  ylow : Int
  yup : Int
  directory : List String
  entries : List (K × K)

/-- The method `TH1F::Fill(x)`: one more entry. -/
def TH1F.Fill {K : Type} (h : TH1F K) (x : K) : TH1F K :=
  { h with entries := h.entries ++ [x] }

/-- The method `TH2F::Fill(x, y)`: one more entry. -/
def TH2F.Fill {K : Type} (h : TH2F K) (x y : K) : TH2F K :=
  { h with entries := h.entries ++ [(x, y)] }

/-- The output file: the directory paths below its root, and whether it has been
written and is still open. -/
structure TFile where
  directories : List (List String)
  written : Bool
  isOpen : Bool

/-- The method `GetDirectory`: whether the directory exists. -/
def TFile.GetDirectory (f : TFile) (path : List String) : Bool :=
  f.directories.contains path

/-- The method `mkdir`. -/
def TFile.mkdir (f : TFile) (path : List String) : TFile :=
  { f with directories := f.directories ++ [path] }

/-- Assignment `m[k] = v` on a map, and a store at an address of the object store. -/
def assign {κ ν : Type} [DecidableEq κ] (m : κ → ν) (k : κ) (v : ν) : κ → ν :=
  fun k' => if k' = k then v else m k'

/-- The segment collection of an event: the chamber identifiers it holds and the
range of segments of each. -/
structure DTRecSegment4DCollection (K : Type) where
  ids : List DTChamberId
  get : DTChamberId → List (DTRecSegment4D K)

/-- An event: run number, luminosity block and its segment collection. -/
structure Event (K : Type) where
  run : Nat
  luminosityBlock : Nat
  segment4Ds : DTRecSegment4DCollection K

/-- The members of the class, the current ROOT directory, and the store of the
histograms created with `new`. The three maps send an identifier to a vector of
histogram addresses. -/
structure State (K : Type) where
  select_ : DTRecSegment4D K → Event K → Bool
  detailedAnalysis_ : Bool
  rootFile_ : TFile
  gDirectory : List String
  dtGeom_ : Option (DTGeometry K)
  histoMapTH1F_ : DTSuperLayerId → Option (List Nat)
  histoMapPerLayerTH1F_ : DTLayerId → Option (List Nat)
  histoMapTH2F_ : DTSuperLayerId → Option (List Nat)
  histoResLs : Option Nat
  lastrun : Nat
  nevent : Nat
  segmok : Nat
  segmbad : Nat
  th1f : Nat → Option (TH1F K)
  th1fNext : Nat
  th2f : Nat → Option (TH2F K)
  th2fNext : Nat

/-- A `for` loop whose body may end the computation. -/
def forEach {σ α : Type} (body : σ → α → Except σ σ) : σ → List α → Except σ σ
  | s, [] => .ok s
  | s, a :: rest =>
    match body s a with
    | .ok s' => forEach body s' rest
    | .error e => .error e

/-- The state a computation stops in, whether it completed or not. -/
def finalState {σ : Type} : Except σ σ → σ
  | .ok s => s
  | .error s => s

section Plugin

variable {K : Type} [LinearOrderedField K]

/-- The constructor, lines 36-51: a fresh output file, counters at zero. It leaves
`lastrun` and the pointers uninitialised; `lastrun0` is the value `lastrun` happens to
hold. -/
def construct (select_ : DTRecSegment4D K → Event K → Bool) (detailedAnalysis : Bool)
    (lastrun0 : Nat) : State K :=
  { select_ := select_
    detailedAnalysis_ := detailedAnalysis
    rootFile_ := ⟨[], false, true⟩
    gDirectory := []
    dtGeom_ := none
    histoMapTH1F_ := fun _ => none
    histoMapPerLayerTH1F_ := fun _ => none
    histoMapTH2F_ := fun _ => none
    histoResLs := none
    lastrun := lastrun0
    nevent := 0
    segmok := 0
    segmbad := 0
    th1f := fun _ => none
    th1fNext := 0
    th2f := fun _ => none
    th2fNext := 0 }

/-- The method `beginRun`, lines 65-72. -/
def beginRun (st : State K) (dtGeomH : DTGeometry K) : State K :=
  { st with dtGeom_ := some dtGeomH, lastrun := 0 }

/-- The method `bookHistos(DTSuperLayerId, unsigned int)`, lines 192-225. -/
def bookHistos (st : State K) (slId : DTSuperLayerId) (run : Nat) : State K :=
  let runStr := "Run" ++ to_string run
  let wheelStr := to_string slId.wheel
  let file1 :=
    if st.rootFile_.GetDirectory [runStr] then st.rootFile_ else st.rootFile_.mkdir [runStr]
  let file2 :=
    if file1.GetDirectory [runStr, "Wheel" ++ wheelStr] then file1
    else file1.mkdir [runStr, "Wheel" ++ wheelStr]
  let wheelDir := [runStr, "Wheel" ++ wheelStr]
  let histo : TH1F K :=
    { name := "hRes" ++ slHistoName slId
      title := "Residuals on the dist. (cm) from wire (rec_hit - segm_extr)"
      nbinsx := 200, xlow := -1, xup := 1
      directory := wheelDir
      entries := [] }
  let p := st.th1fNext
  { st with
    rootFile_ := file2
    gDirectory := wheelDir
    th1f := assign st.th1f p (some histo)
    th1fNext := p + 1
    histoMapTH1F_ := assign st.histoMapTH1F_ slId (some [p]) }

/-- The method `bookHistos(DTLayerId, unsigned int)`, lines 227-261. -/
def bookHistosLayer (st : State K) (layerId : DTLayerId) (run : Nat) : State K :=
  let runStr := "Run" ++ to_string run
  let wheelStr := to_string layerId.wheel
  let file1 :=
    if st.rootFile_.GetDirectory [runStr] then st.rootFile_ else st.rootFile_.mkdir [runStr]
  let file2 :=
    if file1.GetDirectory [runStr, "Wheel" ++ wheelStr] then file1
    else file1.mkdir [runStr, "Wheel" ++ wheelStr]
  let wheelDir := [runStr, "Wheel" ++ wheelStr]
  let histo : TH1F K :=
    { name := "hRes" ++ layerHistoName layerId
      title := "Residuals on the dist. (cm) from wire (rec_hit - segm_extr)"
      nbinsx := 200, xlow := -1, xup := 1
      directory := wheelDir
      entries := [] }
  let p := st.th1fNext
  { st with
    rootFile_ := file2
    gDirectory := wheelDir
    th1f := assign st.th1f p (some histo)
    th1fNext := p + 1
    histoMapPerLayerTH1F_ := assign st.histoMapPerLayerTH1F_ layerId (some [p]) }

/-- The method `fillHistos(DTSuperLayerId, float)`, lines 264-267. The subscript on
the map inserts an empty vector under an absent identifier; element 0 of an empty
vector, and a pointer to no histogram, end the computation. -/
def fillHistos (st : State K) (slId : DTSuperLayerId) (residualOnDistance : K) :
    Except (State K) (State K) :=
  match st.histoMapTH1F_ slId with
  | none => .error { st with histoMapTH1F_ := assign st.histoMapTH1F_ slId (some []) }
  | some [] => .error st
  | some (p :: _) =>
    match st.th1f p with
    | none => .error st
    | some h => .ok { st with th1f := assign st.th1f p (some (h.Fill residualOnDistance)) }

/-- The method `fillHistos(DTLayerId, float)`, lines 270-273. -/
def fillHistosLayer (st : State K) (layerId : DTLayerId) (residualOnDistance : K) :
    Except (State K) (State K) :=
  match st.histoMapPerLayerTH1F_ layerId with
  | none =>
    .error { st with histoMapPerLayerTH1F_ := assign st.histoMapPerLayerTH1F_ layerId (some []) }
  | some [] => .error st
  | some (p :: _) =>
    match st.th1f p with
    | none => .error st
    | some h => .ok { st with th1f := assign st.th1f p (some (h.Fill residualOnDistance)) }

/-- The call `histoResLs->Fill(x, y)` of line 149. -/
def fillHistoResLs (st : State K) (x y : K) : Except (State K) (State K) :=
  match st.histoResLs with
  | none => .error st
  | some q =>
    match st.th2f q with
    | none => .error st
    | some h => .ok { st with th2f := assign st.th2f q (some (h.Fill x y)) }

/-- The identifier `slIdToFill` of line 76. -/
def slIdToFill : DTSuperLayerId := ⟨-2, 1, 1, 1⟩

/-- The loop over the layers of a superlayer, lines 90-93. -/
def bookLayers (run : Nat) (st : State K) (layers : List (DTLayer K)) : State K :=
  layers.foldl (fun s layer_it => bookHistosLayer s layer_it.id run) st

/-- The loop over the superlayers of a chamber, lines 86-95. -/
def bookSuperLayers (run : Nat) (st : State K) (sls : List (DTSuperLayer K)) : State K :=
  sls.foldl (fun s sl_it =>
    let s1 := bookHistos s sl_it.id run
    if s1.detailedAnalysis_ then bookLayers run s1 sl_it.layers else s1) st

/-- The loop over the chambers of the geometry, lines 84-96. -/
def bookChambers (run : Nat) (st : State K) (chambers : List (DTChamber K)) : State K :=
  chambers.foldl (fun s ch_it => bookSuperLayers run s ch_it.superLayers) st

/-- The booking of the two-dimensional histogram, lines 98-108. -/
def bookHistoResLs (st : State K) (run : Nat) : State K :=
  let runStr := "Run" ++ to_string run
  let file1 :=
    if st.rootFile_.GetDirectory [runStr] then st.rootFile_ else st.rootFile_.mkdir [runStr]
  let histo : TH2F K :=
    { name := "histoResLs"
      title := "Residuals vs Lumisection"
      nbinsx := 100, xlow := 0, xup := 10000
      nbinsy := 100, ylow := -1, yup := 1
      directory := [runStr]
      entries := [] }
  let q := st.th2fNext
  { st with
    rootFile_ := file1
    th2f := assign st.th2f q (some histo)
    th2fNext := q + 1
    histoResLs := some q
    histoMapTH2F_ := assign st.histoMapTH2F_ slIdToFill (some [q])
    gDirectory := []
    lastrun := run }

/-- The body of `if (run != lastrun)`, lines 82-108. Reading the chambers through a
geometry pointer that was never set ends the computation. -/
def analyzeNewRun (st : State K) (run : Nat) : Except (State K) (State K) :=
  let st1 := { st with histoMapTH1F_ := fun _ => none }
  match st1.dtGeom_ with
  | none => .error st1
  | some dtGeom => .ok (bookHistoResLs (bookChambers run st1 dtGeom.chambers) run)

/-- The body of the loop over the hits of a segment, lines 146-150. `compute` is
`DTRecHitSegmentResidual().compute`. -/
def analyzeHit (compute : DTGeometry K → DTRecHit1D K → DTRecSegment4D K → K)
    (event : Event K) (segment : DTRecSegment4D K) (st : State K)
    (recHit1D : DTRecHit1D K) : Except (State K) (State K) :=
  let wireId := recHit1D.wireId
  match st.dtGeom_ with
  | none => .error st
  | some dtGeom =>
    let residualOnDistance := compute dtGeom recHit1D segment
    match fillHistos st wireId.superlayerId residualOnDistance with
    | .error e => .error e
    | .ok st1 =>
      match (if wireId.superlayerId = slIdToFill then
              fillHistoResLs st1 (event.luminosityBlock : K) residualOnDistance
            else .ok st1) with
      | .error e => .error e
      | .ok st2 =>
        if st2.detailedAnalysis_ then fillHistosLayer st2 wireId.layerId residualOnDistance
        else .ok st2

/-- The hits `recHits1D_S3` of a segment, lines 129-141: those of the phi projection
followed by those of the z projection. -/
def recHits1D_S3 (segment : DTRecSegment4D K) : List (DTRecHit1D K) :=
  (match segment.phiSegment with
    | some phiRecHits => phiRecHits
    | none => []) ++
  (match segment.zSegment with
    | some zRecHits => zRecHits
    | none => [])

/-- The body of the loop over the segments of a chamber, lines 125-151. -/
def analyzeSegment (compute : DTGeometry K → DTRecHit1D K → DTRecSegment4D K → K)
    (event : Event K) (st : State K) (segment : DTRecSegment4D K) :
    Except (State K) (State K) :=
  if ! st.select_ segment event then .ok { st with segmbad := st.segmbad + 1 }
  else
    forEach (analyzeHit compute event segment) { st with segmok := st.segmok + 1 }
      (recHits1D_S3 segment)

/-- The loop over the chambers of the segment collection, lines 117-153. -/
def analyzeSegments (compute : DTGeometry K → DTRecHit1D K → DTRecSegment4D K → K)
    (event : Event K) (st : State K) : Except (State K) (State K) :=
  forEach (fun s chamberIdIt =>
    forEach (analyzeSegment compute event) s (event.segment4Ds.get chamberIdIt))
    st event.segment4Ds.ids

/-- The state in which the run check of line 81 is made: line 78 and line 79. -/
def analyzeEnter (st : State K) : State K :=
  { st with gDirectory := [], nevent := st.nevent + 1 }

/-- The method `analyze`, lines 74-154. -/
def analyze (compute : DTGeometry K → DTRecHit1D K → DTRecSegment4D K → K)
    (st : State K) (event : Event K) : Except (State K) (State K) :=
  let st0 := analyzeEnter st
  let run := event.run
  match (if run ≠ st0.lastrun then analyzeNewRun st0 run else .ok st0) with
  | .error e => .error e
  | .ok st1 => analyzeSegments compute event st1

/-- The method `endJob`, lines 183-190. -/
def endJob (st : State K) : State K :=
  { st with gDirectory := [], rootFile_ := { st.rootFile_ with written := true, isOpen := false } }

end Plugin

/-! ## Observations on a state -/

section Observations

variable {K : Type} [LinearOrderedField K]

/-- The address of the histogram of a superlayer: element 0 of its vector. -/
def slPtr (st : State K) (s : DTSuperLayerId) : Option Nat :=
  (st.histoMapTH1F_ s).bind List.head?

/-- The address of the histogram of a layer: element 0 of its vector. -/
def layerPtr (st : State K) (l : DTLayerId) : Option Nat :=
  (st.histoMapPerLayerTH1F_ l).bind List.head?

/-- The values held by the one-dimensional histogram at an address. -/
def entries1 (st : State K) (p : Nat) : List K :=
  match st.th1f p with
  | some h => h.entries
  | none => []

/-- The values held by the two-dimensional histogram at an address. -/
def entries2 (st : State K) (q : Nat) : List (K × K) :=
  match st.th2f q with
  | some h => h.entries
  | none => []

/-- A store of one-dimensional histograms after a sequence of fills, each an address
and a value. -/
def recorded1 (heap : Nat → Option (TH1F K)) (fills : List (Nat × K)) :
    Nat → Option (TH1F K) :=
  fun p => (heap p).map fun h =>
    { h with entries := h.entries ++ (fills.filter fun f => decide (f.1 = p)).map Prod.snd }

/-- A store of two-dimensional histograms after a sequence of fills. -/
def recorded2 (heap : Nat → Option (TH2F K)) (fills : List (Nat × (K × K))) :
    Nat → Option (TH2F K) :=
  fun q => (heap q).map fun h =>
    { h with entries := h.entries ++ (fills.filter fun f => decide (f.1 = q)).map Prod.snd }

/-- A state after `dok` accepted and `dbad` rejected segments and the given fills. -/
def bump (st : State K) (dok dbad : Nat) (f1 : List (Nat × K))
    (f2 : List (Nat × (K × K))) : State K :=
  { st with
    segmok := st.segmok + dok
    segmbad := st.segmbad + dbad
    th1f := recorded1 st.th1f f1
    th2f := recorded2 st.th2f f2 }

/-- The fills of one-dimensional histograms that a hit causes. -/
def hitFills1 (st : State K) (compute : DTGeometry K → DTRecHit1D K → DTRecSegment4D K → K)
    (dtGeom : DTGeometry K) (segment : DTRecSegment4D K) (recHit1D : DTRecHit1D K) :
    List (Nat × K) :=
  (slPtr st recHit1D.wireId.superlayerId).toList.map
      (fun p => (p, compute dtGeom recHit1D segment)) ++
  (if st.detailedAnalysis_ then
    (layerPtr st recHit1D.wireId.layerId).toList.map
      (fun p => (p, compute dtGeom recHit1D segment))
   else [])

/-- The fills of the two-dimensional histogram that a hit causes. -/
def hitFills2 (st : State K) (compute : DTGeometry K → DTRecHit1D K → DTRecSegment4D K → K)
    (dtGeom : DTGeometry K) (event : Event K) (segment : DTRecSegment4D K)
    (recHit1D : DTRecHit1D K) : List (Nat × (K × K)) :=
  if recHit1D.wireId.superlayerId = slIdToFill then
    st.histoResLs.toList.map
      (fun q => (q, ((event.luminosityBlock : K), compute dtGeom recHit1D segment)))
  else []

/-- The fills of one-dimensional histograms that a segment causes: those of its hits
when the selector accepts it, none otherwise. -/
def segFills1 (st : State K) (compute : DTGeometry K → DTRecHit1D K → DTRecSegment4D K → K)
    (dtGeom : DTGeometry K) (event : Event K) (segment : DTRecSegment4D K) :
    List (Nat × K) :=
  if st.select_ segment event then
    (recHits1D_S3 segment).flatMap (hitFills1 st compute dtGeom segment)
  else []

/-- The fills of the two-dimensional histogram that a segment causes. -/
def segFills2 (st : State K) (compute : DTGeometry K → DTRecHit1D K → DTRecSegment4D K → K)
    (dtGeom : DTGeometry K) (event : Event K) (segment : DTRecSegment4D K) :
    List (Nat × (K × K)) :=
  if st.select_ segment event then
    (recHits1D_S3 segment).flatMap (hitFills2 st compute dtGeom event segment)
  else []

/-- All segments of an event, chamber by chamber. -/
def eventSegments (event : Event K) : List (DTRecSegment4D K) :=
  event.segment4Ds.ids.flatMap event.segment4Ds.get

/-- The hits recorded for an event, each with its segment: the hits of the segments
the selector accepts, in processing order. -/
def acceptedHits (st : State K) (event : Event K) :
    List (DTRecHit1D K × DTRecSegment4D K) :=
  ((eventSegments event).filter fun seg => st.select_ seg event).flatMap
    fun seg => (recHits1D_S3 seg).map fun hit => (hit, seg)

/-- A hit can be recorded in a state: the geometry is set, the hit's superlayer has a
live histogram, so has its layer in detailed mode, and the two-dimensional histogram
is live when the hit is in the superlayer `slIdToFill`. -/
def HitReady (st : State K) (recHit1D : DTRecHit1D K) : Prop :=
  (∃ p h, slPtr st recHit1D.wireId.superlayerId = some p ∧ st.th1f p = some h) ∧
  (recHit1D.wireId.superlayerId = slIdToFill →
    ∃ q h, st.histoResLs = some q ∧ st.th2f q = some h) ∧
  (st.detailedAnalysis_ = true →
    ∃ p h, layerPtr st recHit1D.wireId.layerId = some p ∧ st.th1f p = some h)

/-- Every hit of every segment the selector accepts can be recorded. -/
def EventReady (st : State K) (event : Event K) : Prop :=
  ∀ seg ∈ eventSegments event, st.select_ seg event = true →
    ∀ hit ∈ recHits1D_S3 seg, HitReady st hit

/-- The registry invariant: every registered vector holds exactly one address of a
live histogram, and no address is registered twice. -/
structure RegistryOK (st : State K) : Prop where
  slValid : ∀ s v, st.histoMapTH1F_ s = some v →
    ∃ p, v = [p] ∧ p < st.th1fNext ∧ ∃ h, st.th1f p = some h
  layerValid : ∀ l v, st.histoMapPerLayerTH1F_ l = some v →
    ∃ p, v = [p] ∧ p < st.th1fNext ∧ ∃ h, st.th1f p = some h
  slInj : ∀ s s' p, slPtr st s = some p → slPtr st s' = some p → s = s'
  layerInj : ∀ l l' p, layerPtr st l = some p → layerPtr st l' = some p → l = l'
  disjoint : ∀ s l p, slPtr st s = some p → layerPtr st l = some p → False
  resLsValid : ∀ q, st.histoResLs = some q → q < st.th2fNext ∧ ∃ h, st.th2f q = some h
  unused1 : ∀ p, st.th1fNext ≤ p → st.th1f p = none
  unused2 : ∀ q, st.th2fNext ≤ q → st.th2f q = none

/-- The superlayer identifiers a geometry enumerates. -/
def superLayerIds (dtGeom : DTGeometry K) : List DTSuperLayerId :=
  dtGeom.chambers.flatMap fun ch => ch.superLayers.map fun sl => sl.id

/-- The layer identifiers a geometry enumerates. -/
def layerIds (dtGeom : DTGeometry K) : List DTLayerId :=
  dtGeom.chambers.flatMap fun ch => ch.superLayers.flatMap fun sl =>
    sl.layers.map fun l => l.id

end Observations

/-! ## Concrete inputs over `ℚ` -/

/-- A selector that accepts the segments with a phi projection. -/
def selectPhi (seg : DTRecSegment4D ℚ) (_ : Event ℚ) : Bool :=
  seg.phiSegment.isSome

/-- A freshly constructed analyzer, summary mode or detailed mode. -/
def freshState (detailed : Bool) : State ℚ :=
  construct selectPhi detailed 0

/-- Superlayer 1 of chamber (0,1,1). -/
def slA : DTSuperLayerId := ⟨0, 1, 1, 1⟩

/-- Layer 1 of superlayer 1 of chamber (0,1,1). -/
def layerA : DTLayerId := ⟨0, 1, 1, 1, 1⟩

/-! ## Relations between states, and whole jobs -/

section Jobs

variable {K : Type} [LinearOrderedField K]

/-- Two states with the same configuration, geometry, scoped run and counters. -/
def SameCounters (st st' : State K) : Prop :=
  st'.select_ = st.select_ ∧ st'.detailedAnalysis_ = st.detailedAnalysis_ ∧
  st'.dtGeom_ = st.dtGeom_ ∧ st'.lastrun = st.lastrun ∧ st'.nevent = st.nevent ∧
  st'.segmok = st.segmok ∧ st'.segmbad = st.segmbad

/-- A later state of the same event: same configuration, geometry, scoped run and
event counter, segment counters not smaller. -/
def Progress (st st' : State K) : Prop :=
  st'.select_ = st.select_ ∧ st'.detailedAnalysis_ = st.detailedAnalysis_ ∧
  st'.dtGeom_ = st.dtGeom_ ∧ st'.lastrun = st.lastrun ∧ st'.nevent = st.nevent ∧
  st.segmok ≤ st'.segmok ∧ st.segmbad ≤ st'.segmbad

/-- The state after the segments `segs` of `event` have been classified: the accepted
counter has grown by the number the selector accepts, the rejected counter by the
number it rejects. -/
def Counted (event : Event K) (st : State K) (segs : List (DTRecSegment4D K))
    (st' : State K) : Prop :=
  st'.select_ = st.select_ ∧ st'.nevent = st.nevent ∧
  st'.segmok = st.segmok + segs.countP (fun seg => st.select_ seg event) ∧
  st'.segmbad = st.segmbad + segs.countP (fun seg => ! st.select_ seg event)

/-- A call of the framework on the analyzer. -/
inductive Call (K : Type) where
  | beginRun (dtGeomH : DTGeometry K)
  | analyze (event : Event K)
  | endJob

/-- The effect of one call. -/
def step (compute : DTGeometry K → DTRecHit1D K → DTRecSegment4D K → K) (st : State K) :
    Call K → Except (State K) (State K)
  | .beginRun dtGeomH => .ok (beginRun st dtGeomH)
  | .analyze event => analyze compute st event
  | .endJob => .ok (endJob st)

/-- The effect of a sequence of calls. -/
def runJob (compute : DTGeometry K → DTRecHit1D K → DTRecSegment4D K → K) (st : State K)
    (calls : List (Call K)) : Except (State K) (State K) :=
  forEach (step compute) st calls

/-- The segments a call presents to the selector. -/
def callSegments : Call K → List (DTRecSegment4D K)
  | .analyze event => eventSegments event
  | _ => []

/-- The number of events a call presents. -/
def callEvents : Call K → Nat
  | .analyze _ => 1
  | _ => 0

end Jobs

/-! ## Concrete jobs over `ℚ` -/

/-- A geometry with the single chamber (w,1,1), its superlayer 1 and that
superlayer's layer 1; every lookup resolves to a flat layer or chamber. -/
def geomWheel (w : Int) : DTGeometry ℚ :=
  { chambers := [flatChamber ⟨w, 1, 1⟩ [⟨⟨w, 1, 1, 1⟩, [flatLayer ⟨w, 1, 1, 1, 1⟩]⟩]]
    layer := fun l => some (flatLayer l)
    chamber := fun c => some (flatChamber c []) }

/-- The residual used in the concrete jobs: the distance of `segmentToWireDistance`
for unit directions. -/
def computeQ (dtGeom : DTGeometry ℚ) (recHit1D : DTRecHit1D ℚ) (segment : DTRecSegment4D ℚ) :
    ℚ :=
  (segmentToWireDistance dtGeom cosThetaUnit recHit1D segment).getD (-1)

/-- A hit on wire 1 of layer 1 of superlayer 1 of chamber (w,1,1), at the origin of
the layer frame. -/
def hitWheel (w : Int) : DTRecHit1D ℚ :=
  ⟨⟨w, 1, 1, 1, 1, 1⟩, ⟨0, 0, 0⟩⟩

/-- A segment through (1/10, 0, 0) along z whose phi projection holds one hit in
chamber (w,1,1): the selector `selectPhi` accepts it. -/
def segWheel (w : Int) : DTRecSegment4D ℚ :=
  ⟨⟨1/10, 0, 0⟩, ⟨0, 0, 1⟩, some [hitWheel w], none⟩

/-- A segment with the same hit in its z projection only: `selectPhi` rejects it. -/
def segRejected (w : Int) : DTRecSegment4D ℚ :=
  ⟨⟨1/10, 0, 0⟩, ⟨0, 0, 1⟩, none, some [hitWheel w]⟩

/-- An event with the given segments in chamber (w,1,1). -/
def eventWheel (run lumi : Nat) (w : Int) (segs : List (DTRecSegment4D ℚ)) : Event ℚ :=
  { run := run
    luminosityBlock := lumi
    segment4Ds :=
      { ids := [⟨w, 1, 1⟩]
        get := fun id => if id = ⟨w, 1, 1⟩ then segs else [] } }

/-- An event without segments. -/
def eventEmpty (run lumi : Nat) : Event ℚ :=
  { run := run
    luminosityBlock := lumi
    segment4Ds := { ids := [], get := fun _ => [] } }

/-- The analyzer after `beginRun` on the geometry of wheel `w` and a first, empty
event of run 5. -/
def populated (detailed : Bool) (w : Int) : State ℚ :=
  finalState (runJob computeQ (freshState detailed)
    [.beginRun (geomWheel w), .analyze (eventEmpty 5 1)])

section JobCounts

variable {K : Type} [LinearOrderedField K]

/-- The number of segments of a call that the selector accepts. -/
def callAccepted (select_ : DTRecSegment4D K → Event K → Bool) : Call K → Nat
  | .analyze event => (eventSegments event).countP fun seg => select_ seg event
  | _ => 0

/-- The number of segments of a call that the selector rejects. -/
def callRejected (select_ : DTRecSegment4D K → Event K → Bool) : Call K → Nat
  | .analyze event => (eventSegments event).countP fun seg => ! select_ seg event
  | _ => 0

end JobCounts

section Booked

variable {K : Type} [LinearOrderedField K]

/-- Superlayer `s` holds a histogram booked for `run` and not yet filled: registered
at a live address, empty, with the name and the directory `bookHistos` gives it. -/
def BookedSL (run : Nat) (st : State K) (s : DTSuperLayerId) : Prop :=
  ∃ p h, slPtr st s = some p ∧ p < st.th1fNext ∧ st.th1f p = some h ∧ h.entries = [] ∧
    h.name = "hRes" ++ slHistoName s ∧
    h.directory = ["Run" ++ to_string run, "Wheel" ++ to_string s.wheel]

/-- Layer `l` holds a histogram booked for `run` and not yet filled. -/
def BookedLayer (run : Nat) (st : State K) (l : DTLayerId) : Prop :=
  ∃ p h, layerPtr st l = some p ∧ p < st.th1fNext ∧ st.th1f p = some h ∧ h.entries = [] ∧
    h.name = "hRes" ++ layerHistoName l ∧
    h.directory = ["Run" ++ to_string run, "Wheel" ++ to_string l.wheel]

/-- A later state of the same booking pass: same detailed-mode flag, and every
histogram booked for `run` is still booked. -/
def KeepsBooked (run : Nat) (st st' : State K) : Prop :=
  st'.detailedAnalysis_ = st.detailedAnalysis_ ∧
  (∀ s, BookedSL run st s → BookedSL run st' s) ∧
  (∀ l, BookedLayer run st l → BookedLayer run st' l)

end Booked

section BooksRun

variable {K : Type} [LinearOrderedField K]

/-- The event `event` makes `analyze` open a run scope in state `st`: the transition
completes in a state `booked`; the hits of the event are recorded starting from
`booked`; in `booked` the scoped run is the event's, every superlayer the geometry
enumerates is booked for that run, so is every layer in detailed mode, and the
two-dimensional histogram is booked, empty, under `slIdToFill`; and when `analyze`
stops the scoped run is the event's. -/
def BooksRun (compute : DTGeometry K → DTRecHit1D K → DTRecSegment4D K → K)
    (st : State K) (event : Event K) (dtGeom : DTGeometry K) : Prop :=
  ∃ booked, analyzeNewRun (analyzeEnter st) event.run = .ok booked ∧
    analyze compute st event = analyzeSegments compute event booked ∧
    booked.lastrun = event.run ∧
    (∀ s ∈ superLayerIds dtGeom, BookedSL event.run booked s) ∧
    (st.detailedAnalysis_ = true → ∀ l ∈ layerIds dtGeom, BookedLayer event.run booked l) ∧
    (∃ q h, booked.histoResLs = some q ∧ booked.histoMapTH2F_ slIdToFill = some [q] ∧
      booked.th2f q = some h ∧ h.entries = [] ∧
      h.directory = ["Run" ++ to_string event.run]) ∧
    (finalState (analyze compute st event)).lastrun = event.run

end BooksRun

/-! ## The hits of a segment, as the specification enumerates them -/

section SpecHits

variable {K : Type} [LinearOrderedField K]

/-- The constituent hits of a segment in the order of the specification: the hits
of the phi view in their stored order, followed by the hits of the z view in their
stored order; a view the segment lacks contributes no hit. This definition is
independent of `recHits1D_S3`. -/
def constituentHits (segment : DTRecSegment4D K) : List (DTRecHit1D K) :=
  segment.phiSegment.getD [] ++ segment.zSegment.getD []

/-- The hits of an event that the specification has recorded, each with its segment:
segment by segment in the order of the collection, only the segments the selector
accepts, each with its constituent hits phi view first. -/
def recordedHits (st : State K) (event : Event K) :
    List (DTRecHit1D K × DTRecSegment4D K) :=
  ((eventSegments event).filter fun seg => st.select_ seg event).flatMap
    fun seg => (constituentHits seg).map fun hit => (hit, seg)

/-- Every constituent hit, phi view or z view, of every segment the selector accepts
is registered in the state. -/
def EventRegistered (st : State K) (event : Event K) : Prop :=
  ∀ seg ∈ eventSegments event, st.select_ seg event = true →
    ∀ hit ∈ constituentHits seg, HitReady st hit

/-- The point of the segment's line at height `z` in the chamber frame: the segment
extrapolated to that `z`, which is what the comments of lines 163 and 171 describe. -/
def segmentAtZ (segment : DTRecSegment4D K) (z : K) : LocalPoint K :=
  let p := segment.localPosition
  let d := segment.localDirection
  let t := (z - p.z) / d.z
  ⟨p.x + d.x * t, p.y + d.y * t, z⟩

end SpecHits

/-! ## More concrete inputs over `ℚ` -/

/-- A layer whose wire `w` sits at abscissa `w` and whose frame is the global one. -/
def wireLayer (id : DTLayerId) : DTLayer ℚ :=
  ⟨id, fun w => (w : ℚ), fun p => ⟨p.x, p.y, p.z⟩⟩

/-- A geometry with the single chamber (0,1,1), its superlayers 1 and 2 and layer 1
of each; every lookup resolves to a layer with wire `w` at abscissa `w` or to a flat
chamber. -/
def geomWires : DTGeometry ℚ :=
  { chambers := [flatChamber ⟨0, 1, 1⟩
      [⟨⟨0, 1, 1, 1⟩, [wireLayer ⟨0, 1, 1, 1, 1⟩]⟩, ⟨⟨0, 1, 1, 2⟩, [wireLayer ⟨0, 1, 1, 2, 1⟩]⟩]]
    layer := fun l => some (wireLayer l)
    chamber := fun c => some (flatChamber c []) }

/-- A hit on wire `w` of layer 1 of superlayer `sl` of chamber (0,1,1), at height `y`
along the wire. -/
def hitWire (sl w : Int) (y : ℚ) : DTRecHit1D ℚ :=
  ⟨⟨0, 1, 1, sl, 1, w⟩, ⟨0, y, 0⟩⟩

/-- A segment through (1/10, 0, 0) along z with two phi hits, on wires 1 and 2 of
superlayer 1, and one z hit, on wire 1 of superlayer 2 at y = 1/2. -/
def segPhiZ : DTRecSegment4D ℚ :=
  ⟨⟨1/10, 0, 0⟩, ⟨0, 0, 1⟩, some [hitWire 1 1 0, hitWire 1 2 0], some [hitWire 2 1 (1/2)]⟩

/-- A segment with the same hits in its z view only: `selectPhi` rejects it. -/
def segZOnly : DTRecSegment4D ℚ :=
  ⟨⟨1/10, 0, 0⟩, ⟨0, 0, 1⟩, none, some [hitWire 1 1 0, hitWire 2 1 (1/2)]⟩

/-- The detailed-mode analyzer after `beginRun` on `geomWires` and a first, empty
event of run 5. -/
def populatedWires : State ℚ :=
  finalState (runJob computeQ (freshState true)
    [.beginRun geomWires, .analyze (eventEmpty 5 1)])

/-- The detailed-mode analyzer after a run 100 on the geometry of wheel 0, in which
one hit of layer (0,1,1,1,1) is recorded, and the first event of a run 101 on the
geometry of wheel 1. -/
def staleLayerState : State ℚ :=
  finalState (runJob computeQ (freshState true)
    [.beginRun (geomWheel 0), .analyze (eventWheel 100 1 0 [segWheel 0]),
     .beginRun (geomWheel 1), .analyze (eventEmpty 101 1)])

/-- A segment through (0, 0, 1) with the unit direction (3/5, 0, 4/5). -/
def segTilted : DTRecSegment4D ℚ :=
  ⟨⟨0, 0, 1⟩, ⟨3/5, 0, 4/5⟩, none, none⟩

section ResidualTheorems

variable {K : Type} [LinearOrderedField K]

/-- The function's value in terms of the two named points. -/
theorem segmentToWireDistance_eq (dtGeom_ : DTGeometry K) (cosTheta : LocalVector K → K)
    (recHit1D : DTRecHit1D K) (segment : DTRecSegment4D K)
    (layer : DTLayer K) (chamber : DTChamber K)
    (hl : dtGeom_.layer recHit1D.wireId.layerId = some layer)
    (hc : dtGeom_.chamber recHit1D.wireId.layerId.chamberId = some chamber) :
    segmentToWireDistance dtGeom_ cosTheta recHit1D segment =
      some (if recHit1D.wireId.superlayer = 1 ∨ recHit1D.wireId.superlayer = 3 then
              |(wirePosInChamber layer chamber recHit1D).x -
                (segPosAtZWire cosTheta segment (wirePosInChamber layer chamber recHit1D)).x|
            else if recHit1D.wireId.superlayer = 2 then
              |(segPosAtZWire cosTheta segment (wirePosInChamber layer chamber recHit1D)).y -
                (wirePosInChamber layer chamber recHit1D).y|
            else -1) := by
  simp [segmentToWireDistance, hl, hc, wirePosInChamber, segPosAtZWire]

/-- C1: when the geometry resolves the hit's layer and chamber,
`segmentToWireDistance` returns `|wire.x - extrapolated.x|` for superlayer index 1 or
3 and `|extrapolated.y - wire.y|` for superlayer index 2, where `wire` is
`wirePosInChamber` and `extrapolated` is `segPosAtZWire`. -/
theorem segmentToWireDistance_orientation (dtGeom_ : DTGeometry K)
    (cosTheta : LocalVector K → K) (recHit1D : DTRecHit1D K) (segment : DTRecSegment4D K)
    (layer : DTLayer K) (chamber : DTChamber K)
    (hl : dtGeom_.layer recHit1D.wireId.layerId = some layer)
    (hc : dtGeom_.chamber recHit1D.wireId.layerId.chamberId = some chamber) :
    ((recHit1D.wireId.superlayer = 1 ∨ recHit1D.wireId.superlayer = 3) →
      segmentToWireDistance dtGeom_ cosTheta recHit1D segment =
        some |(wirePosInChamber layer chamber recHit1D).x -
          (segPosAtZWire cosTheta segment (wirePosInChamber layer chamber recHit1D)).x|) ∧
    (recHit1D.wireId.superlayer = 2 →
      segmentToWireDistance dtGeom_ cosTheta recHit1D segment =
        some |(segPosAtZWire cosTheta segment (wirePosInChamber layer chamber recHit1D)).y -
          (wirePosInChamber layer chamber recHit1D).y|) := by
  rw [segmentToWireDistance_eq dtGeom_ cosTheta recHit1D segment layer chamber hl hc]
  constructor
  · intro h
    rw [if_pos h]
  · intro h
    have h13 : ¬ (recHit1D.wireId.superlayer = 1 ∨ recHit1D.wireId.superlayer = 3) := by
      rw [h]; decide
    rw [if_neg h13, if_pos h]

/-- C1 at the two synthetic inputs: wire x = 0 and extrapolated x = 0.37 give 0.37 in
superlayer 1; wire y = 0.5 and extrapolated y = 0.2 give 0.3 in superlayer 2. -/
theorem segmentToWireDistance_orientation_witness :
    segmentToWireDistance flatGeometry cosThetaUnit (hitAt 1 0 0)
        (segmentThrough (37/100) 0 0) = some (37/100) ∧
    segmentToWireDistance flatGeometry cosThetaUnit (hitAt 2 (1/2) 0)
        (segmentThrough 0 (1/5) 0) = some (3/10) := by
  have h1 := (segmentToWireDistance_orientation flatGeometry cosThetaUnit (hitAt 1 0 0)
    (segmentThrough (37/100) 0 0) (flatLayer (hitAt 1 0 0).wireId.layerId)
    (flatChamber (hitAt 1 0 0).wireId.layerId.chamberId []) rfl rfl).1 (Or.inl rfl)
  have h2 := (segmentToWireDistance_orientation flatGeometry cosThetaUnit (hitAt 2 (1/2) 0)
    (segmentThrough 0 (1/5) 0) (flatLayer (hitAt 2 (1/2) 0).wireId.layerId)
    (flatChamber (hitAt 2 (1/2) 0).wireId.layerId.chamberId []) rfl rfl).2 rfl
  refine ⟨h1.trans ?_, h2.trans ?_⟩
  · norm_num [wirePosInChamber, segPosAtZWire, flatLayer, flatChamber, hitAt,
      segmentThrough, cosThetaUnit, abs_of_nonneg]
  · norm_num [wirePosInChamber, segPosAtZWire, flatLayer, flatChamber, hitAt,
      segmentThrough, cosThetaUnit, abs_of_neg]

end ResidualTheorems

section DistanceSign

variable {K : Type} [LinearOrderedField K]

/-- C6: when the geometry resolves the hit's layer and chamber,
`segmentToWireDistance` returns exactly -1 for a superlayer index outside {1, 2, 3},
a non-negative value for a superlayer index 1, 2 or 3, and so a negative value if and
only if the index is outside {1, 2, 3}. -/
theorem segmentToWireDistance_sign (dtGeom_ : DTGeometry K)
    (cosTheta : LocalVector K → K) (recHit1D : DTRecHit1D K) (segment : DTRecSegment4D K)
    (layer : DTLayer K) (chamber : DTChamber K)
    (hl : dtGeom_.layer recHit1D.wireId.layerId = some layer)
    (hc : dtGeom_.chamber recHit1D.wireId.layerId.chamberId = some chamber) :
    (¬ (recHit1D.wireId.superlayer = 1 ∨ recHit1D.wireId.superlayer = 2 ∨
          recHit1D.wireId.superlayer = 3) →
      segmentToWireDistance dtGeom_ cosTheta recHit1D segment = some (-1)) ∧
    ((recHit1D.wireId.superlayer = 1 ∨ recHit1D.wireId.superlayer = 2 ∨
          recHit1D.wireId.superlayer = 3) →
      ∃ d, segmentToWireDistance dtGeom_ cosTheta recHit1D segment = some d ∧ 0 ≤ d) ∧
    (∃ d, segmentToWireDistance dtGeom_ cosTheta recHit1D segment = some d ∧
      (d < 0 ↔ ¬ (recHit1D.wireId.superlayer = 1 ∨ recHit1D.wireId.superlayer = 2 ∨
          recHit1D.wireId.superlayer = 3))) := by
  rw [segmentToWireDistance_eq dtGeom_ cosTheta recHit1D segment layer chamber hl hc]
  by_cases h13 : recHit1D.wireId.superlayer = 1 ∨ recHit1D.wireId.superlayer = 3
  · have hin : recHit1D.wireId.superlayer = 1 ∨ recHit1D.wireId.superlayer = 2 ∨
        recHit1D.wireId.superlayer = 3 := by
      rcases h13 with h | h
      · exact Or.inl h
      · exact Or.inr (Or.inr h)
    rw [if_pos h13]
    refine ⟨fun hn => absurd hin hn, fun _ => ⟨_, rfl, abs_nonneg _⟩, ⟨_, rfl, ?_⟩⟩
    constructor
    · intro hneg
      exact absurd (abs_nonneg _) (not_le.mpr hneg)
    · intro hn
      exact absurd hin hn
  · rw [if_neg h13]
    by_cases h2 : recHit1D.wireId.superlayer = 2
    · have hin : recHit1D.wireId.superlayer = 1 ∨ recHit1D.wireId.superlayer = 2 ∨
          recHit1D.wireId.superlayer = 3 := Or.inr (Or.inl h2)
      rw [if_pos h2]
      refine ⟨fun hn => absurd hin hn, fun _ => ⟨_, rfl, abs_nonneg _⟩, ⟨_, rfl, ?_⟩⟩
      constructor
      · intro hneg
        exact absurd (abs_nonneg _) (not_le.mpr hneg)
      · intro hn
        exact absurd hin hn
    · have hout : ¬ (recHit1D.wireId.superlayer = 1 ∨ recHit1D.wireId.superlayer = 2 ∨
          recHit1D.wireId.superlayer = 3) := by
        rintro (h | h | h)
        · exact h13 (Or.inl h)
        · exact h2 h
        · exact h13 (Or.inr h)
      rw [if_neg h2]
      refine ⟨fun _ => rfl, fun hin => absurd hin hout, ⟨_, rfl, ?_⟩⟩
      constructor
      · intro _
        exact hout
      · intro _
        exact neg_one_lt_zero

/-- C6 at superlayer index 4, where the value is -1, and at superlayer index 1, where
it is 0.37. -/
theorem segmentToWireDistance_sign_witness :
    segmentToWireDistance flatGeometry cosThetaUnit (hitAt 4 0 0)
        (segmentThrough (37/100) 0 0) = some (-1) ∧
    ∃ d, segmentToWireDistance flatGeometry cosThetaUnit (hitAt 1 0 0)
        (segmentThrough (37/100) 0 0) = some d ∧ 0 ≤ d :=
  ⟨(segmentToWireDistance_sign flatGeometry cosThetaUnit (hitAt 4 0 0)
      (segmentThrough (37/100) 0 0) (flatLayer (hitAt 4 0 0).wireId.layerId)
      (flatChamber (hitAt 4 0 0).wireId.layerId.chamberId []) rfl rfl).1 (by decide),
   (segmentToWireDistance_sign flatGeometry cosThetaUnit (hitAt 1 0 0)
      (segmentThrough (37/100) 0 0) (flatLayer (hitAt 1 0 0).wireId.layerId)
      (flatChamber (hitAt 1 0 0).wireId.layerId.chamberId []) rfl rfl).2.1 (Or.inl rfl)⟩

/-- The z of the point of line 172 for a unit direction with a non-zero z component
and `cos(theta) = direction.z / |direction|`: the z of the segment position plus the
z of the wire point. -/
theorem segPosAtZWire_z_eq (cosTheta : LocalVector K → K) (segment : DTRecSegment4D K)
    (wire : LocalPoint K) (mag : K) (hmag0 : 0 ≤ mag)
    (hmag : mag * mag = segment.localDirection.x * segment.localDirection.x +
      segment.localDirection.y * segment.localDirection.y +
      segment.localDirection.z * segment.localDirection.z)
    (hunit : segment.localDirection.x * segment.localDirection.x +
      segment.localDirection.y * segment.localDirection.y +
      segment.localDirection.z * segment.localDirection.z = 1)
    (hcos : cosTheta segment.localDirection = segment.localDirection.z / mag)
    (hz : segment.localDirection.z ≠ 0) :
    (segPosAtZWire cosTheta segment wire).z = segment.localPosition.z + wire.z := by
  have hone : mag = 1 := by
    have h1 : mag * mag = 1 := hmag.trans hunit
    nlinarith [hmag0]
  simp only [segPosAtZWire, hcos, hone, div_one]
  rw [mul_div_cancel_left₀ _ hz]

/-- C9 fails on the code: for the segment through (0, 0, 1) with the unit direction
(3/5, 0, 4/5), whose z component is not zero, and a wire point at x = 0, z = 2, the
point of line 172 lies at z = 3, not at the z of the wire, and at x = 3/2, so the
function returns 3/2; the segment extrapolated to the z of the wire, as the comments
of lines 163 and 171 say, is at x = 3/4, z = 2, at distance 3/4 from the wire. -/
theorem segPosAtZWire_misses_wire_z :
    segTilted.localDirection.x * segTilted.localDirection.x +
      segTilted.localDirection.y * segTilted.localDirection.y +
      segTilted.localDirection.z * segTilted.localDirection.z = 1 ∧
    segTilted.localDirection.z ≠ 0 ∧
    cosThetaUnit segTilted.localDirection = segTilted.localDirection.z / 1 ∧
    (wirePosInChamber (flatLayer (hitAt 1 0 2).wireId.layerId)
      (flatChamber (hitAt 1 0 2).wireId.layerId.chamberId []) (hitAt 1 0 2)).x = 0 ∧
    (wirePosInChamber (flatLayer (hitAt 1 0 2).wireId.layerId)
      (flatChamber (hitAt 1 0 2).wireId.layerId.chamberId []) (hitAt 1 0 2)).z = 2 ∧
    (segPosAtZWire cosThetaUnit segTilted
      (wirePosInChamber (flatLayer (hitAt 1 0 2).wireId.layerId)
        (flatChamber (hitAt 1 0 2).wireId.layerId.chamberId []) (hitAt 1 0 2))).z = 3 ∧
    (segPosAtZWire cosThetaUnit segTilted
      (wirePosInChamber (flatLayer (hitAt 1 0 2).wireId.layerId)
        (flatChamber (hitAt 1 0 2).wireId.layerId.chamberId []) (hitAt 1 0 2))).x = 3/2 ∧
    segmentToWireDistance flatGeometry cosThetaUnit (hitAt 1 0 2) segTilted = some (3/2) ∧
    (segmentAtZ segTilted 2).z = 2 ∧
    (segmentAtZ segTilted 2).x = 3/4 ∧
    |(wirePosInChamber (flatLayer (hitAt 1 0 2).wireId.layerId)
      (flatChamber (hitAt 1 0 2).wireId.layerId.chamberId []) (hitAt 1 0 2)).x -
      (segmentAtZ segTilted 2).x| = 3/4 := by
  refine ⟨?_, ?_, ?_, ?_, ?_, ?_, ?_, ?_, ?_, ?_, ?_⟩
  · norm_num [segTilted]
  · norm_num [segTilted]
  · norm_num [segTilted, cosThetaUnit]
  · norm_num [wirePosInChamber, flatLayer, flatChamber, hitAt]
  · norm_num [wirePosInChamber, flatLayer, flatChamber, hitAt]
  · norm_num [segTilted, cosThetaUnit, wirePosInChamber, segPosAtZWire, flatLayer,
      flatChamber, hitAt]
  · norm_num [segTilted, cosThetaUnit, wirePosInChamber, segPosAtZWire, flatLayer,
      flatChamber, hitAt]
  · rw [segmentToWireDistance_eq flatGeometry cosThetaUnit (hitAt 1 0 2) segTilted
      (flatLayer (hitAt 1 0 2).wireId.layerId)
      (flatChamber (hitAt 1 0 2).wireId.layerId.chamberId []) rfl rfl]
    norm_num [segTilted, cosThetaUnit, wirePosInChamber, segPosAtZWire, flatLayer,
      flatChamber, hitAt, abs_of_neg]
  · norm_num [segmentAtZ, segTilted]
  · norm_num [segmentAtZ, segTilted]
  · norm_num [segmentAtZ, segTilted, wirePosInChamber, flatLayer, flatChamber, hitAt,
      abs_of_neg]

end DistanceSign

/-! ## Histogram names -/

section Names

/-- The digit read back from its character. -/
theorem digitChar_toNat (d : Nat) (hd : d < 10) : (digitChar d).toNat - 48 = d := by
  interval_cases d <;> rfl

theorem digitChar_ne_underscore (d : Nat) (hd : d < 10) : digitChar d ≠ '_' := by
  interval_cases d <;> decide

theorem digitChar_ne_minus (d : Nat) (hd : d < 10) : digitChar d ≠ '-' := by
  interval_cases d <;> decide

theorem map_digitChar_injective (l m : List Nat) (hl : ∀ d ∈ l, d < 10)
    (hm : ∀ d ∈ m, d < 10) (h : l.map digitChar = m.map digitChar) : l = m := by
  have back : ∀ l : List Nat, (∀ d ∈ l, d < 10) →
      (l.map digitChar).map (fun c => c.toNat - 48) = l := by
    intro l hl
    rw [List.map_map]
    calc l.map ((fun c => c.toNat - 48) ∘ digitChar) = l.map id :=
          List.map_congr_left (fun d hd => digitChar_toNat d (hl d hd))
      _ = l := List.map_id l
  rw [← back l hl, ← back m hm, h]

theorem natChars_injective (n m : Nat) (h : natChars n = natChars m) : n = m := by
  have hlt : ∀ k : Nat, ∀ d ∈ (Nat.digits 10 k).reverse, d < 10 := by
    intro k d hd
    exact Nat.digits_lt_base (by norm_num) (List.mem_reverse.mp hd)
  have hzero : ∀ k : Nat, k ≠ 0 →
      ['0'] ≠ (Nat.digits 10 k).reverse.map digitChar := by
    intro k hk heq
    have h0 : [0].map digitChar = (Nat.digits 10 k).reverse.map digitChar := heq
    have h1 := map_digitChar_injective [0] _ (by simp) (hlt k) h0
    have h2 : Nat.digits 10 k = [0] := by
      have := congrArg List.reverse h1
      simpa using this.symm
    have h3 := Nat.ofDigits_digits 10 k
    rw [h2] at h3
    simp [Nat.ofDigits] at h3
    exact hk h3.symm
  unfold natChars at h
  by_cases hn : n = 0
  · by_cases hm : m = 0
    · rw [hn, hm]
    · rw [if_pos hn, if_neg hm] at h
      exact absurd h (hzero m hm)
  · by_cases hm : m = 0
    · rw [if_neg hn, if_pos hm] at h
      exact absurd h.symm (hzero n hn)
    · rw [if_neg hn, if_neg hm] at h
      have h1 := map_digitChar_injective _ _ (hlt n) (hlt m) h
      exact Nat.digits_inj_iff.mp (List.reverse_injective h1)

theorem natChars_digit (n : Nat) : ∀ c ∈ natChars n, ∃ d, d < 10 ∧ c = digitChar d := by
  intro c hc
  unfold natChars at hc
  by_cases hn : n = 0
  · rw [if_pos hn] at hc
    exact ⟨0, by norm_num, by simpa using hc⟩
  · rw [if_neg hn] at hc
    obtain ⟨d, hd, rfl⟩ := List.mem_map.mp hc
    exact ⟨d, Nat.digits_lt_base (by norm_num) (List.mem_reverse.mp hd), rfl⟩

theorem natChars_ne_nil (n : Nat) : natChars n ≠ [] := by
  unfold natChars
  by_cases hn : n = 0
  · rw [if_pos hn]; simp
  · rw [if_neg hn]
    simpa using Nat.digits_ne_nil_iff_ne_zero.mpr hn

theorem intChars_no_underscore (i : Int) : ∀ c ∈ intChars i, c ≠ '_' := by
  intro c hc
  have hd : ∀ c ∈ natChars i.natAbs, c ≠ '_' := by
    intro c hc
    obtain ⟨d, hd, rfl⟩ := natChars_digit _ c hc
    exact digitChar_ne_underscore d hd
  unfold intChars at hc
  by_cases hi : i < 0
  · rw [if_pos hi] at hc
    rcases List.mem_cons.mp hc with h | h
    · rw [h]; decide
    · exact hd c h
  · rw [if_neg hi] at hc
    exact hd c hc

theorem intChars_injective (i j : Int) (h : intChars i = intChars j) : i = j := by
  have hhead : ∀ n : Nat, ∀ l : List Char, natChars n ≠ '-' :: l := by
    intro n l hl
    have hmem : '-' ∈ natChars n := by rw [hl]; exact List.mem_cons_self _ _
    obtain ⟨d, hd, hc⟩ := natChars_digit n _ hmem
    exact digitChar_ne_minus d hd hc.symm
  unfold intChars at h
  by_cases hi : i < 0
  · by_cases hj : j < 0
    · rw [if_pos hi, if_pos hj] at h
      have := natChars_injective _ _ (List.cons.inj h).2
      omega
    · rw [if_pos hi, if_neg hj] at h
      exact absurd h.symm (hhead _ _)
  · by_cases hj : j < 0
    · rw [if_neg hi, if_pos hj] at h
      exact absurd h (hhead _ _)
    · rw [if_neg hi, if_neg hj] at h
      have := natChars_injective _ _ h
      omega

/-- Two strings that agree up to their first underscore: a field without underscore,
an underscore, a rest. -/
theorem split_at_underscore (a a' r r' : List Char) (ha : ∀ c ∈ a, c ≠ '_')
    (ha' : ∀ c ∈ a', c ≠ '_') (h : a ++ '_' :: r = a' ++ '_' :: r') : a = a' ∧ r = r' := by
  induction a generalizing a' with
  | nil =>
    cases a' with
    | nil => exact ⟨rfl, (List.cons.inj h).2⟩
    | cons c cs =>
      have hc : '_' = c := (List.cons.inj h).1
      exact absurd hc.symm (ha' c (List.mem_cons_self _ _))
  | cons b bs ih =>
    cases a' with
    | nil =>
      have hc : b = '_' := (List.cons.inj h).1
      exact absurd hc (ha b (List.mem_cons_self _ _))
    | cons c cs =>
      have h1 := List.cons.inj h
      obtain ⟨e1, e2⟩ := ih cs (fun x hx => ha x (List.mem_cons_of_mem _ hx))
        (fun x hx => ha' x (List.mem_cons_of_mem _ hx)) h1.2
      exact ⟨by rw [h1.1, e1], e2⟩

/-- The characters of a superlayer histogram name. -/
theorem slHistoName_data (s : DTSuperLayerId) :
    ("hRes" ++ slHistoName s).data =
      "hRes_STEP3_W".data ++ (intChars s.wheel ++ '_' :: ("St".data ++
        (intChars s.station ++ '_' :: ("Sec".data ++
          (intChars s.sector ++ '_' :: ("SL".data ++ intChars s.superlayer)))))) := by
  have h3 : intChars 3 = ['3'] := by
    simp [intChars, natChars, digitChar]
  simp [slHistoName, to_string, String.data_append, h3]

/-- The characters of a layer histogram name. -/
theorem layerHistoName_data (l : DTLayerId) :
    ("hRes" ++ layerHistoName l).data =
      "hRes_STEP3_W".data ++ (intChars l.wheel ++ '_' :: ("St".data ++
        (intChars l.station ++ '_' :: ("Sec".data ++
          (intChars l.sector ++ '_' :: ("SL".data ++
            (intChars l.superlayer ++ '_' :: ("Layer".data ++ intChars l.layer)))))))) := by
  have h3 : intChars 3 = ['3'] := by
    simp [intChars, natChars, digitChar]
  simp [layerHistoName, to_string, String.data_append, h3]

end Names

section NameTheorems

/-- C10: the histogram names are injective in the identifier. Two superlayer names
are equal exactly when wheel, station, sector and superlayer agree; two layer names
are equal exactly when all five fields agree; no superlayer name is a layer name; and
the name of the two-dimensional histogram is neither. -/
theorem histoName_injective :
    (∀ s s' : DTSuperLayerId,
      "hRes" ++ slHistoName s = "hRes" ++ slHistoName s' ↔ s = s') ∧
    (∀ l l' : DTLayerId,
      "hRes" ++ layerHistoName l = "hRes" ++ layerHistoName l' ↔ l = l') ∧
    (∀ (s : DTSuperLayerId) (l : DTLayerId),
      "hRes" ++ slHistoName s ≠ "hRes" ++ layerHistoName l) ∧
    (∀ s : DTSuperLayerId, "histoResLs" ≠ "hRes" ++ slHistoName s) ∧
    (∀ l : DTLayerId, "histoResLs" ≠ "hRes" ++ layerHistoName l) := by
  refine ⟨fun s s' => ⟨fun h => ?_, fun h => by rw [h]⟩,
    fun l l' => ⟨fun h => ?_, fun h => by rw [h]⟩, fun s l h => ?_, fun s h => ?_,
    fun l h => ?_⟩
  · have hd := congrArg String.data h
    rw [slHistoName_data, slHistoName_data] at hd
    have h1 := List.append_cancel_left hd
    obtain ⟨ew, h2⟩ := split_at_underscore _ _ _ _ (intChars_no_underscore _)
      (intChars_no_underscore _) h1
    obtain ⟨est, h3⟩ := split_at_underscore _ _ _ _ (intChars_no_underscore _)
      (intChars_no_underscore _) (List.append_cancel_left h2)
    obtain ⟨esec, h4⟩ := split_at_underscore _ _ _ _ (intChars_no_underscore _)
      (intChars_no_underscore _) (List.append_cancel_left h3)
    have esl := List.append_cancel_left h4
    cases s
    cases s'
    simp only [DTSuperLayerId.mk.injEq]
    exact ⟨intChars_injective _ _ ew, intChars_injective _ _ est,
      intChars_injective _ _ esec, intChars_injective _ _ esl⟩
  · have hd := congrArg String.data h
    rw [layerHistoName_data, layerHistoName_data] at hd
    have h1 := List.append_cancel_left hd
    obtain ⟨ew, h2⟩ := split_at_underscore _ _ _ _ (intChars_no_underscore _)
      (intChars_no_underscore _) h1
    obtain ⟨est, h3⟩ := split_at_underscore _ _ _ _ (intChars_no_underscore _)
      (intChars_no_underscore _) (List.append_cancel_left h2)
    obtain ⟨esec, h4⟩ := split_at_underscore _ _ _ _ (intChars_no_underscore _)
      (intChars_no_underscore _) (List.append_cancel_left h3)
    obtain ⟨esl, h5⟩ := split_at_underscore _ _ _ _ (intChars_no_underscore _)
      (intChars_no_underscore _) (List.append_cancel_left h4)
    have elay := List.append_cancel_left h5
    cases l
    cases l'
    simp only [DTLayerId.mk.injEq]
    exact ⟨intChars_injective _ _ ew, intChars_injective _ _ est,
      intChars_injective _ _ esec, intChars_injective _ _ esl,
      intChars_injective _ _ elay⟩
  · have hd := congrArg String.data h
    rw [slHistoName_data, layerHistoName_data] at hd
    have h1 := List.append_cancel_left hd
    obtain ⟨_, h2⟩ := split_at_underscore _ _ _ _ (intChars_no_underscore _)
      (intChars_no_underscore _) h1
    obtain ⟨_, h3⟩ := split_at_underscore _ _ _ _ (intChars_no_underscore _)
      (intChars_no_underscore _) (List.append_cancel_left h2)
    obtain ⟨_, h4⟩ := split_at_underscore _ _ _ _ (intChars_no_underscore _)
      (intChars_no_underscore _) (List.append_cancel_left h3)
    have h5 := List.append_cancel_left h4
    have hmem : '_' ∈ intChars s.superlayer := by
      rw [h5]
      exact List.mem_append_right _ (List.mem_cons_self _ _)
    exact intChars_no_underscore _ _ hmem rfl
  · have hd := congrArg String.data h
    rw [slHistoName_data] at hd
    have hc : ("histoResLs".data)[1]? = some 'i' := rfl
    have hR : ∀ X : List Char, ("hRes_STEP3_W".data ++ X)[1]? = some 'R' := fun _ => rfl
    rw [hd, hR] at hc
    exact absurd hc (by decide)
  · have hd := congrArg String.data h
    rw [layerHistoName_data] at hd
    have hc : ("histoResLs".data)[1]? = some 'i' := rfl
    have hR : ∀ X : List Char, ("hRes_STEP3_W".data ++ X)[1]? = some 'R' := fun _ => rfl
    rw [hd, hR] at hc
    exact absurd hc (by decide)

/-- C10 on the identifiers (-2,1,1,1) and (0,1,1,1): the names are the expected
strings and differ. -/
theorem histoName_injective_witness :
    "hRes" ++ slHistoName slIdToFill = "hRes_STEP3_W-2_St1_Sec1_SL1" ∧
    "hRes" ++ layerHistoName layerA = "hRes_STEP3_W0_St1_Sec1_SL1_Layer1" ∧
    "hRes" ++ slHistoName slIdToFill ≠ "hRes" ++ slHistoName slA := by
  refine ⟨?_, ?_, fun h => absurd ((histoName_injective.1 slIdToFill slA).mp h) (by decide)⟩
  · simp [slHistoName, to_string, intChars, natChars, digitChar, slIdToFill]
  · simp [layerHistoName, to_string, intChars, natChars, digitChar, layerA]

end NameTheorems

/-! ## Recording a value -/

section Record

variable {K : Type} [LinearOrderedField K]

theorem assign_same {κ ν : Type} [DecidableEq κ] (m : κ → ν) (k : κ) (v : ν) :
    assign m k v k = v := by
  simp [assign]

theorem assign_other {κ ν : Type} [DecidableEq κ] (m : κ → ν) (k k' : κ) (v : ν)
    (h : k' ≠ k) : assign m k v k' = m k' := by
  simp [assign, h]

theorem fillHistos_absent (st : State K) (slId : DTSuperLayerId) (v : K)
    (h : st.histoMapTH1F_ slId = none) :
    fillHistos st slId v =
      .error { st with histoMapTH1F_ := assign st.histoMapTH1F_ slId (some []) } := by
  simp [fillHistos, h]

theorem fillHistosLayer_absent (st : State K) (layerId : DTLayerId) (v : K)
    (h : st.histoMapPerLayerTH1F_ layerId = none) :
    fillHistosLayer st layerId v =
      .error { st with
        histoMapPerLayerTH1F_ := assign st.histoMapPerLayerTH1F_ layerId (some []) } := by
  simp [fillHistosLayer, h]

theorem fillHistos_present (st : State K) (slId : DTSuperLayerId) (v : K) (p : Nat)
    (rest : List Nat) (h : TH1F K) (hm : st.histoMapTH1F_ slId = some (p :: rest))
    (hh : st.th1f p = some h) :
    fillHistos st slId v = .ok { st with th1f := assign st.th1f p (some (h.Fill v)) } := by
  simp [fillHistos, hm, hh]

theorem fillHistosLayer_present (st : State K) (layerId : DTLayerId) (v : K) (p : Nat)
    (rest : List Nat) (h : TH1F K) (hm : st.histoMapPerLayerTH1F_ layerId = some (p :: rest))
    (hh : st.th1f p = some h) :
    fillHistosLayer st layerId v =
      .ok { st with th1f := assign st.th1f p (some (h.Fill v)) } := by
  simp [fillHistosLayer, hm, hh]

/-- Recording against the maps, whatever run scope their keys come from: for a
superlayer (layer) identifier absent from its map the subscript yields an empty
vector, the access to element 0 ends the computation, and no histogram has changed;
for an identifier keyed to a live histogram the value is appended to that histogram
and to no other; an identifier booked by `bookHistos` is keyed. -/
theorem fillHistos_keyed (st : State K) (slId : DTSuperLayerId) (layerId : DTLayerId)
    (v : K) (run : Nat) :
    (st.histoMapTH1F_ slId = none →
      ∃ e, fillHistos st slId v = .error e ∧ e.histoMapTH1F_ slId = some [] ∧
        e.th1f = st.th1f ∧ e.th2f = st.th2f) ∧
    (st.histoMapPerLayerTH1F_ layerId = none →
      ∃ e, fillHistosLayer st layerId v = .error e ∧
        e.histoMapPerLayerTH1F_ layerId = some [] ∧ e.th1f = st.th1f ∧ e.th2f = st.th2f) ∧
    (∀ p rest h, st.histoMapTH1F_ slId = some (p :: rest) → st.th1f p = some h →
      ∃ st', fillHistos st slId v = .ok st' ∧ st'.th1f p = some (h.Fill v) ∧
        (∀ q, q ≠ p → st'.th1f q = st.th1f q) ∧ st'.th2f = st.th2f ∧
        st'.histoMapTH1F_ = st.histoMapTH1F_ ∧
        st'.histoMapPerLayerTH1F_ = st.histoMapPerLayerTH1F_) ∧
    (∀ p rest h, st.histoMapPerLayerTH1F_ layerId = some (p :: rest) → st.th1f p = some h →
      ∃ st', fillHistosLayer st layerId v = .ok st' ∧ st'.th1f p = some (h.Fill v) ∧
        (∀ q, q ≠ p → st'.th1f q = st.th1f q) ∧ st'.th2f = st.th2f ∧
        st'.histoMapTH1F_ = st.histoMapTH1F_ ∧
        st'.histoMapPerLayerTH1F_ = st.histoMapPerLayerTH1F_) ∧
    (∃ st', fillHistos (bookHistos st slId run) slId v = .ok st' ∧
      entries1 st' st.th1fNext = [v]) ∧
    (∃ st', fillHistosLayer (bookHistosLayer st layerId run) layerId v = .ok st' ∧
      entries1 st' st.th1fNext = [v]) := by
  refine ⟨fun h => ?_, fun h => ?_, fun p rest h hm hh => ?_, fun p rest h hm hh => ?_, ?_, ?_⟩
  · exact ⟨_, fillHistos_absent st slId v h, assign_same _ _ _, rfl, rfl⟩
  · exact ⟨_, fillHistosLayer_absent st layerId v h, assign_same _ _ _, rfl, rfl⟩
  · exact ⟨_, fillHistos_present st slId v p rest h hm hh, assign_same _ _ _,
      fun q hq => assign_other _ _ _ _ hq, rfl, rfl, rfl⟩
  · exact ⟨_, fillHistosLayer_present st layerId v p rest h hm hh, assign_same _ _ _,
      fun q hq => assign_other _ _ _ _ hq, rfl, rfl, rfl⟩
  · refine ⟨_, fillHistos_present (bookHistos st slId run) slId v st.th1fNext [] _
      (assign_same _ _ _) (assign_same _ _ _), ?_⟩
    simp [entries1, assign_same, TH1F.Fill]
  · refine ⟨_, fillHistosLayer_present (bookHistosLayer st layerId run) layerId v
      st.th1fNext [] _ (assign_same _ _ _) (assign_same _ _ _), ?_⟩
    simp [entries1, assign_same, TH1F.Fill]

end Record

/-! ## The effect of a completed event -/

section Simulation

variable {K : Type} [LinearOrderedField K]

theorem recorded1_nil (heap : Nat → Option (TH1F K)) : recorded1 heap [] = heap := by
  funext p
  unfold recorded1
  cases heap p <;> simp

theorem recorded2_nil (heap : Nat → Option (TH2F K)) : recorded2 heap [] = heap := by
  funext p
  unfold recorded2
  cases heap p <;> simp

theorem recorded1_append (heap : Nat → Option (TH1F K)) (f g : List (Nat × K)) :
    recorded1 (recorded1 heap f) g = recorded1 heap (f ++ g) := by
  funext p
  unfold recorded1
  cases heap p <;> simp [List.filter_append, List.append_assoc]

theorem recorded2_append (heap : Nat → Option (TH2F K)) (f g : List (Nat × (K × K))) :
    recorded2 (recorded2 heap f) g = recorded2 heap (f ++ g) := by
  funext p
  unfold recorded2
  cases heap p <;> simp [List.filter_append, List.append_assoc]

theorem assign_Fill1 (heap : Nat → Option (TH1F K)) (p : Nat) (h : TH1F K) (v : K)
    (hh : heap p = some h) :
    assign heap p (some (h.Fill v)) = recorded1 heap [(p, v)] := by
  funext q
  unfold recorded1 assign
  by_cases hq : q = p
  · subst hq
    simp [hh, TH1F.Fill]
  · have hq' : ¬ p = q := fun e => hq e.symm
    cases hval : heap q <;> simp [hq, hq']

theorem assign_Fill2 (heap : Nat → Option (TH2F K)) (q : Nat) (h : TH2F K) (x y : K)
    (hh : heap q = some h) :
    assign heap q (some (h.Fill x y)) = recorded2 heap [(q, (x, y))] := by
  funext r
  unfold recorded2 assign
  by_cases hr : r = q
  · subst hr
    simp [hh, TH2F.Fill]
  · have hr' : ¬ q = r := fun e => hr e.symm
    cases hval : heap r <;> simp [hr, hr']

theorem bump_zero (st : State K) : bump st 0 0 [] [] = st := by
  simp [bump, recorded1_nil, recorded2_nil]

theorem bump_bump (st : State K) (a b c d : Nat) (f1 g1 : List (Nat × K))
    (f2 g2 : List (Nat × (K × K))) :
    bump (bump st a b f1 f2) c d g1 g2 = bump st (a + c) (b + d) (f1 ++ g1) (f2 ++ g2) := by
  simp [bump, recorded1_append, recorded2_append, Nat.add_assoc]

theorem recorded1_some (heap : Nat → Option (TH1F K)) (f : List (Nat × K)) (p : Nat)
    (h : TH1F K) (hh : heap p = some h) : ∃ h', recorded1 heap f p = some h' := by
  unfold recorded1
  rw [hh]
  exact ⟨_, rfl⟩

theorem recorded2_some (heap : Nat → Option (TH2F K)) (f : List (Nat × (K × K))) (q : Nat)
    (h : TH2F K) (hh : heap q = some h) : ∃ h', recorded2 heap f q = some h' := by
  unfold recorded2
  rw [hh]
  exact ⟨_, rfl⟩

theorem slPtr_map (st : State K) (s : DTSuperLayerId) (p : Nat)
    (h : slPtr st s = some p) : ∃ rest, st.histoMapTH1F_ s = some (p :: rest) := by
  unfold slPtr at h
  cases hm : st.histoMapTH1F_ s with
  | none => rw [hm] at h; simp at h
  | some v =>
    rw [hm] at h
    cases v with
    | nil => simp at h
    | cons a rest =>
      simp at h
      exact ⟨rest, by rw [h]⟩

theorem layerPtr_map (st : State K) (l : DTLayerId) (p : Nat)
    (h : layerPtr st l = some p) : ∃ rest, st.histoMapPerLayerTH1F_ l = some (p :: rest) := by
  unfold layerPtr at h
  cases hm : st.histoMapPerLayerTH1F_ l with
  | none => rw [hm] at h; simp at h
  | some v =>
    rw [hm] at h
    cases v with
    | nil => simp at h
    | cons a rest =>
      simp at h
      exact ⟨rest, by rw [h]⟩

theorem fillHistos_bump (st : State K) (s : DTSuperLayerId) (v : K) (p : Nat) (h : TH1F K)
    (hp : slPtr st s = some p) (hh : st.th1f p = some h) :
    fillHistos st s v = .ok (bump st 0 0 [(p, v)] []) := by
  obtain ⟨rest, hm⟩ := slPtr_map st s p hp
  rw [fillHistos_present st s v p rest h hm hh, assign_Fill1 _ _ _ _ hh]
  simp [bump, recorded2_nil]

theorem fillHistosLayer_bump (st : State K) (l : DTLayerId) (v : K) (p : Nat) (h : TH1F K)
    (hp : layerPtr st l = some p) (hh : st.th1f p = some h) :
    fillHistosLayer st l v = .ok (bump st 0 0 [(p, v)] []) := by
  obtain ⟨rest, hm⟩ := layerPtr_map st l p hp
  rw [fillHistosLayer_present st l v p rest h hm hh, assign_Fill1 _ _ _ _ hh]
  simp [bump, recorded2_nil]

theorem fillHistoResLs_bump (st : State K) (x y : K) (q : Nat) (h : TH2F K)
    (hq : st.histoResLs = some q) (hh : st.th2f q = some h) :
    fillHistoResLs st x y = .ok (bump st 0 0 [] [(q, (x, y))]) := by
  have e : fillHistoResLs st x y =
      .ok { st with th2f := assign st.th2f q (some (h.Fill x y)) } := by
    simp [fillHistoResLs, hq, hh]
  rw [e, assign_Fill2 _ _ _ _ _ hh]
  simp [bump, recorded1_nil]

theorem HitReady_bump (st : State K) (a b : Nat) (f1 : List (Nat × K))
    (f2 : List (Nat × (K × K))) (hit : DTRecHit1D K) (h : HitReady st hit) :
    HitReady (bump st a b f1 f2) hit := by
  obtain ⟨⟨p, hp, e1, e2⟩, h2, h3⟩ := h
  refine ⟨?_, fun hs => ?_, fun hd => ?_⟩
  · obtain ⟨h', e'⟩ := recorded1_some st.th1f f1 p hp e2
    exact ⟨p, h', e1, e'⟩
  · obtain ⟨q, hq, e3, e4⟩ := h2 hs
    obtain ⟨h', e'⟩ := recorded2_some st.th2f f2 q hq e4
    exact ⟨q, h', e3, e'⟩
  · obtain ⟨p', hp', e3, e4⟩ := h3 hd
    obtain ⟨h', e'⟩ := recorded1_some st.th1f f1 p' hp' e4
    exact ⟨p', h', e3, e'⟩

theorem analyzeHit_ok (compute : DTGeometry K → DTRecHit1D K → DTRecSegment4D K → K)
    (event : Event K) (segment : DTRecSegment4D K) (st : State K) (dtGeom : DTGeometry K)
    (hit : DTRecHit1D K) (hg : st.dtGeom_ = some dtGeom) (hr : HitReady st hit) :
    analyzeHit compute event segment st hit =
      .ok (bump st 0 0 (hitFills1 st compute dtGeom segment hit)
        (hitFills2 st compute dtGeom event segment hit)) := by
  obtain ⟨⟨p, hp, e1, e2⟩, h2, h3⟩ := hr
  unfold analyzeHit
  simp only [hg]
  rw [fillHistos_bump st _ _ p hp e1 e2]
  simp only []
  by_cases hs : hit.wireId.superlayerId = slIdToFill
  · obtain ⟨q, hq, e3, e4⟩ := h2 hs
    obtain ⟨hq', e4'⟩ := recorded2_some st.th2f [] q hq e4
    rw [if_pos hs, fillHistoResLs_bump (bump st 0 0 [(p, compute dtGeom hit segment)] []) _ _ q
      hq' e3 e4', bump_bump]
    simp only []
    have hF2 : hitFills2 st compute dtGeom event segment hit =
        [(q, ((event.luminosityBlock : K), compute dtGeom hit segment))] := by
      unfold hitFills2
      rw [if_pos hs, e3]
      rfl
    by_cases hd : st.detailedAnalysis_ = true
    · obtain ⟨p', hp', e5, e6⟩ := h3 hd
      obtain ⟨hp'', e6'⟩ := recorded1_some st.th1f
        ([(p, compute dtGeom hit segment)] ++ []) p' hp' e6
      have hd' : (bump st (0 + 0) (0 + 0) ([(p, compute dtGeom hit segment)] ++ [])
          ([] ++ [(q, ((event.luminosityBlock : K), compute dtGeom hit segment))])).detailedAnalysis_
            = true := hd
      have hF1 : hitFills1 st compute dtGeom segment hit =
          [(p, compute dtGeom hit segment), (p', compute dtGeom hit segment)] := by
        unfold hitFills1
        rw [if_pos hd, e1, e5]
        rfl
      rw [if_pos hd', fillHistosLayer_bump (bump st (0 + 0) (0 + 0)
          ([(p, compute dtGeom hit segment)] ++ [])
          ([] ++ [(q, ((event.luminosityBlock : K), compute dtGeom hit segment))]))
        _ _ p' hp'' e5 e6', bump_bump, hF1, hF2]
      rfl
    · have hd' : ¬ (bump st (0 + 0) (0 + 0) ([(p, compute dtGeom hit segment)] ++ [])
          ([] ++ [(q, ((event.luminosityBlock : K), compute dtGeom hit segment))])).detailedAnalysis_
            = true := hd
      have hF1 : hitFills1 st compute dtGeom segment hit =
          [(p, compute dtGeom hit segment)] := by
        unfold hitFills1
        rw [if_neg hd, e1]
        rfl
      rw [if_neg hd', hF1, hF2]
      rfl
  · rw [if_neg hs]
    simp only []
    have hF2 : hitFills2 st compute dtGeom event segment hit = [] := by
      unfold hitFills2
      rw [if_neg hs]
    by_cases hd : st.detailedAnalysis_ = true
    · obtain ⟨p', hp', e5, e6⟩ := h3 hd
      obtain ⟨hp'', e6'⟩ := recorded1_some st.th1f
        [(p, compute dtGeom hit segment)] p' hp' e6
      have hd' : (bump st 0 0 [(p, compute dtGeom hit segment)] []).detailedAnalysis_
            = true := hd
      have hF1 : hitFills1 st compute dtGeom segment hit =
          [(p, compute dtGeom hit segment), (p', compute dtGeom hit segment)] := by
        unfold hitFills1
        rw [if_pos hd, e1, e5]
        rfl
      rw [if_pos hd', fillHistosLayer_bump (bump st 0 0 [(p, compute dtGeom hit segment)] [])
        _ _ p' hp'' e5 e6', bump_bump, hF1, hF2]
      rfl
    · have hd' : ¬ (bump st 0 0 [(p, compute dtGeom hit segment)] []).detailedAnalysis_
            = true := hd
      have hF1 : hitFills1 st compute dtGeom segment hit =
          [(p, compute dtGeom hit segment)] := by
        unfold hitFills1
        rw [if_neg hd, e1]
        rfl
      rw [if_neg hd', hF1, hF2]

end Simulation

section Loops

variable {K : Type} [LinearOrderedField K]

theorem hitFills1_bump (st : State K) (a b : Nat) (f1 : List (Nat × K))
    (f2 : List (Nat × (K × K)))
    (compute : DTGeometry K → DTRecHit1D K → DTRecSegment4D K → K) (dtGeom : DTGeometry K)
    (segment : DTRecSegment4D K) :
    hitFills1 (bump st a b f1 f2) compute dtGeom segment =
      hitFills1 st compute dtGeom segment := rfl

theorem hitFills2_bump (st : State K) (a b : Nat) (f1 : List (Nat × K))
    (f2 : List (Nat × (K × K)))
    (compute : DTGeometry K → DTRecHit1D K → DTRecSegment4D K → K) (dtGeom : DTGeometry K)
    (event : Event K) (segment : DTRecSegment4D K) :
    hitFills2 (bump st a b f1 f2) compute dtGeom event segment =
      hitFills2 st compute dtGeom event segment := rfl

theorem segFills1_bump (st : State K) (a b : Nat) (f1 : List (Nat × K))
    (f2 : List (Nat × (K × K)))
    (compute : DTGeometry K → DTRecHit1D K → DTRecSegment4D K → K) (dtGeom : DTGeometry K)
    (event : Event K) :
    segFills1 (bump st a b f1 f2) compute dtGeom event =
      segFills1 st compute dtGeom event := rfl

theorem segFills2_bump (st : State K) (a b : Nat) (f1 : List (Nat × K))
    (f2 : List (Nat × (K × K)))
    (compute : DTGeometry K → DTRecHit1D K → DTRecSegment4D K → K) (dtGeom : DTGeometry K)
    (event : Event K) :
    segFills2 (bump st a b f1 f2) compute dtGeom event =
      segFills2 st compute dtGeom event := rfl

/-- The loop over the hits of a segment completes and performs the fills of its hits
in order. -/
theorem forEach_analyzeHit (compute : DTGeometry K → DTRecHit1D K → DTRecSegment4D K → K)
    (event : Event K) (segment : DTRecSegment4D K) (dtGeom : DTGeometry K)
    (hits : List (DTRecHit1D K)) (st : State K) (hg : st.dtGeom_ = some dtGeom)
    (hr : ∀ hit ∈ hits, HitReady st hit) :
    forEach (analyzeHit compute event segment) st hits =
      .ok (bump st 0 0 (hits.flatMap (hitFills1 st compute dtGeom segment))
        (hits.flatMap (hitFills2 st compute dtGeom event segment))) := by
  induction hits generalizing st with
  | nil =>
    simp only [forEach, List.flatMap_nil]
    rw [bump_zero]
  | cons hit rest ih =>
    have h1 := analyzeHit_ok compute event segment st dtGeom hit hg
      (hr hit (List.mem_cons_self _ _))
    have h2 := ih (bump st 0 0 (hitFills1 st compute dtGeom segment hit)
      (hitFills2 st compute dtGeom event segment hit)) hg
      (fun h' hm => HitReady_bump st _ _ _ _ h' (hr h' (List.mem_cons_of_mem _ hm)))
    simp only [forEach, h1, h2, bump_bump, hitFills1_bump, hitFills2_bump,
      List.flatMap_cons]

/-- The body of the segment loop completes: a rejected segment counts as bad and
fills nothing, an accepted one counts as good and performs the fills of its hits. -/
theorem analyzeSegment_ok (compute : DTGeometry K → DTRecHit1D K → DTRecSegment4D K → K)
    (event : Event K) (dtGeom : DTGeometry K) (st : State K) (segment : DTRecSegment4D K)
    (hg : st.dtGeom_ = some dtGeom)
    (hr : st.select_ segment event = true → ∀ hit ∈ recHits1D_S3 segment, HitReady st hit) :
    analyzeSegment compute event st segment =
      .ok (bump st (if st.select_ segment event then 1 else 0)
        (if st.select_ segment event then 0 else 1)
        (segFills1 st compute dtGeom event segment)
        (segFills2 st compute dtGeom event segment)) := by
  unfold analyzeSegment segFills1 segFills2
  by_cases hs : st.select_ segment event = true
  · have e : { st with segmok := st.segmok + 1 } = bump st 1 0 [] [] := by
      simp [bump, recorded1_nil, recorded2_nil]
    simp only [hs, Bool.not_true, if_true]
    rw [e, forEach_analyzeHit compute event segment dtGeom _ (bump st 1 0 [] []) hg
      (fun h' hm => HitReady_bump st _ _ _ _ h' (hr hs h' hm)), bump_bump]
    simp [hitFills1_bump, hitFills2_bump]
  · have hs' : st.select_ segment event = false := by
      cases hv : st.select_ segment event
      · rfl
      · exact absurd hv hs
    have e : { st with segmbad := st.segmbad + 1 } = bump st 0 1 [] [] := by
      simp [bump, recorded1_nil, recorded2_nil]
    simp only [hs', Bool.not_false, if_true]
    rw [e]
    simp

/-- The loop over a list of segments completes, counting the accepted and the
rejected segments and performing the fills of the accepted ones in order. -/
theorem forEach_analyzeSegment
    (compute : DTGeometry K → DTRecHit1D K → DTRecSegment4D K → K)
    (event : Event K) (dtGeom : DTGeometry K) (segs : List (DTRecSegment4D K))
    (st : State K) (hg : st.dtGeom_ = some dtGeom)
    (hr : ∀ seg ∈ segs, st.select_ seg event = true →
      ∀ hit ∈ recHits1D_S3 seg, HitReady st hit) :
    forEach (analyzeSegment compute event) st segs =
      .ok (bump st (segs.countP fun seg => st.select_ seg event)
        (segs.countP fun seg => ! st.select_ seg event)
        (segs.flatMap (segFills1 st compute dtGeom event))
        (segs.flatMap (segFills2 st compute dtGeom event))) := by
  induction segs generalizing st with
  | nil =>
    simp only [forEach, List.flatMap_nil, List.countP_nil]
    rw [bump_zero]
  | cons seg rest ih =>
    have h1 := analyzeSegment_ok compute event dtGeom st seg hg
      (hr seg (List.mem_cons_self _ _))
    have h2 := ih (bump st (if st.select_ seg event then 1 else 0)
      (if st.select_ seg event then 0 else 1)
      (segFills1 st compute dtGeom event seg) (segFills2 st compute dtGeom event seg)) hg
      (fun s' hm hsel h' hh =>
        HitReady_bump st _ _ _ _ h' (hr s' (List.mem_cons_of_mem _ hm) hsel h' hh))
    simp only [forEach, h1, h2, bump_bump, segFills1_bump, segFills2_bump,
      List.flatMap_cons, List.countP_cons]
    have hsel : (bump st (if st.select_ seg event then 1 else 0)
      (if st.select_ seg event then 0 else 1)
      (segFills1 st compute dtGeom event seg)
      (segFills2 st compute dtGeom event seg)).select_ = st.select_ := rfl
    rw [hsel]
    congr 2
    · cases st.select_ seg event <;> simp [Nat.add_comm]
    · cases st.select_ seg event <;> simp [Nat.add_comm]

/-- The loop over the chambers of the collection completes. -/
theorem forEach_chambers (compute : DTGeometry K → DTRecHit1D K → DTRecSegment4D K → K)
    (event : Event K) (dtGeom : DTGeometry K) (ids : List DTChamberId)
    (st : State K) (hg : st.dtGeom_ = some dtGeom)
    (hr : ∀ seg ∈ ids.flatMap event.segment4Ds.get, st.select_ seg event = true →
      ∀ hit ∈ recHits1D_S3 seg, HitReady st hit) :
    forEach (fun s chamberIdIt =>
        forEach (analyzeSegment compute event) s (event.segment4Ds.get chamberIdIt)) st ids =
      .ok (bump st ((ids.flatMap event.segment4Ds.get).countP fun seg => st.select_ seg event)
        ((ids.flatMap event.segment4Ds.get).countP fun seg => ! st.select_ seg event)
        ((ids.flatMap event.segment4Ds.get).flatMap (segFills1 st compute dtGeom event))
        ((ids.flatMap event.segment4Ds.get).flatMap (segFills2 st compute dtGeom event))) := by
  induction ids generalizing st with
  | nil =>
    simp only [forEach, List.flatMap_nil, List.countP_nil]
    rw [bump_zero]
  | cons id rest ih =>
    have h1 := forEach_analyzeSegment compute event dtGeom (event.segment4Ds.get id) st hg
      (fun s hm => hr s (by
        rw [List.flatMap_cons]
        exact List.mem_append_left _ hm))
    have h2 := ih (bump st ((event.segment4Ds.get id).countP fun seg => st.select_ seg event)
      ((event.segment4Ds.get id).countP fun seg => ! st.select_ seg event)
      ((event.segment4Ds.get id).flatMap (segFills1 st compute dtGeom event))
      ((event.segment4Ds.get id).flatMap (segFills2 st compute dtGeom event))) hg
      (fun s' hm hsel h' hh =>
        HitReady_bump st _ _ _ _ h' (hr s' (by
          rw [List.flatMap_cons]
          exact List.mem_append_right _ hm) hsel h' hh))
    simp only [forEach, h1, h2, bump_bump, segFills1_bump, segFills2_bump,
      List.flatMap_cons, List.countP_append, List.flatMap_append]
    rfl

end Loops

/-! ## Counters -/

section Counters

variable {K : Type} [LinearOrderedField K]

theorem forEach_finalState_rel {σ α : Type} (body : σ → α → Except σ σ) (R : σ → σ → Prop)
    (hrefl : ∀ s, R s s) (htrans : ∀ a b c, R a b → R b c → R a c)
    (hstep : ∀ s a, R s (finalState (body s a))) :
    ∀ (l : List α) (s : σ), R s (finalState (forEach body s l)) := by
  intro l
  induction l with
  | nil => intro s; exact hrefl s
  | cons a rest ih =>
    intro s
    have h1 := hstep s a
    unfold forEach
    cases hb : body s a with
    | ok s' =>
      rw [hb] at h1
      exact htrans _ _ _ h1 (ih s')
    | error e =>
      rw [hb] at h1
      exact h1

theorem sameCounters_refl (st : State K) : SameCounters st st :=
  ⟨rfl, rfl, rfl, rfl, rfl, rfl, rfl⟩

theorem sameCounters_trans (a b c : State K) (h1 : SameCounters a b)
    (h2 : SameCounters b c) : SameCounters a c := by
  obtain ⟨a1, a2, a3, a4, a5, a6, a7⟩ := h1
  obtain ⟨b1, b2, b3, b4, b5, b6, b7⟩ := h2
  exact ⟨b1.trans a1, b2.trans a2, b3.trans a3, b4.trans a4, b5.trans a5, b6.trans a6,
    b7.trans a7⟩

theorem progress_refl (st : State K) : Progress st st :=
  ⟨rfl, rfl, rfl, rfl, rfl, le_refl _, le_refl _⟩

theorem progress_trans (a b c : State K) (h1 : Progress a b) (h2 : Progress b c) :
    Progress a c := by
  obtain ⟨a1, a2, a3, a4, a5, a6, a7⟩ := h1
  obtain ⟨b1, b2, b3, b4, b5, b6, b7⟩ := h2
  exact ⟨b1.trans a1, b2.trans a2, b3.trans a3, b4.trans a4, b5.trans a5, le_trans a6 b6,
    le_trans a7 b7⟩

theorem sameCounters_progress (a b : State K) (h : SameCounters a b) : Progress a b := by
  obtain ⟨a1, a2, a3, a4, a5, a6, a7⟩ := h
  exact ⟨a1, a2, a3, a4, a5, le_of_eq a6.symm, le_of_eq a7.symm⟩

theorem fillHistos_sameCounters (st : State K) (s : DTSuperLayerId) (v : K) :
    SameCounters st (finalState (fillHistos st s v)) := by
  unfold fillHistos
  split
  · exact sameCounters_refl st
  · exact sameCounters_refl st
  · split
    · exact sameCounters_refl st
    · exact sameCounters_refl st

theorem fillHistosLayer_sameCounters (st : State K) (l : DTLayerId) (v : K) :
    SameCounters st (finalState (fillHistosLayer st l v)) := by
  unfold fillHistosLayer
  split
  · exact sameCounters_refl st
  · exact sameCounters_refl st
  · split
    · exact sameCounters_refl st
    · exact sameCounters_refl st

theorem fillHistoResLs_sameCounters (st : State K) (x y : K) :
    SameCounters st (finalState (fillHistoResLs st x y)) := by
  unfold fillHistoResLs
  split
  · exact sameCounters_refl st
  · split
    · exact sameCounters_refl st
    · exact sameCounters_refl st

theorem analyzeHit_sameCounters
    (compute : DTGeometry K → DTRecHit1D K → DTRecSegment4D K → K) (event : Event K)
    (segment : DTRecSegment4D K) (st : State K) (hit : DTRecHit1D K) :
    SameCounters st (finalState (analyzeHit compute event segment st hit)) := by
  unfold analyzeHit
  cases hg : st.dtGeom_ with
  | none => exact sameCounters_refl st
  | some dtGeom =>
    simp only []
    have h1 := fillHistos_sameCounters st hit.wireId.superlayerId (compute dtGeom hit segment)
    cases hf : fillHistos st hit.wireId.superlayerId (compute dtGeom hit segment) with
    | error e =>
      rw [hf] at h1
      exact h1
    | ok st1 =>
      rw [hf] at h1
      simp only []
      have h2 : SameCounters st1 (finalState
          (if hit.wireId.superlayerId = slIdToFill then
            fillHistoResLs st1 (event.luminosityBlock : K) (compute dtGeom hit segment)
          else .ok st1)) := by
        split
        · exact fillHistoResLs_sameCounters st1 _ _
        · exact sameCounters_refl st1
      cases hf2 : (if hit.wireId.superlayerId = slIdToFill then
            fillHistoResLs st1 (event.luminosityBlock : K) (compute dtGeom hit segment)
          else .ok st1) with
      | error e =>
        rw [hf2] at h2
        exact sameCounters_trans _ _ _ h1 h2
      | ok st2 =>
        rw [hf2] at h2
        simp only []
        split
        · exact sameCounters_trans _ _ _ (sameCounters_trans _ _ _ h1 h2)
            (fillHistosLayer_sameCounters st2 _ _)
        · exact sameCounters_trans _ _ _ h1 h2

theorem forEach_analyzeHit_sameCounters
    (compute : DTGeometry K → DTRecHit1D K → DTRecSegment4D K → K) (event : Event K)
    (segment : DTRecSegment4D K) (hits : List (DTRecHit1D K)) (st : State K) :
    SameCounters st (finalState (forEach (analyzeHit compute event segment) st hits)) :=
  forEach_finalState_rel (analyzeHit compute event segment) SameCounters sameCounters_refl
    sameCounters_trans (analyzeHit_sameCounters compute event segment) hits st

theorem analyzeSegment_progress
    (compute : DTGeometry K → DTRecHit1D K → DTRecSegment4D K → K) (event : Event K)
    (st : State K) (segment : DTRecSegment4D K) :
    Progress st (finalState (analyzeSegment compute event st segment)) := by
  unfold analyzeSegment
  split
  · exact ⟨rfl, rfl, rfl, rfl, rfl, le_refl _, Nat.le_succ _⟩
  · have h := forEach_analyzeHit_sameCounters compute event segment (recHits1D_S3 segment)
      { st with segmok := st.segmok + 1 }
    obtain ⟨a1, a2, a3, a4, a5, a6, a7⟩ := h
    exact ⟨a1, a2, a3, a4, a5, by rw [a6]; exact Nat.le_succ _, le_of_eq a7.symm⟩

theorem analyzeSegments_progress
    (compute : DTGeometry K → DTRecHit1D K → DTRecSegment4D K → K) (event : Event K)
    (st : State K) : Progress st (finalState (analyzeSegments compute event st)) :=
  forEach_finalState_rel _ Progress progress_refl progress_trans
    (fun s chamberIdIt => forEach_finalState_rel (analyzeSegment compute event) Progress
      progress_refl progress_trans (analyzeSegment_progress compute event)
      (event.segment4Ds.get chamberIdIt) s)
    event.segment4Ds.ids st

theorem analyzeSegment_counted
    (compute : DTGeometry K → DTRecHit1D K → DTRecSegment4D K → K) (event : Event K)
    (st st' : State K) (segment : DTRecSegment4D K)
    (h : analyzeSegment compute event st segment = .ok st') :
    Counted event st [segment] st' := by
  unfold analyzeSegment at h
  by_cases hs : st.select_ segment event = true
  · simp only [hs, Bool.not_true] at h
    have hc := forEach_analyzeHit_sameCounters compute event segment (recHits1D_S3 segment)
      { st with segmok := st.segmok + 1 }
    rw [if_neg (by simp)] at h
    rw [h] at hc
    obtain ⟨a1, _, _, _, a5, a6, a7⟩ := hc
    have a6' : st'.segmok = st.segmok + 1 := a6
    have a7' : st'.segmbad = st.segmbad := a7
    refine ⟨a1, a5, ?_, ?_⟩
    · rw [a6']; simp [hs]
    · rw [a7']; simp [hs]
  · have hs' : st.select_ segment event = false := by
      cases hv : st.select_ segment event
      · rfl
      · exact absurd hv hs
    simp only [hs', Bool.not_false, if_true] at h
    have e := Except.ok.inj h
    subst e
    exact ⟨rfl, rfl, by simp [hs'], by simp [hs']⟩

theorem counted_append (event : Event K) (a b c : State K)
    (l1 l2 : List (DTRecSegment4D K)) (h1 : Counted event a l1 b)
    (h2 : Counted event b l2 c) : Counted event a (l1 ++ l2) c := by
  obtain ⟨a1, a2, a3, a4⟩ := h1
  obtain ⟨b1, b2, b3, b4⟩ := h2
  rw [a1] at b3 b4
  refine ⟨b1.trans a1, b2.trans a2, ?_, ?_⟩
  · rw [b3, a3, List.countP_append, Nat.add_assoc]
  · rw [b4, a4, List.countP_append, Nat.add_assoc]

theorem forEach_analyzeSegment_counted
    (compute : DTGeometry K → DTRecHit1D K → DTRecSegment4D K → K) (event : Event K)
    (segs : List (DTRecSegment4D K)) (st st' : State K)
    (h : forEach (analyzeSegment compute event) st segs = .ok st') :
    Counted event st segs st' := by
  induction segs generalizing st with
  | nil =>
    have e := Except.ok.inj h
    subst e
    exact ⟨rfl, rfl, by simp, by simp⟩
  | cons seg rest ih =>
    unfold forEach at h
    cases hb : analyzeSegment compute event st seg with
    | error e => rw [hb] at h; cases h
    | ok s1 =>
      rw [hb] at h
      exact counted_append event st s1 st' [seg] rest
        (analyzeSegment_counted compute event st s1 seg hb) (ih s1 h)

theorem analyzeSegments_counted
    (compute : DTGeometry K → DTRecHit1D K → DTRecSegment4D K → K) (event : Event K)
    (st st' : State K) (h : analyzeSegments compute event st = .ok st') :
    Counted event st (eventSegments event) st' := by
  unfold analyzeSegments at h
  unfold eventSegments
  generalize event.segment4Ds.ids = ids at h
  induction ids generalizing st with
  | nil =>
    have e := Except.ok.inj h
    subst e
    exact ⟨rfl, rfl, by simp, by simp⟩
  | cons id rest ih =>
    unfold forEach at h
    cases hb : forEach (analyzeSegment compute event) st (event.segment4Ds.get id) with
    | error e => rw [hb] at h; cases h
    | ok s1 =>
      rw [hb] at h
      rw [List.flatMap_cons]
      exact counted_append event st s1 st' _ _
        (forEach_analyzeSegment_counted compute event _ st s1 hb) (ih s1 h)

end Counters

/-! ## The registry invariant -/

section Registry

variable {K : Type} [LinearOrderedField K]

theorem slPtr_lt (st : State K) (hr : RegistryOK st) (s : DTSuperLayerId) (p : Nat)
    (h : slPtr st s = some p) : p < st.th1fNext ∧ ∃ h, st.th1f p = some h := by
  obtain ⟨rest, hm⟩ := slPtr_map st s p h
  obtain ⟨p', e, hlt, hh⟩ := hr.slValid s _ hm
  have : p = p' := (List.cons.inj e).1
  subst this
  exact ⟨hlt, hh⟩

theorem layerPtr_lt (st : State K) (hr : RegistryOK st) (l : DTLayerId) (p : Nat)
    (h : layerPtr st l = some p) : p < st.th1fNext ∧ ∃ h, st.th1f p = some h := by
  obtain ⟨rest, hm⟩ := layerPtr_map st l p h
  obtain ⟨p', e, hlt, hh⟩ := hr.layerValid l _ hm
  have : p = p' := (List.cons.inj e).1
  subst this
  exact ⟨hlt, hh⟩

theorem RegistryOK_construct (select_ : DTRecSegment4D K → Event K → Bool)
    (detailedAnalysis : Bool) (lastrun0 : Nat) :
    RegistryOK (construct select_ detailedAnalysis lastrun0) where
  slValid := by intro s v h; cases h
  layerValid := by intro l v h; cases h
  slInj := by intro s s' p h; cases h
  layerInj := by intro l l' p h; cases h
  disjoint := by intro s l p h; cases h
  resLsValid := by intro q h; cases h
  unused1 := by intro p _; rfl
  unused2 := by intro q _; rfl

theorem RegistryOK_beginRun (st : State K) (dtGeomH : DTGeometry K) (hr : RegistryOK st) :
    RegistryOK (beginRun st dtGeomH) :=
  ⟨hr.slValid, hr.layerValid, hr.slInj, hr.layerInj, hr.disjoint, hr.resLsValid,
    hr.unused1, hr.unused2⟩

theorem RegistryOK_endJob (st : State K) (hr : RegistryOK st) : RegistryOK (endJob st) :=
  ⟨hr.slValid, hr.layerValid, hr.slInj, hr.layerInj, hr.disjoint, hr.resLsValid,
    hr.unused1, hr.unused2⟩

theorem RegistryOK_analyzeEnter (st : State K) (hr : RegistryOK st) :
    RegistryOK (analyzeEnter st) :=
  ⟨hr.slValid, hr.layerValid, hr.slInj, hr.layerInj, hr.disjoint, hr.resLsValid,
    hr.unused1, hr.unused2⟩

/-- Clearing the superlayer map keeps the invariant. -/
theorem RegistryOK_clear (st : State K) (hr : RegistryOK st) :
    RegistryOK { st with histoMapTH1F_ := fun _ => none } where
  slValid := by intro s v h; cases h
  layerValid := hr.layerValid
  slInj := by intro s s' p h; cases h
  layerInj := hr.layerInj
  disjoint := by intro s l p h; cases h
  resLsValid := hr.resLsValid
  unused1 := hr.unused1
  unused2 := hr.unused2

theorem slPtr_bookHistos (st : State K) (s s' : DTSuperLayerId) (run : Nat) :
    slPtr (bookHistos st s run) s' = if s' = s then some st.th1fNext else slPtr st s' := by
  unfold slPtr bookHistos assign
  by_cases h : s' = s <;> simp [h]

theorem layerPtr_bookHistosLayer (st : State K) (l l' : DTLayerId) (run : Nat) :
    layerPtr (bookHistosLayer st l run) l' =
      if l' = l then some st.th1fNext else layerPtr st l' := by
  unfold layerPtr bookHistosLayer assign
  by_cases h : l' = l <;> simp [h]

theorem th1f_bookHistos (st : State K) (s : DTSuperLayerId) (run p : Nat)
    (hp : p ≠ st.th1fNext) : (bookHistos st s run).th1f p = st.th1f p :=
  assign_other _ _ _ _ hp

theorem th1f_bookHistosLayer (st : State K) (l : DTLayerId) (run p : Nat)
    (hp : p ≠ st.th1fNext) : (bookHistosLayer st l run).th1f p = st.th1f p :=
  assign_other _ _ _ _ hp

theorem RegistryOK_bookHistos (st : State K) (s : DTSuperLayerId) (run : Nat)
    (hr : RegistryOK st) : RegistryOK (bookHistos st s run) where
  slValid := by
    intro s0 v h
    by_cases hs : s0 = s
    · subst hs
      have e : (bookHistos st s0 run).histoMapTH1F_ s0 = some [st.th1fNext] :=
        assign_same _ _ _
      rw [e] at h
      have hv := Option.some.inj h
      exact ⟨st.th1fNext, hv.symm, Nat.lt_succ_self _, _, assign_same _ _ _⟩
    · have e : (bookHistos st s run).histoMapTH1F_ s0 = st.histoMapTH1F_ s0 :=
        assign_other _ _ _ _ hs
      rw [e] at h
      obtain ⟨p, hv, hlt, hh, ehh⟩ := hr.slValid s0 v h
      refine ⟨p, hv, Nat.lt_succ_of_lt hlt, hh, ?_⟩
      rw [th1f_bookHistos st s run p (Nat.ne_of_lt hlt)]
      exact ehh
  layerValid := by
    intro l v h
    obtain ⟨p, hv, hlt, hh, ehh⟩ := hr.layerValid l v h
    refine ⟨p, hv, Nat.lt_succ_of_lt hlt, hh, ?_⟩
    rw [th1f_bookHistos st s run p (Nat.ne_of_lt hlt)]
    exact ehh
  slInj := by
    intro s1 s2 p h1 h2
    rw [slPtr_bookHistos] at h1 h2
    by_cases e1 : s1 = s
    · by_cases e2 : s2 = s
      · rw [e1, e2]
      · rw [if_pos e1] at h1
        rw [if_neg e2] at h2
        have hp := Option.some.inj h1
        rw [← hp] at h2
        exact absurd (slPtr_lt st hr s2 _ h2).1 (Nat.lt_irrefl _)
    · by_cases e2 : s2 = s
      · rw [if_neg e1] at h1
        rw [if_pos e2] at h2
        have hp := Option.some.inj h2
        rw [← hp] at h1
        exact absurd (slPtr_lt st hr s1 _ h1).1 (Nat.lt_irrefl _)
      · rw [if_neg e1] at h1
        rw [if_neg e2] at h2
        exact hr.slInj s1 s2 p h1 h2
  layerInj := hr.layerInj
  disjoint := by
    intro s1 l p h1 h2
    rw [slPtr_bookHistos] at h1
    have h2' : layerPtr st l = some p := h2
    by_cases e1 : s1 = s
    · rw [if_pos e1] at h1
      have hp := Option.some.inj h1
      rw [← hp] at h2'
      exact absurd (layerPtr_lt st hr l _ h2').1 (Nat.lt_irrefl _)
    · rw [if_neg e1] at h1
      exact hr.disjoint s1 l p h1 h2'
  resLsValid := hr.resLsValid
  unused1 := by
    intro p hp
    have hp' : st.th1fNext + 1 ≤ p := hp
    rw [th1f_bookHistos st s run p (by omega)]
    exact hr.unused1 p (by omega)
  unused2 := hr.unused2

theorem RegistryOK_bookHistosLayer (st : State K) (l : DTLayerId) (run : Nat)
    (hr : RegistryOK st) : RegistryOK (bookHistosLayer st l run) where
  slValid := by
    intro s v h
    obtain ⟨p, hv, hlt, hh, ehh⟩ := hr.slValid s v h
    refine ⟨p, hv, Nat.lt_succ_of_lt hlt, hh, ?_⟩
    rw [th1f_bookHistosLayer st l run p (Nat.ne_of_lt hlt)]
    exact ehh
  layerValid := by
    intro l0 v h
    by_cases hs : l0 = l
    · subst hs
      have e : (bookHistosLayer st l0 run).histoMapPerLayerTH1F_ l0 = some [st.th1fNext] :=
        assign_same _ _ _
      rw [e] at h
      have hv := Option.some.inj h
      exact ⟨st.th1fNext, hv.symm, Nat.lt_succ_self _, _, assign_same _ _ _⟩
    · have e : (bookHistosLayer st l run).histoMapPerLayerTH1F_ l0 =
          st.histoMapPerLayerTH1F_ l0 := assign_other _ _ _ _ hs
      rw [e] at h
      obtain ⟨p, hv, hlt, hh, ehh⟩ := hr.layerValid l0 v h
      refine ⟨p, hv, Nat.lt_succ_of_lt hlt, hh, ?_⟩
      rw [th1f_bookHistosLayer st l run p (Nat.ne_of_lt hlt)]
      exact ehh
  slInj := hr.slInj
  layerInj := by
    intro l1 l2 p h1 h2
    rw [layerPtr_bookHistosLayer] at h1 h2
    by_cases e1 : l1 = l
    · by_cases e2 : l2 = l
      · rw [e1, e2]
      · rw [if_pos e1] at h1
        rw [if_neg e2] at h2
        have hp := Option.some.inj h1
        rw [← hp] at h2
        exact absurd (layerPtr_lt st hr l2 _ h2).1 (Nat.lt_irrefl _)
    · by_cases e2 : l2 = l
      · rw [if_neg e1] at h1
        rw [if_pos e2] at h2
        have hp := Option.some.inj h2
        rw [← hp] at h1
        exact absurd (layerPtr_lt st hr l1 _ h1).1 (Nat.lt_irrefl _)
      · rw [if_neg e1] at h1
        rw [if_neg e2] at h2
        exact hr.layerInj l1 l2 p h1 h2
  disjoint := by
    intro s l1 p h1 h2
    rw [layerPtr_bookHistosLayer] at h2
    have h1' : slPtr st s = some p := h1
    by_cases e1 : l1 = l
    · rw [if_pos e1] at h2
      have hp := Option.some.inj h2
      rw [← hp] at h1'
      exact absurd (slPtr_lt st hr s _ h1').1 (Nat.lt_irrefl _)
    · rw [if_neg e1] at h2
      exact hr.disjoint s l1 p h1' h2
  resLsValid := hr.resLsValid
  unused1 := by
    intro p hp
    have hp' : st.th1fNext + 1 ≤ p := hp
    rw [th1f_bookHistosLayer st l run p (by omega)]
    exact hr.unused1 p (by omega)
  unused2 := hr.unused2

theorem RegistryOK_bookHistoResLs (st : State K) (run : Nat) (hr : RegistryOK st) :
    RegistryOK (bookHistoResLs st run) where
  slValid := hr.slValid
  layerValid := hr.layerValid
  slInj := hr.slInj
  layerInj := hr.layerInj
  disjoint := hr.disjoint
  resLsValid := by
    intro q h
    have hq : st.th2fNext = q := Option.some.inj h
    subst hq
    exact ⟨Nat.lt_succ_self _, _, assign_same _ _ _⟩
  unused1 := hr.unused1
  unused2 := by
    intro q hq
    have hq' : st.th2fNext + 1 ≤ q := hq
    have e : (bookHistoResLs st run).th2f q = st.th2f q :=
      assign_other _ _ _ _ (by omega)
    rw [e]
    exact hr.unused2 q (by omega)

theorem foldl_invariant {σ α : Type} (P : σ → Prop) (f : σ → α → σ)
    (h : ∀ s a, P s → P (f s a)) : ∀ (l : List α) (s : σ), P s → P (l.foldl f s) := by
  intro l
  induction l with
  | nil => intro s hs; exact hs
  | cons a rest ih => intro s hs; exact ih (f s a) (h s a hs)

theorem RegistryOK_bookLayers (run : Nat) (layers : List (DTLayer K)) (st : State K)
    (hr : RegistryOK st) : RegistryOK (bookLayers run st layers) :=
  foldl_invariant RegistryOK _ (fun s a hs => RegistryOK_bookHistosLayer s a.id run hs)
    layers st hr

theorem RegistryOK_bookSuperLayers (run : Nat) (sls : List (DTSuperLayer K)) (st : State K)
    (hr : RegistryOK st) : RegistryOK (bookSuperLayers run st sls) :=
  foldl_invariant RegistryOK _ (fun s a hs => by
    have h1 := RegistryOK_bookHistos s a.id run hs
    show RegistryOK (if (bookHistos s a.id run).detailedAnalysis_ then
      bookLayers run (bookHistos s a.id run) a.layers else bookHistos s a.id run)
    split
    · exact RegistryOK_bookLayers run a.layers _ h1
    · exact h1) sls st hr

theorem RegistryOK_bookChambers (run : Nat) (chambers : List (DTChamber K)) (st : State K)
    (hr : RegistryOK st) : RegistryOK (bookChambers run st chambers) :=
  foldl_invariant RegistryOK _
    (fun s a hs => RegistryOK_bookSuperLayers run a.superLayers s hs) chambers st hr

theorem analyzeNewRun_eq (st : State K) (run : Nat) (dtGeom : DTGeometry K)
    (hg : st.dtGeom_ = some dtGeom) :
    analyzeNewRun st run =
      .ok (bookHistoResLs
        (bookChambers run { st with histoMapTH1F_ := fun _ => none } dtGeom.chambers) run) := by
  unfold analyzeNewRun
  simp only [hg]

theorem analyzeNewRun_none (st : State K) (run : Nat) (hg : st.dtGeom_ = none) :
    analyzeNewRun st run = .error { st with histoMapTH1F_ := fun _ => none } := by
  unfold analyzeNewRun
  simp only [hg]

/-- A completed run transition keeps the invariant. -/
theorem RegistryOK_analyzeNewRun (st st' : State K) (run : Nat) (hr : RegistryOK st)
    (h : analyzeNewRun st run = .ok st') : RegistryOK st' := by
  cases hg : st.dtGeom_ with
  | none =>
    rw [analyzeNewRun_none st run hg] at h
    cases h
  | some dtGeom =>
    rw [analyzeNewRun_eq st run dtGeom hg] at h
    have e := Except.ok.inj h
    rw [← e]
    exact RegistryOK_bookHistoResLs _ run
      (RegistryOK_bookChambers run dtGeom.chambers _ (RegistryOK_clear st hr))

theorem RegistryOK_bump (st : State K) (a b : Nat) (f1 : List (Nat × K))
    (f2 : List (Nat × (K × K))) (hr : RegistryOK st) : RegistryOK (bump st a b f1 f2) where
  slValid := by
    intro s v h
    obtain ⟨p, hv, hlt, hh, ehh⟩ := hr.slValid s v h
    exact ⟨p, hv, hlt, recorded1_some st.th1f f1 p hh ehh⟩
  layerValid := by
    intro l v h
    obtain ⟨p, hv, hlt, hh, ehh⟩ := hr.layerValid l v h
    exact ⟨p, hv, hlt, recorded1_some st.th1f f1 p hh ehh⟩
  slInj := hr.slInj
  layerInj := hr.layerInj
  disjoint := hr.disjoint
  resLsValid := by
    intro q h
    obtain ⟨hlt, hh, ehh⟩ := hr.resLsValid q h
    exact ⟨hlt, recorded2_some st.th2f f2 q hh ehh⟩
  unused1 := by
    intro p hp
    show recorded1 st.th1f f1 p = none
    unfold recorded1
    rw [hr.unused1 p hp]
    rfl
  unused2 := by
    intro q hq
    show recorded2 st.th2f f2 q = none
    unfold recorded2
    rw [hr.unused2 q hq]
    rfl

end Registry

/-! ## A completed event on a populated registry -/

section Event

variable {K : Type} [LinearOrderedField K]

theorem analyze_same_run (compute : DTGeometry K → DTRecHit1D K → DTRecSegment4D K → K)
    (st : State K) (event : Event K) (hrun : st.lastrun = event.run) :
    analyze compute st event = analyzeSegments compute event (analyzeEnter st) := by
  unfold analyze
  have h : ¬ (event.run ≠ (analyzeEnter st).lastrun) := by
    intro hne
    exact hne hrun.symm
  simp only [if_neg h]

theorem analyze_new_run (compute : DTGeometry K → DTRecHit1D K → DTRecSegment4D K → K)
    (st : State K) (event : Event K) (dtGeom : DTGeometry K)
    (hg : st.dtGeom_ = some dtGeom) (hrun : event.run ≠ st.lastrun) :
    analyze compute st event =
      analyzeSegments compute event
        (bookHistoResLs (bookChambers event.run
          { analyzeEnter st with histoMapTH1F_ := fun _ => none } dtGeom.chambers)
          event.run) := by
  unfold analyze
  have h : event.run ≠ (analyzeEnter st).lastrun := hrun
  simp only [if_pos h]
  rw [analyzeNewRun_eq (analyzeEnter st) event.run dtGeom hg]

/-- The fills of an event, read off its recorded hits. -/
theorem fills1_acceptedHits (st : State K)
    (compute : DTGeometry K → DTRecHit1D K → DTRecSegment4D K → K) (dtGeom : DTGeometry K)
    (event : Event K) (segs : List (DTRecSegment4D K)) :
    segs.flatMap (segFills1 st compute dtGeom event) =
      ((segs.filter fun seg => st.select_ seg event).flatMap
        fun seg => (recHits1D_S3 seg).map fun hit => (hit, seg)).flatMap
        fun hs => hitFills1 st compute dtGeom hs.2 hs.1 := by
  induction segs with
  | nil => rfl
  | cons seg rest ih =>
    rw [List.flatMap_cons, ih, List.filter_cons]
    unfold segFills1
    by_cases hs : st.select_ seg event = true
    · rw [if_pos hs, if_pos hs, List.flatMap_cons, List.flatMap_append, List.flatMap_map]
    · rw [if_neg hs, if_neg hs, List.nil_append]

theorem fills2_acceptedHits (st : State K)
    (compute : DTGeometry K → DTRecHit1D K → DTRecSegment4D K → K) (dtGeom : DTGeometry K)
    (event : Event K) (segs : List (DTRecSegment4D K)) :
    segs.flatMap (segFills2 st compute dtGeom event) =
      ((segs.filter fun seg => st.select_ seg event).flatMap
        fun seg => (recHits1D_S3 seg).map fun hit => (hit, seg)).flatMap
        fun hs => hitFills2 st compute dtGeom event hs.2 hs.1 := by
  induction segs with
  | nil => rfl
  | cons seg rest ih =>
    rw [List.flatMap_cons, ih, List.filter_cons]
    unfold segFills2
    by_cases hs : st.select_ seg event = true
    · rw [if_pos hs, if_pos hs, List.flatMap_cons, List.flatMap_append, List.flatMap_map]
    · rw [if_neg hs, if_neg hs, List.nil_append]

/-- The state a completed event leaves behind, on a registry populated for its run. -/
theorem analyze_populated (compute : DTGeometry K → DTRecHit1D K → DTRecSegment4D K → K)
    (st : State K) (event : Event K) (dtGeom : DTGeometry K)
    (hg : st.dtGeom_ = some dtGeom) (hrun : st.lastrun = event.run)
    (he : EventReady st event) :
    analyze compute st event =
      .ok (bump (analyzeEnter st)
        ((eventSegments event).countP fun seg => st.select_ seg event)
        ((eventSegments event).countP fun seg => ! st.select_ seg event)
        ((acceptedHits st event).flatMap fun hs => hitFills1 st compute dtGeom hs.2 hs.1)
        ((acceptedHits st event).flatMap
          fun hs => hitFills2 st compute dtGeom event hs.2 hs.1)) := by
  rw [analyze_same_run compute st event hrun]
  unfold analyzeSegments
  rw [forEach_chambers compute event dtGeom event.segment4Ds.ids (analyzeEnter st) hg he]
  unfold acceptedHits eventSegments
  rw [← fills1_acceptedHits, ← fills2_acceptedHits]
  rfl

theorem mem_acceptedHits (st : State K) (event : Event K)
    (hs : DTRecHit1D K × DTRecSegment4D K) (h : hs ∈ acceptedHits st event) :
    hs.2 ∈ eventSegments event ∧ st.select_ hs.2 event = true ∧
      hs.1 ∈ recHits1D_S3 hs.2 := by
  unfold acceptedHits at h
  obtain ⟨seg, hseg, hmem⟩ := List.mem_flatMap.mp h
  obtain ⟨hit, hhit, e⟩ := List.mem_map.mp hmem
  obtain ⟨h1, h2⟩ := List.mem_filter.mp hseg
  subst e
  exact ⟨h1, h2, hhit⟩

/-- The values a list of recorded hits sends to the histogram of superlayer `s`. -/
theorem filter_fills_sl (st : State K) (hr : RegistryOK st)
    (compute : DTGeometry K → DTRecHit1D K → DTRecSegment4D K → K) (dtGeom : DTGeometry K)
    (s : DTSuperLayerId) (p : Nat) (hp : slPtr st s = some p)
    (H : List (DTRecHit1D K × DTRecSegment4D K)) (hH : ∀ hs ∈ H, HitReady st hs.1) :
    (((H.flatMap fun hs => hitFills1 st compute dtGeom hs.2 hs.1).filter
        fun f => decide (f.1 = p)).map Prod.snd) =
      (H.filter fun hs => decide (hs.1.wireId.superlayerId = s)).map
        fun hs => compute dtGeom hs.1 hs.2 := by
  induction H with
  | nil => rfl
  | cons hs rest ih =>
    have ih' := ih (fun x hx => hH x (List.mem_cons_of_mem _ hx))
    obtain ⟨⟨p1, h1, e1, _⟩, _, h3⟩ := hH hs (List.mem_cons_self _ _)
    rw [List.flatMap_cons, List.filter_append, List.map_append, ih', List.filter_cons]
    have hlayer : ∀ p2, layerPtr st hs.1.wireId.layerId = some p2 → ¬ p2 = p := by
      intro p2 h2 e
      rw [e] at h2
      exact hr.disjoint s _ p hp h2
    have hkey : (p1 = p) ↔ hs.1.wireId.superlayerId = s := by
      constructor
      · intro e
        rw [e] at e1
        exact hr.slInj _ _ p e1 hp
      · intro e
        rw [e, hp] at e1
        exact (Option.some.inj e1).symm
    have hone : ((hitFills1 st compute dtGeom hs.2 hs.1).filter
        fun f => decide (f.1 = p)).map Prod.snd =
        if hs.1.wireId.superlayerId = s then [compute dtGeom hs.1 hs.2] else [] := by
      unfold hitFills1
      rw [e1]
      by_cases hd : st.detailedAnalysis_ = true
      · obtain ⟨p2, h2, e2, _⟩ := h3 hd
        rw [if_pos hd, e2]
        have hne := hlayer p2 e2
        by_cases hk : hs.1.wireId.superlayerId = s
        · have hk' := hkey.mpr hk
          simp [hk, hk', hne]
        · have hk' : ¬ p1 = p := fun e => hk (hkey.mp e)
          simp [hk, hk', hne]
      · rw [if_neg hd]
        by_cases hk : hs.1.wireId.superlayerId = s
        · have hk' := hkey.mpr hk
          simp [hk, hk']
        · have hk' : ¬ p1 = p := fun e => hk (hkey.mp e)
          simp [hk, hk']
    rw [hone]
    by_cases hk : hs.1.wireId.superlayerId = s
    · simp [hk]
    · simp [hk]

/-- The values a list of recorded hits sends to the histogram of layer `l`. -/
theorem filter_fills_layer (st : State K) (hr : RegistryOK st)
    (compute : DTGeometry K → DTRecHit1D K → DTRecSegment4D K → K) (dtGeom : DTGeometry K)
    (l : DTLayerId) (p : Nat) (hp : layerPtr st l = some p)
    (H : List (DTRecHit1D K × DTRecSegment4D K)) (hH : ∀ hs ∈ H, HitReady st hs.1) :
    (((H.flatMap fun hs => hitFills1 st compute dtGeom hs.2 hs.1).filter
        fun f => decide (f.1 = p)).map Prod.snd) =
      if st.detailedAnalysis_ then
        (H.filter fun hs => decide (hs.1.wireId.layerId = l)).map
          fun hs => compute dtGeom hs.1 hs.2
      else [] := by
  induction H with
  | nil => simp
  | cons hs rest ih =>
    have ih' := ih (fun x hx => hH x (List.mem_cons_of_mem _ hx))
    obtain ⟨⟨p1, h1, e1, _⟩, _, h3⟩ := hH hs (List.mem_cons_self _ _)
    rw [List.flatMap_cons, List.filter_append, List.map_append, ih', List.filter_cons]
    have hsl : ¬ p1 = p := by
      intro e
      rw [e] at e1
      exact hr.disjoint _ l p e1 hp
    have hone : ((hitFills1 st compute dtGeom hs.2 hs.1).filter
        fun f => decide (f.1 = p)).map Prod.snd =
        if st.detailedAnalysis_ then
          (if hs.1.wireId.layerId = l then [compute dtGeom hs.1 hs.2] else [])
        else [] := by
      unfold hitFills1
      rw [e1]
      by_cases hd : st.detailedAnalysis_ = true
      · obtain ⟨p2, h2, e2, _⟩ := h3 hd
        have hkey : (p2 = p) ↔ hs.1.wireId.layerId = l := by
          constructor
          · intro e
            rw [e] at e2
            exact hr.layerInj _ _ p e2 hp
          · intro e
            rw [e, hp] at e2
            exact (Option.some.inj e2).symm
        rw [if_pos hd, if_pos hd, e2]
        by_cases hk : hs.1.wireId.layerId = l
        · have hk' := hkey.mpr hk
          simp [hk, hk', hsl]
        · have hk' : ¬ p2 = p := fun e => hk (hkey.mp e)
          simp [hk, hk', hsl]
      · rw [if_neg hd, if_neg hd]
        simp [hsl]
    rw [hone]
    by_cases hd : st.detailedAnalysis_ = true
    · by_cases hk : hs.1.wireId.layerId = l
      · simp [hd, hk]
      · simp [hd, hk]
    · simp [hd]

/-- No recorded hit fills a histogram at an address outside the two registries. -/
theorem filter_fills_other (st : State K)
    (compute : DTGeometry K → DTRecHit1D K → DTRecSegment4D K → K) (dtGeom : DTGeometry K)
    (p : Nat) (hsl : ∀ s, slPtr st s ≠ some p) (hl : ∀ l, layerPtr st l ≠ some p)
    (H : List (DTRecHit1D K × DTRecSegment4D K)) :
    ((H.flatMap fun hs => hitFills1 st compute dtGeom hs.2 hs.1).filter
        fun f => decide (f.1 = p)) = [] := by
  rw [List.filter_eq_nil_iff]
  intro f hf
  obtain ⟨hs, _, hmem⟩ := List.mem_flatMap.mp hf
  unfold hitFills1 at hmem
  have hne : f.1 ≠ p := by
    rcases List.mem_append.mp hmem with h | h
    · obtain ⟨q, hq, e⟩ := List.mem_map.mp h
      have hq' : slPtr st hs.1.wireId.superlayerId = some q := by
        simpa [Option.mem_toList] using hq
      intro e'
      rw [← e] at e'
      exact hsl _ (by rw [hq']; exact congrArg some e')
    · by_cases hd : st.detailedAnalysis_ = true
      · rw [if_pos hd] at h
        obtain ⟨q, hq, e⟩ := List.mem_map.mp h
        have hq' : layerPtr st hs.1.wireId.layerId = some q := by
          simpa [Option.mem_toList] using hq
        intro e'
        rw [← e] at e'
        exact hl _ (by rw [hq']; exact congrArg some e')
      · rw [if_neg hd] at h
        cases h
  simpa using hne

/-- The fills of the two-dimensional histogram: one per recorded hit of the superlayer
`slIdToFill`. -/
theorem filter_fills2 (st : State K)
    (compute : DTGeometry K → DTRecHit1D K → DTRecSegment4D K → K) (dtGeom : DTGeometry K)
    (event : Event K) (q : Nat) (hq : st.histoResLs = some q)
    (H : List (DTRecHit1D K × DTRecSegment4D K)) :
    (((H.flatMap fun hs => hitFills2 st compute dtGeom event hs.2 hs.1).filter
        fun f => decide (f.1 = q)).map Prod.snd) =
      (H.filter fun hs => decide (hs.1.wireId.superlayerId = slIdToFill)).map
        fun hs => ((event.luminosityBlock : K), compute dtGeom hs.1 hs.2) := by
  induction H with
  | nil => rfl
  | cons hs rest ih =>
    rw [List.flatMap_cons, List.filter_append, List.map_append, ih, List.filter_cons]
    unfold hitFills2
    rw [hq]
    by_cases hk : hs.1.wireId.superlayerId = slIdToFill
    · simp [hk]
    · simp [hk]

end Event

/-! ## The invariant along a job -/

section RegistryJob

variable {K : Type} [LinearOrderedField K]

theorem forEach_ok_invariant {σ α : Type} (I : σ → Prop) (body : σ → α → Except σ σ)
    (hstep : ∀ s a s', I s → body s a = .ok s' → I s') :
    ∀ (l : List α) (s s' : σ), I s → forEach body s l = .ok s' → I s' := by
  intro l
  induction l with
  | nil =>
    intro s s' hs h
    have e := Except.ok.inj h
    rw [← e]
    exact hs
  | cons a rest ih =>
    intro s s' hs h
    unfold forEach at h
    cases hb : body s a with
    | error e => rw [hb] at h; cases h
    | ok s1 =>
      rw [hb] at h
      exact ih s1 s' (hstep s a s1 hs hb) h

theorem fillHistos_ok_RegistryOK (st st' : State K) (s : DTSuperLayerId) (v : K)
    (hr : RegistryOK st) (h : fillHistos st s v = .ok st') : RegistryOK st' := by
  unfold fillHistos at h
  split at h
  · cases h
  · cases h
  · rename_i p rest hm
    split at h
    · cases h
    · rename_i hh ehh
      have e := Except.ok.inj h
      rw [← e, assign_Fill1 _ _ _ _ ehh]
      have e2 : ({ st with th1f := recorded1 st.th1f [(p, v)] } : State K) =
          bump st 0 0 [(p, v)] [] := by
        simp [bump, recorded2_nil]
      rw [e2]
      exact RegistryOK_bump st 0 0 _ _ hr

theorem fillHistosLayer_ok_RegistryOK (st st' : State K) (l : DTLayerId) (v : K)
    (hr : RegistryOK st) (h : fillHistosLayer st l v = .ok st') : RegistryOK st' := by
  unfold fillHistosLayer at h
  split at h
  · cases h
  · cases h
  · rename_i p rest hm
    split at h
    · cases h
    · rename_i hh ehh
      have e := Except.ok.inj h
      rw [← e, assign_Fill1 _ _ _ _ ehh]
      have e2 : ({ st with th1f := recorded1 st.th1f [(p, v)] } : State K) =
          bump st 0 0 [(p, v)] [] := by
        simp [bump, recorded2_nil]
      rw [e2]
      exact RegistryOK_bump st 0 0 _ _ hr

theorem fillHistoResLs_ok_RegistryOK (st st' : State K) (x y : K)
    (hr : RegistryOK st) (h : fillHistoResLs st x y = .ok st') : RegistryOK st' := by
  unfold fillHistoResLs at h
  split at h
  · cases h
  · rename_i q hq
    split at h
    · cases h
    · rename_i hh ehh
      have e := Except.ok.inj h
      rw [← e, assign_Fill2 _ _ _ _ _ ehh]
      have e2 : ({ st with th2f := recorded2 st.th2f [(q, (x, y))] } : State K) =
          bump st 0 0 [] [(q, (x, y))] := by
        simp [bump, recorded1_nil]
      rw [e2]
      exact RegistryOK_bump st 0 0 _ _ hr

theorem analyzeHit_ok_RegistryOK
    (compute : DTGeometry K → DTRecHit1D K → DTRecSegment4D K → K) (event : Event K)
    (segment : DTRecSegment4D K) (st : State K) (hit : DTRecHit1D K) (st' : State K)
    (hr : RegistryOK st) (h : analyzeHit compute event segment st hit = .ok st') :
    RegistryOK st' := by
  unfold analyzeHit at h
  cases hg : st.dtGeom_ with
  | none => rw [hg] at h; cases h
  | some dtGeom =>
    rw [hg] at h
    simp only [] at h
    cases hf : fillHistos st hit.wireId.superlayerId (compute dtGeom hit segment) with
    | error e => rw [hf] at h; cases h
    | ok st1 =>
      rw [hf] at h
      simp only [] at h
      have h1 := fillHistos_ok_RegistryOK st st1 _ _ hr hf
      cases hf2 : (if hit.wireId.superlayerId = slIdToFill then
            fillHistoResLs st1 (event.luminosityBlock : K) (compute dtGeom hit segment)
          else .ok st1) with
      | error e => rw [hf2] at h; cases h
      | ok st2 =>
        rw [hf2] at h
        simp only [] at h
        have h2 : RegistryOK st2 := by
          split at hf2
          · exact fillHistoResLs_ok_RegistryOK st1 st2 _ _ h1 hf2
          · have e := Except.ok.inj hf2
            rw [← e]
            exact h1
        split at h
        · exact fillHistosLayer_ok_RegistryOK st2 st' _ _ h2 h
        · have e := Except.ok.inj h
          rw [← e]
          exact h2

theorem analyzeSegment_ok_RegistryOK
    (compute : DTGeometry K → DTRecHit1D K → DTRecSegment4D K → K) (event : Event K)
    (st : State K) (segment : DTRecSegment4D K) (st' : State K)
    (hr : RegistryOK st) (h : analyzeSegment compute event st segment = .ok st') :
    RegistryOK st' := by
  unfold analyzeSegment at h
  split at h
  · have e := Except.ok.inj h
    rw [← e]
    exact ⟨hr.slValid, hr.layerValid, hr.slInj, hr.layerInj, hr.disjoint, hr.resLsValid,
      hr.unused1, hr.unused2⟩
  · exact forEach_ok_invariant RegistryOK _
      (analyzeHit_ok_RegistryOK compute event segment) _
      { st with segmok := st.segmok + 1 } st'
      ⟨hr.slValid, hr.layerValid, hr.slInj, hr.layerInj, hr.disjoint, hr.resLsValid,
        hr.unused1, hr.unused2⟩ h

theorem analyzeSegments_ok_RegistryOK
    (compute : DTGeometry K → DTRecHit1D K → DTRecSegment4D K → K) (event : Event K)
    (st st' : State K) (hr : RegistryOK st)
    (h : analyzeSegments compute event st = .ok st') : RegistryOK st' :=
  forEach_ok_invariant RegistryOK _
    (fun s chamberIdIt s' hs hb =>
      forEach_ok_invariant RegistryOK _ (analyzeSegment_ok_RegistryOK compute event)
        (event.segment4Ds.get chamberIdIt) s s' hs hb)
    event.segment4Ds.ids st st' hr h

/-- A completed event keeps the invariant. -/
theorem analyze_ok_RegistryOK
    (compute : DTGeometry K → DTRecHit1D K → DTRecSegment4D K → K) (st st' : State K)
    (event : Event K) (hr : RegistryOK st) (h : analyze compute st event = .ok st') :
    RegistryOK st' := by
  unfold analyze at h
  simp only [] at h
  cases ht : (if event.run ≠ (analyzeEnter st).lastrun then
      analyzeNewRun (analyzeEnter st) event.run else .ok (analyzeEnter st)) with
  | error e => rw [ht] at h; cases h
  | ok st1 =>
    rw [ht] at h
    simp only [] at h
    have h1 : RegistryOK st1 := by
      split at ht
      · exact RegistryOK_analyzeNewRun _ st1 event.run (RegistryOK_analyzeEnter st hr) ht
      · have e := Except.ok.inj ht
        rw [← e]
        exact RegistryOK_analyzeEnter st hr
    exact analyzeSegments_ok_RegistryOK compute event st1 st' h1 h

/-- The invariant holds in every state a completed job reaches. -/
theorem runJob_ok_RegistryOK
    (compute : DTGeometry K → DTRecHit1D K → DTRecSegment4D K → K) (st st' : State K)
    (calls : List (Call K)) (hr : RegistryOK st) (h : runJob compute st calls = .ok st') :
    RegistryOK st' :=
  forEach_ok_invariant RegistryOK (step compute)
    (fun s c s' hs hb => by
      cases c with
      | beginRun g =>
        have e := Except.ok.inj hb
        rw [← e]
        exact RegistryOK_beginRun s g hs
      | analyze ev => exact analyze_ok_RegistryOK compute s s' ev hs hb
      | endJob =>
        have e := Except.ok.inj hb
        rw [← e]
        exact RegistryOK_endJob s hs)
    calls st st' hr h

end RegistryJob

/-! ## The counters of a job -/

section JobCounters

variable {K : Type} [LinearOrderedField K]

theorem bookHistos_sameCounters (st : State K) (s : DTSuperLayerId) (run : Nat) :
    SameCounters st (bookHistos st s run) :=
  ⟨rfl, rfl, rfl, rfl, rfl, rfl, rfl⟩

theorem bookHistosLayer_sameCounters (st : State K) (l : DTLayerId) (run : Nat) :
    SameCounters st (bookHistosLayer st l run) :=
  ⟨rfl, rfl, rfl, rfl, rfl, rfl, rfl⟩

theorem foldl_rel {σ α : Type} (R : σ → σ → Prop) (hrefl : ∀ s, R s s)
    (htrans : ∀ a b c, R a b → R b c → R a c) (f : σ → α → σ)
    (h : ∀ s a, R s (f s a)) : ∀ (l : List α) (s : σ), R s (l.foldl f s) := by
  intro l
  induction l with
  | nil => intro s; exact hrefl s
  | cons a rest ih => intro s; exact htrans _ _ _ (h s a) (ih (f s a))

theorem bookLayers_sameCounters (run : Nat) (layers : List (DTLayer K)) (st : State K) :
    SameCounters st (bookLayers run st layers) := by
  unfold bookLayers
  exact foldl_rel SameCounters sameCounters_refl sameCounters_trans
    (fun s (layer_it : DTLayer K) => bookHistosLayer s layer_it.id run)
    (fun s a => bookHistosLayer_sameCounters s a.id run) layers st

theorem bookSuperLayers_sameCounters (run : Nat) (sls : List (DTSuperLayer K))
    (st : State K) : SameCounters st (bookSuperLayers run st sls) := by
  unfold bookSuperLayers
  exact foldl_rel SameCounters sameCounters_refl sameCounters_trans
    (fun s (sl_it : DTSuperLayer K) =>
      let s1 := bookHistos s sl_it.id run
      if s1.detailedAnalysis_ then bookLayers run s1 sl_it.layers else s1)
    (fun s a => by
      show SameCounters s (if (bookHistos s a.id run).detailedAnalysis_ then
        bookLayers run (bookHistos s a.id run) a.layers else bookHistos s a.id run)
      split
      · exact sameCounters_trans _ _ _ (bookHistos_sameCounters s a.id run)
          (bookLayers_sameCounters run a.layers _)
      · exact bookHistos_sameCounters s a.id run) sls st

theorem bookChambers_sameCounters (run : Nat) (chambers : List (DTChamber K))
    (st : State K) : SameCounters st (bookChambers run st chambers) := by
  unfold bookChambers
  exact foldl_rel SameCounters sameCounters_refl sameCounters_trans
    (fun s (ch_it : DTChamber K) => bookSuperLayers run s ch_it.superLayers)
    (fun s a => bookSuperLayers_sameCounters run a.superLayers s) chambers st

/-- The run transition changes no counter, whether it completes or not. -/
theorem analyzeNewRun_counters (st : State K) (run : Nat) :
    (finalState (analyzeNewRun st run)).select_ = st.select_ ∧
    (finalState (analyzeNewRun st run)).detailedAnalysis_ = st.detailedAnalysis_ ∧
    (finalState (analyzeNewRun st run)).dtGeom_ = st.dtGeom_ ∧
    (finalState (analyzeNewRun st run)).nevent = st.nevent ∧
    (finalState (analyzeNewRun st run)).segmok = st.segmok ∧
    (finalState (analyzeNewRun st run)).segmbad = st.segmbad := by
  cases hg : st.dtGeom_ with
  | none =>
    rw [analyzeNewRun_none st run hg]
    exact ⟨rfl, rfl, hg, rfl, rfl, rfl⟩
  | some dtGeom =>
    rw [analyzeNewRun_eq st run dtGeom hg]
    obtain ⟨a1, a2, a3, _, a5, a6, a7⟩ := bookChambers_sameCounters run dtGeom.chambers
      { st with histoMapTH1F_ := fun _ => none }
    exact ⟨a1, a2, a3.trans hg, a5, a6, a7⟩

/-- The state in which the segment loop of `analyze` starts has the counters of the
state `analyze` entered, but for the event counted. -/
theorem analyze_transition_counters (st st1 : State K) (event : Event K)
    (ht : (if event.run ≠ (analyzeEnter st).lastrun then
      analyzeNewRun (analyzeEnter st) event.run else .ok (analyzeEnter st)) = .ok st1) :
    st1.select_ = st.select_ ∧ st1.nevent = st.nevent + 1 ∧ st1.segmok = st.segmok ∧
      st1.segmbad = st.segmbad := by
  split at ht
  · obtain ⟨a1, _, _, a4, a5, a6⟩ := analyzeNewRun_counters (analyzeEnter st) event.run
    rw [ht] at a1 a4 a5 a6
    exact ⟨a1, a4, a5, a6⟩
  · have e := Except.ok.inj ht
    rw [← e]
    exact ⟨rfl, rfl, rfl, rfl⟩

/-- The counters after a completed event. -/
theorem analyze_counted (compute : DTGeometry K → DTRecHit1D K → DTRecSegment4D K → K)
    (st st' : State K) (event : Event K) (h : analyze compute st event = .ok st') :
    st'.select_ = st.select_ ∧ st'.nevent = st.nevent + 1 ∧
    st'.segmok = st.segmok + (eventSegments event).countP (fun seg => st.select_ seg event) ∧
    st'.segmbad =
      st.segmbad + (eventSegments event).countP (fun seg => ! st.select_ seg event) := by
  unfold analyze at h
  simp only [] at h
  cases ht : (if event.run ≠ (analyzeEnter st).lastrun then
      analyzeNewRun (analyzeEnter st) event.run else .ok (analyzeEnter st)) with
  | error e => rw [ht] at h; cases h
  | ok st1 =>
    rw [ht] at h
    simp only [] at h
    obtain ⟨a1, a2, a3, a4⟩ := analyze_transition_counters st st1 event ht
    obtain ⟨b1, b2, b3, b4⟩ := analyzeSegments_counted compute event st1 st' h
    rw [a1] at b3 b4
    exact ⟨b1.trans a1, b2.trans a2, by rw [b3, a3], by rw [b4, a4]⟩

/-- The counters never decrease along an event, whether it completes or not. -/
theorem analyze_monotone (compute : DTGeometry K → DTRecHit1D K → DTRecSegment4D K → K)
    (st : State K) (event : Event K) :
    st.nevent ≤ (finalState (analyze compute st event)).nevent ∧
    st.segmok ≤ (finalState (analyze compute st event)).segmok ∧
    st.segmbad ≤ (finalState (analyze compute st event)).segmbad := by
  unfold analyze
  simp only []
  have h0 := analyzeNewRun_counters (analyzeEnter st) event.run
  cases ht : (if event.run ≠ (analyzeEnter st).lastrun then
      analyzeNewRun (analyzeEnter st) event.run else .ok (analyzeEnter st)) with
  | error e =>
    split at ht
    · rw [ht] at h0
      obtain ⟨_, _, _, a4, a5, a6⟩ := h0
      have a4' : e.nevent = st.nevent + 1 := a4
      have a5' : e.segmok = st.segmok := a5
      have a6' : e.segmbad = st.segmbad := a6
      exact ⟨by show st.nevent ≤ e.nevent; omega, by show st.segmok ≤ e.segmok; omega,
        by show st.segmbad ≤ e.segmbad; omega⟩
    · cases ht
  | ok st1 =>
    obtain ⟨_, a2, a3, a4⟩ := analyze_transition_counters st st1 event ht
    obtain ⟨_, _, _, _, b5, b6, b7⟩ := analyzeSegments_progress compute event st1
    simp only []
    refine ⟨?_, ?_, ?_⟩
    · rw [b5, a2]; exact Nat.le_succ _
    · rw [← a3]; exact b6
    · rw [← a4]; exact b7

/-- The counters after a completed job started in any state. -/
theorem runJob_counted (compute : DTGeometry K → DTRecHit1D K → DTRecSegment4D K → K)
    (calls : List (Call K)) (st st' : State K) (h : runJob compute st calls = .ok st') :
    st'.select_ = st.select_ ∧
    st'.nevent = st.nevent + (calls.map callEvents).sum ∧
    st'.segmok = st.segmok + (calls.map (callAccepted st.select_)).sum ∧
    st'.segmbad = st.segmbad + (calls.map (callRejected st.select_)).sum := by
  unfold runJob at h
  induction calls generalizing st with
  | nil =>
    have e := Except.ok.inj h
    subst e
    exact ⟨rfl, by simp, by simp, by simp⟩
  | cons c rest ih =>
    unfold forEach at h
    cases hb : step compute st c with
    | error e => rw [hb] at h; cases h
    | ok s1 =>
      rw [hb] at h
      obtain ⟨b1, b2, b3, b4⟩ := ih s1 h
      have hstep : s1.select_ = st.select_ ∧ s1.nevent = st.nevent + callEvents c ∧
          s1.segmok = st.segmok + callAccepted st.select_ c ∧
          s1.segmbad = st.segmbad + callRejected st.select_ c := by
        cases c with
        | beginRun g =>
          have e := Except.ok.inj hb
          rw [← e]
          exact ⟨rfl, rfl, rfl, rfl⟩
        | analyze ev => exact analyze_counted compute st s1 ev hb
        | endJob =>
          have e := Except.ok.inj hb
          rw [← e]
          exact ⟨rfl, rfl, rfl, rfl⟩
      obtain ⟨a1, a2, a3, a4⟩ := hstep
      rw [a1] at b3 b4
      simp only [List.map_cons, List.sum_cons]
      exact ⟨b1.trans a1, by rw [b2, a2, Nat.add_assoc], by rw [b3, a3, Nat.add_assoc],
        by rw [b4, a4, Nat.add_assoc]⟩

theorem accepted_add_rejected (select_ : DTRecSegment4D K → Event K → Bool) (c : Call K) :
    callAccepted select_ c + callRejected select_ c = (callSegments c).length := by
  cases c with
  | beginRun g => rfl
  | analyze ev =>
    show (eventSegments ev).countP (fun seg => select_ seg ev) +
      (eventSegments ev).countP (fun seg => ! select_ seg ev) = (eventSegments ev).length
    rw [List.length_eq_countP_add_countP (fun seg => select_ seg ev)]
    congr 2
    funext seg
    cases select_ seg ev <;> rfl
  | endJob => rfl

/-- C8: a completed `analyze` raises the event counter by 1, the accepted counter by
the number of segments of the event the selector accepts and the rejected counter by
the number it rejects, every segment counting in exactly one of the two; `beginRun`,
the run transition and `endJob` change no counter and no counter ever decreases; so
after a completed job, started by the constructor, the event counter is the number of
events and accepted + rejected is the number of segments seen. -/
theorem counters_exact (compute : DTGeometry K → DTRecHit1D K → DTRecSegment4D K → K) :
    (∀ (st st' : State K) (event : Event K), analyze compute st event = .ok st' →
      st'.nevent = st.nevent + 1 ∧
      st'.segmok = st.segmok +
        (eventSegments event).countP (fun seg => st.select_ seg event) ∧
      st'.segmbad = st.segmbad +
        (eventSegments event).countP (fun seg => ! st.select_ seg event) ∧
      (eventSegments event).countP (fun seg => st.select_ seg event) +
        (eventSegments event).countP (fun seg => ! st.select_ seg event) =
          (eventSegments event).length) ∧
    (∀ (st : State K) (dtGeomH : DTGeometry K),
      (beginRun st dtGeomH).nevent = st.nevent ∧ (beginRun st dtGeomH).segmok = st.segmok ∧
      (beginRun st dtGeomH).segmbad = st.segmbad) ∧
    (∀ (st : State K) (run : Nat),
      (finalState (analyzeNewRun st run)).nevent = st.nevent ∧
      (finalState (analyzeNewRun st run)).segmok = st.segmok ∧
      (finalState (analyzeNewRun st run)).segmbad = st.segmbad) ∧
    (∀ st : State K,
      (endJob st).nevent = st.nevent ∧ (endJob st).segmok = st.segmok ∧
      (endJob st).segmbad = st.segmbad) ∧
    (∀ (st : State K) (event : Event K),
      st.nevent ≤ (finalState (analyze compute st event)).nevent ∧
      st.segmok ≤ (finalState (analyze compute st event)).segmok ∧
      st.segmbad ≤ (finalState (analyze compute st event)).segmbad) ∧
    (∀ (select_ : DTRecSegment4D K → Event K → Bool) (detailed : Bool) (lastrun0 : Nat)
      (calls : List (Call K)) (st' : State K),
      runJob compute (construct select_ detailed lastrun0) calls = .ok st' →
      st'.nevent = (calls.map callEvents).sum ∧
      st'.segmok = (calls.map (callAccepted select_)).sum ∧
      st'.segmbad = (calls.map (callRejected select_)).sum ∧
      st'.segmok + st'.segmbad = (calls.map fun c => (callSegments c).length).sum) := by
  refine ⟨fun st st' event h => ?_, fun st g => ⟨rfl, rfl, rfl⟩, fun st run => ?_,
    fun st => ⟨rfl, rfl, rfl⟩, fun st event => analyze_monotone compute st event,
    fun select_ detailed lastrun0 calls st' h => ?_⟩
  · obtain ⟨_, a2, a3, a4⟩ := analyze_counted compute st st' event h
    exact ⟨a2, a3, a4, accepted_add_rejected st.select_ (.analyze event)⟩
  · obtain ⟨_, _, _, a4, a5, a6⟩ := analyzeNewRun_counters st run
    exact ⟨a4, a5, a6⟩
  · obtain ⟨_, a2, a3, a4⟩ := runJob_counted compute calls _ st' h
    have e2 : st'.nevent = (calls.map callEvents).sum := by
      rw [a2]; exact Nat.zero_add _
    have e3 : st'.segmok = (calls.map (callAccepted select_)).sum := by
      rw [a3]; exact Nat.zero_add _
    have e4 : st'.segmbad = (calls.map (callRejected select_)).sum := by
      rw [a4]; exact Nat.zero_add _
    refine ⟨e2, e3, e4, ?_⟩
    rw [e3, e4]
    clear h a2 a3 a4 e2 e3 e4
    induction calls with
    | nil => rfl
    | cons c rest ih =>
      simp only [List.map_cons, List.sum_cons]
      rw [← accepted_add_rejected select_ c, ← ih]
      omega

end JobCounters

/-! ## What an event records -/

section Recording

variable {K : Type} [LinearOrderedField K]

theorem entries1_bump (st : State K) (a b : Nat) (f1 : List (Nat × K))
    (f2 : List (Nat × (K × K))) (p : Nat) (h : TH1F K) (hh : st.th1f p = some h) :
    entries1 (bump (analyzeEnter st) a b f1 f2) p =
      entries1 st p ++ (f1.filter fun f => decide (f.1 = p)).map Prod.snd := by
  have e1 : entries1 (bump (analyzeEnter st) a b f1 f2) p =
      (match recorded1 st.th1f f1 p with
        | some h => h.entries
        | none => []) := rfl
  rw [e1]
  unfold entries1 recorded1
  rw [hh]
  rfl

theorem entries2_bump (st : State K) (a b : Nat) (f1 : List (Nat × K))
    (f2 : List (Nat × (K × K))) (q : Nat) (h : TH2F K) (hh : st.th2f q = some h) :
    entries2 (bump (analyzeEnter st) a b f1 f2) q =
      entries2 st q ++ (f2.filter fun f => decide (f.1 = q)).map Prod.snd := by
  have e1 : entries2 (bump (analyzeEnter st) a b f1 f2) q =
      (match recorded2 st.th2f f2 q with
        | some h => h.entries
        | none => []) := rfl
  rw [e1]
  unfold entries2 recorded2
  rw [hh]
  rfl

theorem recorded1_other (heap : Nat → Option (TH1F K)) (f : List (Nat × K)) (p : Nat)
    (h : (f.filter fun x => decide (x.1 = p)) = []) : recorded1 heap f p = heap p := by
  unfold recorded1
  rw [h]
  cases heap p <;> simp

/-- The hit list the code builds is the specification's: phi view, then z view. -/
theorem recHits1D_S3_eq (segment : DTRecSegment4D K) :
    recHits1D_S3 segment = constituentHits segment := by
  unfold recHits1D_S3 constituentHits
  cases segment.phiSegment <;> cases segment.zSegment <;> rfl

theorem acceptedHits_eq (st : State K) (event : Event K) :
    acceptedHits st event = recordedHits st event := by
  unfold acceptedHits recordedHits
  simp only [recHits1D_S3_eq]

theorem EventRegistered_ready (st : State K) (event : Event K)
    (he : EventRegistered st event) : EventReady st event := by
  intro seg hseg hsel hit hhit
  rw [recHits1D_S3_eq] at hhit
  exact he seg hseg hsel hit hhit

/-- No recorded hit fills a two-dimensional histogram other than `histoResLs`. -/
theorem filter_fills2_other (st : State K)
    (compute : DTGeometry K → DTRecHit1D K → DTRecSegment4D K → K) (dtGeom : DTGeometry K)
    (event : Event K) (q : Nat) (hq : st.histoResLs ≠ some q)
    (H : List (DTRecHit1D K × DTRecSegment4D K)) :
    ((H.flatMap fun hs => hitFills2 st compute dtGeom event hs.2 hs.1).filter
        fun f => decide (f.1 = q)) = [] := by
  rw [List.filter_eq_nil_iff]
  intro f hf
  obtain ⟨hs, _, hmem⟩ := List.mem_flatMap.mp hf
  unfold hitFills2 at hmem
  have hne : f.1 ≠ q := by
    by_cases hk : hs.1.wireId.superlayerId = slIdToFill
    · rw [if_pos hk] at hmem
      obtain ⟨q', hq', e⟩ := List.mem_map.mp hmem
      have hq'' : st.histoResLs = some q' := by
        simpa [Option.mem_toList] using hq'
      intro e'
      rw [← e] at e'
      exact hq (by rw [hq'']; exact congrArg some e')
    · rw [if_neg hk] at hmem
      cases hmem
  simpa using hne

theorem recorded2_other (heap : Nat → Option (TH2F K)) (f : List (Nat × (K × K))) (q : Nat)
    (h : (f.filter fun x => decide (x.1 = q)) = []) : recorded2 heap f q = heap q := by
  unfold recorded2
  rw [h]
  cases heap q <;> simp

/-- C2: on a registry populated for the event's run, with every constituent hit of
the accepted segments registered, `analyze` completes. The recorded hits are the
constituent hits of the segments the selector accepts, for each segment the hits of
its phi view followed by the hits of its z view. The histogram of each superlayer `s`
gains the residuals of the recorded hits whose wire is in `s`, one entry per hit in
that order; the histogram of each layer gains the residuals of the recorded hits on
that layer in detailed mode and nothing otherwise; `histoResLs` gains entries of
recorded hits only; no other histogram changes; so a rejected segment contributes no
entry to any histogram. -/
theorem analyze_records (compute : DTGeometry K → DTRecHit1D K → DTRecSegment4D K → K)
    (st : State K) (event : Event K) (dtGeom : DTGeometry K)
    (hr : RegistryOK st) (hg : st.dtGeom_ = some dtGeom) (hrun : st.lastrun = event.run)
    (he : EventRegistered st event) :
    ∃ st', analyze compute st event = .ok st' ∧
      st'.histoMapTH1F_ = st.histoMapTH1F_ ∧
      st'.histoMapPerLayerTH1F_ = st.histoMapPerLayerTH1F_ ∧
      (∀ s p, slPtr st s = some p →
        entries1 st' p = entries1 st p ++
          ((recordedHits st event).filter
            fun hs => decide (hs.1.wireId.superlayerId = s)).map
            fun hs => compute dtGeom hs.1 hs.2) ∧
      (∀ l p, layerPtr st l = some p →
        entries1 st' p = entries1 st p ++
          (if st.detailedAnalysis_ then
            ((recordedHits st event).filter
              fun hs => decide (hs.1.wireId.layerId = l)).map
              fun hs => compute dtGeom hs.1 hs.2
           else [])) ∧
      (∀ p, (∀ s, slPtr st s ≠ some p) → (∀ l, layerPtr st l ≠ some p) →
        st'.th1f p = st.th1f p) ∧
      (∀ q, st.histoResLs = some q →
        entries2 st' q = entries2 st q ++
          ((recordedHits st event).filter
            fun hs => decide (hs.1.wireId.superlayerId = slIdToFill)).map
            fun hs => ((event.luminosityBlock : K), compute dtGeom hs.1 hs.2)) ∧
      (∀ q, st.histoResLs ≠ some q → st'.th2f q = st.th2f q) ∧
      (recordedHits st event = [] → st'.th1f = st.th1f ∧ st'.th2f = st.th2f) := by
  have he' := EventRegistered_ready st event he
  have hH : ∀ hs ∈ acceptedHits st event, HitReady st hs.1 := by
    intro hs hmem
    obtain ⟨h1, h2, h3⟩ := mem_acceptedHits st event hs hmem
    exact he' hs.2 h1 h2 hs.1 h3
  rw [← acceptedHits_eq]
  refine ⟨_, analyze_populated compute st event dtGeom hg hrun he', rfl, rfl, ?_, ?_, ?_,
    ?_, ?_, ?_⟩
  · intro s p hp
    obtain ⟨_, h, hh⟩ := slPtr_lt st hr s p hp
    rw [entries1_bump st _ _ _ _ p h hh,
      filter_fills_sl st hr compute dtGeom s p hp (acceptedHits st event) hH]
  · intro l p hp
    obtain ⟨_, h, hh⟩ := layerPtr_lt st hr l p hp
    rw [entries1_bump st _ _ _ _ p h hh,
      filter_fills_layer st hr compute dtGeom l p hp (acceptedHits st event) hH]
  · intro p hsl hl
    exact recorded1_other st.th1f _ p
      (filter_fills_other st compute dtGeom p hsl hl (acceptedHits st event))
  · intro q hq
    obtain ⟨_, h, hh⟩ := hr.resLsValid q hq
    rw [entries2_bump st _ _ _ _ q h hh,
      filter_fills2 st compute dtGeom event q hq (acceptedHits st event)]
  · intro q hq
    exact recorded2_other st.th2f _ q
      (filter_fills2_other st compute dtGeom event q hq (acceptedHits st event))
  · intro hnil
    rw [hnil]
    exact ⟨recorded1_nil st.th1f, recorded2_nil st.th2f⟩

end Recording

/-- The residual of the hit of `segWheel` is 1/10. -/
theorem computeQ_segWheel (w : Int) :
    computeQ (geomWheel w) (hitWheel w) (segWheel w) = 1/10 := by
  norm_num [computeQ, segmentToWireDistance, geomWheel, hitWheel, segWheel, flatLayer,
    flatChamber, cosThetaUnit, DTWireId.layerId, DTLayerId.chamberId, abs_of_neg]

/-- The residual of a hit of superlayer 1 on wire `w` for the segment `segPhiZ`. -/
theorem computeQ_segPhiZ_phi (w : Int) :
    computeQ geomWires (hitWire 1 w 0) segPhiZ = |(w : ℚ) - 1/10| := by
  norm_num [computeQ, segmentToWireDistance, geomWires, hitWire, segPhiZ, wireLayer,
    flatChamber, cosThetaUnit, DTWireId.layerId, DTLayerId.chamberId]

/-- The residual of the z hit of the segment `segPhiZ`. -/
theorem computeQ_segPhiZ_z :
    computeQ geomWires (hitWire 2 1 (1/2)) segPhiZ = 1/2 := by
  norm_num [computeQ, segmentToWireDistance, geomWires, hitWire, segPhiZ, wireLayer,
    flatChamber, cosThetaUnit, DTWireId.layerId, DTLayerId.chamberId, abs_of_neg]

/-- C2 on a detailed-mode analyzer populated for run 5: an event of run 5 with an
accepted segment holding two phi hits of superlayer 1 (residuals 9/10 and 19/10) and
one z hit of superlayer 2 (residual 1/2), and a rejected segment holding hits of both
superlayers. The recorded hits are the two phi hits followed by the z hit; the
histograms of superlayer 1 and of its layer hold 9/10, 19/10 in that order, those of
superlayer 2 and of its layer hold 1/2, and `histoResLs` stays empty. -/
theorem analyze_records_witness :
    recordedHits populatedWires (eventWheel 5 2 0 [segPhiZ, segZOnly]) =
      [(hitWire 1 1 0, segPhiZ), (hitWire 1 2 0, segPhiZ), (hitWire 2 1 (1/2), segPhiZ)] ∧
    ∃ st', analyze computeQ populatedWires (eventWheel 5 2 0 [segPhiZ, segZOnly]) = .ok st' ∧
      slPtr populatedWires ⟨0, 1, 1, 1⟩ = some 0 ∧ entries1 st' 0 = [9/10, 19/10] ∧
      layerPtr populatedWires ⟨0, 1, 1, 1, 1⟩ = some 1 ∧ entries1 st' 1 = [9/10, 19/10] ∧
      slPtr populatedWires ⟨0, 1, 1, 2⟩ = some 2 ∧ entries1 st' 2 = [1/2] ∧
      layerPtr populatedWires ⟨0, 1, 1, 2, 1⟩ = some 3 ∧ entries1 st' 3 = [1/2] ∧
      populatedWires.histoResLs = some 0 ∧ entries2 st' 0 = [] := by
  have hr : RegistryOK populatedWires :=
    runJob_ok_RegistryOK computeQ (freshState true) populatedWires
      [.beginRun geomWires, .analyze (eventEmpty 5 1)]
      (RegistryOK_construct selectPhi true 0) rfl
  have he : EventRegistered populatedWires (eventWheel 5 2 0 [segPhiZ, segZOnly]) := by
    intro seg hseg hsel hit hhit
    have hseg' : seg = segPhiZ ∨ seg = segZOnly := by
      simpa [eventSegments, eventWheel] using hseg
    rcases hseg' with e | e
    · subst e
      have hhit' : hit = hitWire 1 1 0 ∨ hit = hitWire 1 2 0 ∨ hit = hitWire 2 1 (1/2) := by
        simpa [constituentHits, segPhiZ] using hhit
      rcases hhit' with e | e | e
      · subst e
        exact ⟨⟨0, _, rfl, rfl⟩, fun h => absurd h (by decide), fun _ => ⟨1, _, rfl, rfl⟩⟩
      · subst e
        exact ⟨⟨0, _, rfl, rfl⟩, fun h => absurd h (by decide), fun _ => ⟨1, _, rfl, rfl⟩⟩
      · subst e
        exact ⟨⟨2, _, rfl, rfl⟩, fun h => absurd h (by decide), fun _ => ⟨3, _, rfl, rfl⟩⟩
    · subst e
      exact absurd hsel (by decide)
  obtain ⟨st', h1, _, _, hsl, hl, _, h2d, _, _⟩ := analyze_records computeQ populatedWires
    (eventWheel 5 2 0 [segPhiZ, segZOnly]) geomWires hr rfl rfl he
  have hrec : recordedHits populatedWires (eventWheel 5 2 0 [segPhiZ, segZOnly]) =
      [(hitWire 1 1 0, segPhiZ), (hitWire 1 2 0, segPhiZ), (hitWire 2 1 (1/2), segPhiZ)] := rfl
  have e0 := hsl ⟨0, 1, 1, 1⟩ 0 rfl
  have e1 := hl ⟨0, 1, 1, 1, 1⟩ 1 rfl
  have e2 := hsl ⟨0, 1, 1, 2⟩ 2 rfl
  have e3 := hl ⟨0, 1, 1, 2, 1⟩ 3 rfl
  have e4 := h2d 0 rfl
  have v0 : entries1 populatedWires 0 ++
      ((recordedHits populatedWires (eventWheel 5 2 0 [segPhiZ, segZOnly])).filter
        fun hs => decide (hs.1.wireId.superlayerId = ⟨0, 1, 1, 1⟩)).map
        (fun hs => computeQ geomWires hs.1 hs.2) =
      [computeQ geomWires (hitWire 1 1 0) segPhiZ,
       computeQ geomWires (hitWire 1 2 0) segPhiZ] := rfl
  have v1 : entries1 populatedWires 1 ++
      (if populatedWires.detailedAnalysis_ then
        ((recordedHits populatedWires (eventWheel 5 2 0 [segPhiZ, segZOnly])).filter
          fun hs => decide (hs.1.wireId.layerId = ⟨0, 1, 1, 1, 1⟩)).map
          (fun hs => computeQ geomWires hs.1 hs.2)
       else []) =
      [computeQ geomWires (hitWire 1 1 0) segPhiZ,
       computeQ geomWires (hitWire 1 2 0) segPhiZ] := rfl
  have v2 : entries1 populatedWires 2 ++
      ((recordedHits populatedWires (eventWheel 5 2 0 [segPhiZ, segZOnly])).filter
        fun hs => decide (hs.1.wireId.superlayerId = ⟨0, 1, 1, 2⟩)).map
        (fun hs => computeQ geomWires hs.1 hs.2) =
      [computeQ geomWires (hitWire 2 1 (1/2)) segPhiZ] := rfl
  have v3 : entries1 populatedWires 3 ++
      (if populatedWires.detailedAnalysis_ then
        ((recordedHits populatedWires (eventWheel 5 2 0 [segPhiZ, segZOnly])).filter
          fun hs => decide (hs.1.wireId.layerId = ⟨0, 1, 1, 2, 1⟩)).map
          (fun hs => computeQ geomWires hs.1 hs.2)
       else []) =
      [computeQ geomWires (hitWire 2 1 (1/2)) segPhiZ] := rfl
  have v4 : entries2 populatedWires 0 ++
      ((recordedHits populatedWires (eventWheel 5 2 0 [segPhiZ, segZOnly])).filter
        fun hs => decide (hs.1.wireId.superlayerId = slIdToFill)).map
        (fun hs => (((eventWheel 5 2 0 [segPhiZ, segZOnly]).luminosityBlock : ℚ),
          computeQ geomWires hs.1 hs.2)) = [] := rfl
  have r1 : computeQ geomWires (hitWire 1 1 0) segPhiZ = 9/10 := by
    rw [computeQ_segPhiZ_phi]; norm_num [abs_of_pos]
  have r2 : computeQ geomWires (hitWire 1 2 0) segPhiZ = 19/10 := by
    rw [computeQ_segPhiZ_phi]; norm_num [abs_of_pos]
  rw [v0, r1, r2] at e0
  rw [v1, r1, r2] at e1
  rw [v2, computeQ_segPhiZ_z] at e2
  rw [v3, computeQ_segPhiZ_z] at e3
  rw [v4] at e4
  exact ⟨hrec, st', h1, rfl, e0, rfl, e1, rfl, e2, rfl, e3, rfl, e4⟩

/-! ## The two-dimensional histogram -/

/-- C5 fails as stated: on an analyzer populated for run 5, an event of run 5 with
one accepted segment holding one hit of superlayer (0,1,1,1) records that hit in the
superlayer histogram and leaves the histogram `histoResLs` without any entry. -/
theorem histoResLs_counterexample :
    analyze computeQ (populated false 0) (eventWheel 5 2 0 [segWheel 0]) =
      .ok (finalState (analyze computeQ (populated false 0) (eventWheel 5 2 0 [segWheel 0]))) ∧
    (acceptedHits (populated false 0) (eventWheel 5 2 0 [segWheel 0])).length = 1 ∧
    (entries1 (finalState (analyze computeQ (populated false 0)
      (eventWheel 5 2 0 [segWheel 0]))) 0).length = 1 ∧
    (populated false 0).histoResLs = some 0 ∧
    (populated false 0).histoMapTH2F_ slIdToFill = some [0] ∧
    (entries2 (finalState (analyze computeQ (populated false 0)
      (eventWheel 5 2 0 [segWheel 0]))) 0).length = 0 :=
  ⟨rfl, rfl, rfl, rfl, rfl, rfl⟩

section Sentinel

variable {K : Type} [LinearOrderedField K]

/-- C5, amended: on a registry populated for the event's run, with every recorded hit
registered, `analyze` completes and the histogram `histoResLs` gains one entry
(luminosity block, residual) for every recorded hit whose superlayer identifier is
`slIdToFill` = (-2,1,1,1), in processing order, and no entry for any other hit; its
entry count grows by the number of recorded hits in that superlayer. -/
theorem analyze_histoResLs (compute : DTGeometry K → DTRecHit1D K → DTRecSegment4D K → K)
    (st : State K) (event : Event K) (dtGeom : DTGeometry K) (q : Nat)
    (hr : RegistryOK st) (hg : st.dtGeom_ = some dtGeom) (hrun : st.lastrun = event.run)
    (he : EventReady st event) (hq : st.histoResLs = some q) :
    ∃ st', analyze compute st event = .ok st' ∧ st'.histoResLs = some q ∧
      entries2 st' q = entries2 st q ++
        ((acceptedHits st event).filter
          fun hs => decide (hs.1.wireId.superlayerId = slIdToFill)).map
          (fun hs => ((event.luminosityBlock : K), compute dtGeom hs.1 hs.2)) ∧
      (entries2 st' q).length = (entries2 st q).length +
        (acceptedHits st event).countP
          (fun hs => decide (hs.1.wireId.superlayerId = slIdToFill)) := by
  obtain ⟨_, h, hh⟩ := hr.resLsValid q hq
  have e : entries2 (bump (analyzeEnter st)
      ((eventSegments event).countP fun seg => st.select_ seg event)
      ((eventSegments event).countP fun seg => ! st.select_ seg event)
      ((acceptedHits st event).flatMap fun hs => hitFills1 st compute dtGeom hs.2 hs.1)
      ((acceptedHits st event).flatMap
        fun hs => hitFills2 st compute dtGeom event hs.2 hs.1)) q =
      entries2 st q ++
        ((acceptedHits st event).filter
          fun hs => decide (hs.1.wireId.superlayerId = slIdToFill)).map
          (fun hs => ((event.luminosityBlock : K), compute dtGeom hs.1 hs.2)) := by
    rw [entries2_bump st _ _ _ _ q h hh,
      filter_fills2 st compute dtGeom event q hq (acceptedHits st event)]
  refine ⟨_, analyze_populated compute st event dtGeom hg hrun he, hq, e, ?_⟩
  rw [e, List.length_append, List.length_map, List.countP_eq_length_filter]

end Sentinel

/-- C5, amended, on an analyzer populated for run 5 on the geometry of wheel -2: an
event of run 5, luminosity block 2, with one accepted segment holding one hit of
superlayer (-2,1,1,1), residual 1/10, leaves `histoResLs` with the single entry
(2, 1/10). -/
theorem analyze_histoResLs_witness :
    ∃ st', analyze computeQ (populated false (-2)) (eventWheel 5 2 (-2) [segWheel (-2)]) =
        .ok st' ∧
      st'.histoResLs = some 0 ∧ entries2 st' 0 = [(2, 1/10)] := by
  have hr : RegistryOK (populated false (-2)) :=
    runJob_ok_RegistryOK computeQ (freshState false) (populated false (-2))
      [.beginRun (geomWheel (-2)), .analyze (eventEmpty 5 1)]
      (RegistryOK_construct selectPhi false 0) rfl
  have he : EventReady (populated false (-2)) (eventWheel 5 2 (-2) [segWheel (-2)]) := by
    intro seg hseg hsel hit hhit
    have hseg' : seg = segWheel (-2) := by
      simpa [eventSegments, eventWheel] using hseg
    subst hseg'
    have hhit' : hit = hitWheel (-2) := by
      simpa [recHits1D_S3, segWheel] using hhit
    subst hhit'
    exact ⟨⟨0, _, rfl, rfl⟩, fun _ => ⟨0, _, rfl, rfl⟩, fun h => absurd h (by decide)⟩
  obtain ⟨st', h1, h2, h3, _⟩ := analyze_histoResLs computeQ (populated false (-2))
    (eventWheel 5 2 (-2) [segWheel (-2)]) (geomWheel (-2)) 0 hr rfl rfl he rfl
  have v : entries2 (populated false (-2)) 0 ++
      ((acceptedHits (populated false (-2)) (eventWheel 5 2 (-2) [segWheel (-2)])).filter
        fun hs => decide (hs.1.wireId.superlayerId = slIdToFill)).map
        (fun hs => (((eventWheel 5 2 (-2) [segWheel (-2)]).luminosityBlock : ℚ),
          computeQ (geomWheel (-2)) hs.1 hs.2)) =
      [(((2 : Nat) : ℚ), computeQ (geomWheel (-2)) (hitWheel (-2)) (segWheel (-2)))] := rfl
  rw [v, computeQ_segWheel] at h3
  refine ⟨st', h1, h2, ?_⟩
  rw [h3]
  norm_num

/-- C8 on a job of one event of run 5 with one accepted segment: one event, one
accepted segment, no rejected segment. -/
theorem counters_exact_witness :
    (finalState (runJob computeQ (freshState false)
      [.beginRun (geomWheel 0), .analyze (eventWheel 5 2 0 [segWheel 0])])).nevent = 1 ∧
    (finalState (runJob computeQ (freshState false)
      [.beginRun (geomWheel 0), .analyze (eventWheel 5 2 0 [segWheel 0])])).segmok = 1 ∧
    (finalState (runJob computeQ (freshState false)
      [.beginRun (geomWheel 0), .analyze (eventWheel 5 2 0 [segWheel 0])])).segmbad = 0 := by
  have h := (counters_exact computeQ).2.2.2.2.2 selectPhi false 0
    [.beginRun (geomWheel 0), .analyze (eventWheel 5 2 0 [segWheel 0])]
    (finalState (runJob computeQ (freshState false)
      [.beginRun (geomWheel 0), .analyze (eventWheel 5 2 0 [segWheel 0])])) rfl
  exact ⟨h.1.trans rfl, h.2.1.trans rfl, h.2.2.1.trans rfl⟩

/-! ## The run transition -/

section Transition

variable {K : Type} [LinearOrderedField K]

theorem keepsBooked_refl (run : Nat) (st : State K) : KeepsBooked run st st :=
  ⟨rfl, fun _ h => h, fun _ h => h⟩

theorem keepsBooked_trans (run : Nat) (a b c : State K) (h1 : KeepsBooked run a b)
    (h2 : KeepsBooked run b c) : KeepsBooked run a c :=
  ⟨h2.1.trans h1.1, fun s h => h2.2.1 s (h1.2.1 s h), fun l h => h2.2.2 l (h1.2.2 l h)⟩

theorem layerPtr_bookHistos (st : State K) (s : DTSuperLayerId) (run : Nat)
    (l : DTLayerId) : layerPtr (bookHistos st s run) l = layerPtr st l := rfl

theorem slPtr_bookHistosLayer (st : State K) (l : DTLayerId) (run : Nat)
    (s : DTSuperLayerId) : slPtr (bookHistosLayer st l run) s = slPtr st s := rfl

theorem BookedSL_bookHistos (st : State K) (s : DTSuperLayerId) (run : Nat) :
    BookedSL run (bookHistos st s run) s := by
  refine ⟨st.th1fNext, _, ?_, Nat.lt_succ_self _, assign_same _ _ _, rfl, rfl, rfl⟩
  rw [slPtr_bookHistos, if_pos rfl]

theorem BookedLayer_bookHistosLayer (st : State K) (l : DTLayerId) (run : Nat) :
    BookedLayer run (bookHistosLayer st l run) l := by
  refine ⟨st.th1fNext, _, ?_, Nat.lt_succ_self _, assign_same _ _ _, rfl, rfl, rfl⟩
  rw [layerPtr_bookHistosLayer, if_pos rfl]

theorem bookHistos_keeps (st : State K) (s : DTSuperLayerId) (run : Nat) :
    KeepsBooked run st (bookHistos st s run) := by
  refine ⟨rfl, fun s' h => ?_, fun l h => ?_⟩
  · by_cases e : s' = s
    · rw [e]
      exact BookedSL_bookHistos st s run
    · obtain ⟨p, hh, h1, h2, h3, h4, h5, h6⟩ := h
      refine ⟨p, hh, ?_, Nat.lt_succ_of_lt h2, ?_, h4, h5, h6⟩
      · rw [slPtr_bookHistos, if_neg e]
        exact h1
      · rw [th1f_bookHistos st s run p (Nat.ne_of_lt h2)]
        exact h3
  · obtain ⟨p, hh, h1, h2, h3, h4, h5, h6⟩ := h
    refine ⟨p, hh, h1, Nat.lt_succ_of_lt h2, ?_, h4, h5, h6⟩
    rw [th1f_bookHistos st s run p (Nat.ne_of_lt h2)]
    exact h3

theorem bookHistosLayer_keeps (st : State K) (l : DTLayerId) (run : Nat) :
    KeepsBooked run st (bookHistosLayer st l run) := by
  refine ⟨rfl, fun s h => ?_, fun l' h => ?_⟩
  · obtain ⟨p, hh, h1, h2, h3, h4, h5, h6⟩ := h
    refine ⟨p, hh, h1, Nat.lt_succ_of_lt h2, ?_, h4, h5, h6⟩
    rw [th1f_bookHistosLayer st l run p (Nat.ne_of_lt h2)]
    exact h3
  · by_cases e : l' = l
    · rw [e]
      exact BookedLayer_bookHistosLayer st l run
    · obtain ⟨p, hh, h1, h2, h3, h4, h5, h6⟩ := h
      refine ⟨p, hh, ?_, Nat.lt_succ_of_lt h2, ?_, h4, h5, h6⟩
      · rw [layerPtr_bookHistosLayer, if_neg e]
        exact h1
      · rw [th1f_bookHistosLayer st l run p (Nat.ne_of_lt h2)]
        exact h3

theorem bookLayers_keeps (run : Nat) (layers : List (DTLayer K)) (st : State K) :
    KeepsBooked run st (bookLayers run st layers) := by
  unfold bookLayers
  exact foldl_rel (KeepsBooked run) (keepsBooked_refl run) (keepsBooked_trans run)
    (fun s (layer_it : DTLayer K) => bookHistosLayer s layer_it.id run)
    (fun s a => bookHistosLayer_keeps s a.id run) layers st

theorem bookSuperLayer_keeps (run : Nat) (st : State K) (sl_it : DTSuperLayer K) :
    KeepsBooked run st
      (if (bookHistos st sl_it.id run).detailedAnalysis_ then
        bookLayers run (bookHistos st sl_it.id run) sl_it.layers
       else bookHistos st sl_it.id run) := by
  split
  · exact keepsBooked_trans run _ _ _ (bookHistos_keeps st sl_it.id run)
      (bookLayers_keeps run sl_it.layers _)
  · exact bookHistos_keeps st sl_it.id run

theorem bookSuperLayers_keeps (run : Nat) (sls : List (DTSuperLayer K)) (st : State K) :
    KeepsBooked run st (bookSuperLayers run st sls) := by
  unfold bookSuperLayers
  exact foldl_rel (KeepsBooked run) (keepsBooked_refl run) (keepsBooked_trans run)
    (fun s (sl_it : DTSuperLayer K) =>
      let s1 := bookHistos s sl_it.id run
      if s1.detailedAnalysis_ then bookLayers run s1 sl_it.layers else s1)
    (fun s a => bookSuperLayer_keeps run s a) sls st

theorem bookChambers_keeps (run : Nat) (chambers : List (DTChamber K)) (st : State K) :
    KeepsBooked run st (bookChambers run st chambers) := by
  unfold bookChambers
  exact foldl_rel (KeepsBooked run) (keepsBooked_refl run) (keepsBooked_trans run)
    (fun s (ch_it : DTChamber K) => bookSuperLayers run s ch_it.superLayers)
    (fun s a => bookSuperLayers_keeps run a.superLayers s) chambers st

/-- A loop that establishes a property for the element it visits and keeps the
properties established before establishes it for every element of the list. -/
theorem foldl_establish {σ α : Type} (P : α → σ → Prop) (f : σ → α → σ)
    (hkeep : ∀ s a b, P b s → P b (f s a)) (hnew : ∀ s a, P a (f s a)) :
    ∀ (l : List α) (s : σ), ∀ a ∈ l, P a (l.foldl f s) := by
  intro l
  induction l with
  | nil => intro s a ha; cases ha
  | cons x rest ih =>
    intro s a ha
    rcases List.mem_cons.mp ha with e | hmem
    · rw [e]
      exact foldl_invariant (P x) f (fun s' a' h => hkeep s' a' x h) rest (f s x) (hnew s x)
    · exact ih (f s x) a hmem

/-- After the loop over its layers every layer of the list is booked. -/
theorem bookLayers_booked (run : Nat) (layers : List (DTLayer K)) (st : State K) :
    ∀ layer ∈ layers, BookedLayer run (bookLayers run st layers) layer.id := by
  unfold bookLayers
  exact foldl_establish (fun (layer : DTLayer K) s => BookedLayer run s layer.id)
    (fun s (layer_it : DTLayer K) => bookHistosLayer s layer_it.id run)
    (fun s a b h => (bookHistosLayer_keeps s a.id run).2.2 b.id h)
    (fun s a => BookedLayer_bookHistosLayer s a.id run) layers st

/-- After the loop over the superlayers every superlayer of the list is booked, and in
detailed mode every layer of every superlayer of the list. -/
theorem bookSuperLayers_booked (run : Nat) (sls : List (DTSuperLayer K)) (st : State K) :
    ∀ sl ∈ sls, BookedSL run (bookSuperLayers run st sls) sl.id ∧
      ((bookSuperLayers run st sls).detailedAnalysis_ = true →
        ∀ layer ∈ sl.layers, BookedLayer run (bookSuperLayers run st sls) layer.id) := by
  unfold bookSuperLayers
  exact foldl_establish
    (fun (sl : DTSuperLayer K) s => BookedSL run s sl.id ∧
      (s.detailedAnalysis_ = true → ∀ layer ∈ sl.layers, BookedLayer run s layer.id))
    (fun s (sl_it : DTSuperLayer K) =>
      let s1 := bookHistos s sl_it.id run
      if s1.detailedAnalysis_ then bookLayers run s1 sl_it.layers else s1)
    (fun s a b h => by
      obtain ⟨k1, k2, k3⟩ := bookSuperLayer_keeps run s a
      exact ⟨k2 b.id h.1, fun hd layer hl => k3 layer.id (h.2 (k1 ▸ hd) layer hl)⟩)
    (fun s a => by
      show BookedSL run (if (bookHistos s a.id run).detailedAnalysis_ then
          bookLayers run (bookHistos s a.id run) a.layers else bookHistos s a.id run) a.id ∧
        ((if (bookHistos s a.id run).detailedAnalysis_ then
          bookLayers run (bookHistos s a.id run) a.layers
          else bookHistos s a.id run).detailedAnalysis_ = true →
          ∀ layer ∈ a.layers, BookedLayer run (if (bookHistos s a.id run).detailedAnalysis_ then
            bookLayers run (bookHistos s a.id run) a.layers
            else bookHistos s a.id run) layer.id)
      by_cases hd : (bookHistos s a.id run).detailedAnalysis_ = true
      · rw [if_pos hd]
        exact ⟨(bookLayers_keeps run a.layers _).2.1 a.id (BookedSL_bookHistos s a.id run),
          fun _ => bookLayers_booked run a.layers _⟩
      · rw [if_neg hd]
        exact ⟨BookedSL_bookHistos s a.id run, fun h => absurd h hd⟩) sls st

/-- After the loop over the chambers every superlayer the geometry enumerates is
booked, and in detailed mode every layer. -/
theorem bookChambers_booked (run : Nat) (chambers : List (DTChamber K)) (st : State K) :
    ∀ ch ∈ chambers, ∀ sl ∈ ch.superLayers,
      BookedSL run (bookChambers run st chambers) sl.id ∧
      ((bookChambers run st chambers).detailedAnalysis_ = true →
        ∀ layer ∈ sl.layers, BookedLayer run (bookChambers run st chambers) layer.id) := by
  unfold bookChambers
  exact foldl_establish
    (fun (ch : DTChamber K) s => ∀ sl ∈ ch.superLayers, BookedSL run s sl.id ∧
      (s.detailedAnalysis_ = true → ∀ layer ∈ sl.layers, BookedLayer run s layer.id))
    (fun s (ch_it : DTChamber K) => bookSuperLayers run s ch_it.superLayers)
    (fun s a b h sl hsl => by
      obtain ⟨k1, k2, k3⟩ := bookSuperLayers_keeps run a.superLayers s
      exact ⟨k2 sl.id (h sl hsl).1,
        fun hd layer hl => k3 layer.id ((h sl hsl).2 (k1 ▸ hd) layer hl)⟩)
    (fun s a => bookSuperLayers_booked run a.superLayers s) chambers st

theorem bookHistoResLs_keeps (run : Nat) (st : State K) :
    KeepsBooked run st (bookHistoResLs st run) :=
  ⟨rfl, fun _ h => h, fun _ h => h⟩

end Transition

section NewRun

variable {K : Type} [LinearOrderedField K]

theorem bookHistoResLs_booked (st : State K) (run : Nat) :
    ∃ q h, (bookHistoResLs st run).histoResLs = some q ∧
      (bookHistoResLs st run).histoMapTH2F_ slIdToFill = some [q] ∧
      (bookHistoResLs st run).th2f q = some h ∧ h.entries = [] ∧
      h.directory = ["Run" ++ to_string run] := by
  refine ⟨st.th2fNext,
    { name := "histoResLs"
      title := "Residuals vs Lumisection"
      nbinsx := 100, xlow := 0, xup := 10000
      nbinsy := 100, ylow := -1, yup := 1
      directory := ["Run" ++ to_string run]
      entries := [] }, rfl, ?_, ?_, rfl, rfl⟩
  · show assign st.histoMapTH2F_ slIdToFill (some [st.th2fNext]) slIdToFill = _
    exact assign_same _ _ _
  · show assign st.th2f st.th2fNext _ st.th2fNext = _
    exact assign_same _ _ _

/-- An event whose run number differs from `lastrun` opens a run scope. -/
theorem analyze_booksRun (compute : DTGeometry K → DTRecHit1D K → DTRecSegment4D K → K)
    (st : State K) (event : Event K) (dtGeom : DTGeometry K)
    (hg : st.dtGeom_ = some dtGeom) (hrun : event.run ≠ st.lastrun) :
    BooksRun compute st event dtGeom := by
  have hg' : (analyzeEnter st).dtGeom_ = some dtGeom := hg
  have hnew := analyze_new_run compute st event dtGeom hg hrun
  have hch := bookChambers_booked event.run dtGeom.chambers
    { analyzeEnter st with histoMapTH1F_ := fun _ => none }
  have hsame := bookChambers_sameCounters event.run dtGeom.chambers
    { analyzeEnter st with histoMapTH1F_ := fun _ => none }
  refine ⟨_, analyzeNewRun_eq (analyzeEnter st) event.run dtGeom hg', hnew, rfl, ?_, ?_, ?_, ?_⟩
  · intro s hs
    obtain ⟨ch, hch1, hmem⟩ := List.mem_flatMap.mp hs
    obtain ⟨sl, hsl, e⟩ := List.mem_map.mp hmem
    rw [← e]
    exact (hch ch hch1 sl hsl).1
  · intro hd l hl
    obtain ⟨ch, hch1, hmem⟩ := List.mem_flatMap.mp hl
    obtain ⟨sl, hsl, hmem2⟩ := List.mem_flatMap.mp hmem
    obtain ⟨layer, hlayer, e⟩ := List.mem_map.mp hmem2
    rw [← e]
    exact (hch ch hch1 sl hsl).2 (hsame.2.1.trans hd) layer hlayer
  · exact bookHistoResLs_booked _ event.run
  · rw [hnew]
    exact (analyzeSegments_progress compute event _).2.2.2.1

/-- C4 fails as stated: on a fresh analyzer after `beginRun`, a first event of run 0
books nothing, although the geometry enumerates superlayer (0,1,1,1); with a hit in
that superlayer the recording then ends the computation. -/
theorem first_event_run_zero_counterexample :
    slA ∈ superLayerIds (geomWheel 0) ∧
    analyze computeQ (beginRun (freshState false) (geomWheel 0)) (eventEmpty 0 1) =
      .ok (finalState
        (analyze computeQ (beginRun (freshState false) (geomWheel 0)) (eventEmpty 0 1))) ∧
    (finalState (analyze computeQ (beginRun (freshState false) (geomWheel 0))
      (eventEmpty 0 1))).histoMapTH1F_ slA = none ∧
    (finalState (analyze computeQ (beginRun (freshState false) (geomWheel 0))
      (eventEmpty 0 1))).histoResLs = none ∧
    (finalState (analyze computeQ (beginRun (freshState false) (geomWheel 0))
      (eventEmpty 0 1))).th1fNext = 0 ∧
    analyze computeQ (beginRun (freshState false) (geomWheel 0))
        (eventWheel 0 1 0 [segWheel 0]) =
      .error (finalState (analyze computeQ (beginRun (freshState false) (geomWheel 0))
        (eventWheel 0 1 0 [segWheel 0]))) :=
  ⟨by decide, rfl, rfl, rfl, rfl, rfl⟩

/-- C4, amended: `analyze` opens a run scope whenever the event's run number differs
from `lastrun`, and only then; `beginRun` sets `lastrun` to 0, so the first event
after `beginRun` opens one for every run number other than 0: `analyze` books the
histograms for that run before any hit of the event is recorded, and when it stops
the scoped run is the event's. -/
theorem analyze_opens_run (compute : DTGeometry K → DTRecHit1D K → DTRecSegment4D K → K)
    (event : Event K) :
    (∀ (st : State K) (dtGeom : DTGeometry K), st.dtGeom_ = some dtGeom →
      event.run ≠ st.lastrun → BooksRun compute st event dtGeom) ∧
    (∀ st : State K, st.lastrun = event.run →
      analyze compute st event = analyzeSegments compute event (analyzeEnter st)) ∧
    (∀ (st : State K) (dtGeomH : DTGeometry K), event.run ≠ 0 →
      BooksRun compute (beginRun st dtGeomH) event dtGeomH) :=
  ⟨fun st dtGeom hg hrun => analyze_booksRun compute st event dtGeom hg hrun,
   fun st hrun => analyze_same_run compute st event hrun,
   fun st dtGeomH hrun => analyze_booksRun compute (beginRun st dtGeomH) event dtGeomH rfl hrun⟩

end NewRun

/-- C4, amended, on a fresh detailed-mode analyzer after `beginRun`: a first event of
run 5 opens the scope of run 5. -/
theorem analyze_opens_run_witness :
    BooksRun computeQ (beginRun (freshState true) (geomWheel 0))
      (eventWheel 5 2 0 [segWheel 0]) (geomWheel 0) :=
  (analyze_opens_run computeQ (eventWheel 5 2 0 [segWheel 0])).2.2
    (freshState true) (geomWheel 0) (by decide)

/-- C3 fails on the code: in detailed mode, after a run 100 on the geometry of wheel 0
in which 1/10 is recorded and a run 101 on the geometry of wheel 1, the layer map
still holds the key of layer (0,1,1,1,1), which the geometry of run 101 does not
enumerate, and under it the histogram of run 100 with its entry; the superlayer map
was cleared. -/
theorem analyze_keeps_stale_layer :
    runJob computeQ (freshState true)
      [.beginRun (geomWheel 0), .analyze (eventWheel 100 1 0 [segWheel 0]),
       .beginRun (geomWheel 1), .analyze (eventEmpty 101 1)] =
      .ok (finalState (runJob computeQ (freshState true)
        [.beginRun (geomWheel 0), .analyze (eventWheel 100 1 0 [segWheel 0]),
         .beginRun (geomWheel 1), .analyze (eventEmpty 101 1)])) ∧
    (finalState (runJob computeQ (freshState true)
      [.beginRun (geomWheel 0), .analyze (eventWheel 100 1 0 [segWheel 0]),
       .beginRun (geomWheel 1), .analyze (eventEmpty 101 1)])).lastrun = 101 ∧
    layerA ∉ layerIds (geomWheel 1) ∧
    (finalState (runJob computeQ (freshState true)
      [.beginRun (geomWheel 0), .analyze (eventWheel 100 1 0 [segWheel 0]),
       .beginRun (geomWheel 1), .analyze (eventEmpty 101 1)])).histoMapPerLayerTH1F_ layerA =
      some [1] ∧
    entries1 (finalState (runJob computeQ (freshState true)
      [.beginRun (geomWheel 0), .analyze (eventWheel 100 1 0 [segWheel 0]),
       .beginRun (geomWheel 1), .analyze (eventEmpty 101 1)])) 1 = [1/10] ∧
    (finalState (runJob computeQ (freshState true)
      [.beginRun (geomWheel 0), .analyze (eventWheel 100 1 0 [segWheel 0]),
       .beginRun (geomWheel 1), .analyze (eventEmpty 101 1)])).histoMapTH1F_ slA = none := by
  refine ⟨rfl, rfl, by decide, rfl, ?_, rfl⟩
  have e : entries1 (finalState (runJob computeQ (freshState true)
      [.beginRun (geomWheel 0), .analyze (eventWheel 100 1 0 [segWheel 0]),
       .beginRun (geomWheel 1), .analyze (eventEmpty 101 1)])) 1 =
      [computeQ (geomWheel 0) (hitWheel 0) (segWheel 0)] := rfl
  rw [e, computeQ_segWheel]

/-! ## Recording under a layer of an earlier run scope -/

/-- C7 fails on the code: after a run 100 on the geometry of wheel 0 and the
transition to run 101 on the geometry of wheel 1, neither superlayer (0,1,1,1) nor
layer (0,1,1,1,1) is registered in the scope of run 101. `fillHistos` on the
superlayer fails and changes no histogram, as the claim says; `fillHistos` on the
layer succeeds, because the layer map was not cleared, and appends the value to the
histogram booked for run 100. -/
theorem fillHistosLayer_stale_key :
    staleLayerState.lastrun = 101 ∧
    staleLayerState.dtGeom_.map superLayerIds = some [⟨1, 1, 1, 1⟩] ∧
    staleLayerState.dtGeom_.map layerIds = some [⟨1, 1, 1, 1, 1⟩] ∧
    fillHistos staleLayerState slA (7/10) =
      .error (finalState (fillHistos staleLayerState slA (7/10))) ∧
    (finalState (fillHistos staleLayerState slA (7/10))).th1f = staleLayerState.th1f ∧
    fillHistosLayer staleLayerState layerA (7/10) =
      .ok (finalState (fillHistosLayer staleLayerState layerA (7/10))) ∧
    staleLayerState.histoMapPerLayerTH1F_ layerA = some [1] ∧
    (staleLayerState.th1f 1).map (fun h => h.directory) =
      some ["Run" ++ to_string 100, "Wheel" ++ to_string 0] ∧
    entries1 staleLayerState 1 = [1/10] ∧
    entries1 (finalState (fillHistosLayer staleLayerState layerA (7/10))) 1 =
      [1/10, 7/10] := by
  refine ⟨rfl, rfl, rfl, rfl, rfl, rfl, rfl, rfl, ?_, ?_⟩
  · have e : entries1 staleLayerState 1 =
        [computeQ (geomWheel 0) (hitWheel 0) (segWheel 0)] := rfl
    rw [e, computeQ_segWheel]
  · have e : entries1 (finalState (fillHistosLayer staleLayerState layerA (7/10))) 1 =
        [computeQ (geomWheel 0) (hitWheel 0) (segWheel 0), 7/10] := rfl
    rw [e, computeQ_segWheel]

end DTResidualHistory
